import Mathlib

/-!
QEMU driver: monitor client, boot parser and lifecycle controller.

A shallow embedding of parts of `src/qemu_driver.c`.

Conventions of the embedding.
* A C `char` is its code, a natural number (`'\n'` is 10, `'\r'` is 13, ...).
* A `const char *` argument is the list of the bytes that follow the pointer; the
  string it denotes ends at the first NUL byte or, when there is none, at the
  end of the list (the terminator is then the byte that follows the list).
* A heap block is the list of its bytes; a store is `List.set`.
* Results of system calls and of allocations are inputs of the model.
* Lengths and counters are unbounded: the wrap-around of `int` is not modelled.
-/

/-! ## C strings -/

/-- The C string stored at the start of a byte sequence: the bytes before the first NUL. -/
def cstr : List Nat → List Nat
  | [] => []
  | c :: rest => if c = 0 then [] else c :: cstr rest

/-- The bytes of a string literal. -/
def bytes (s : String) : List Nat := s.toList.map Char.toNat

/-- `VIR_ALLOC_N(ptr, n)` for a byte array (`virAllocN` in `util/viralloc.c`): on success the
block holds `n` zero bytes (`calloc`), on failure the pointer is NULL. The outcome of `calloc`
is the input `ok`. -/
def VIR_ALLOC_N (ok : Bool) (n : Nat) : Option (List Nat) :=
  if ok then some (List.replicate n 0) else none

/-! ## `qemudEscape` -/

/-- First loop of `qemudEscape`: the number of bytes the escaped string needs, accumulated
in `len`. -/
def qemudEscapeLen (shell : Bool) : Nat → List Nat → Nat
  | len, [] => len
  | len, c :: rest =>
    if c = 0 then len
    else if c = 13 ∨ c = 10 ∨ c = 34 ∨ c = 92 then qemudEscapeLen shell (len + 2) rest
    else if c = 39 then
      (if shell then qemudEscapeLen shell (len + 5) rest
       else qemudEscapeLen shell (len + 1) rest)
    else qemudEscapeLen shell (len + 1) rest

/-- Second loop of `qemudEscape`: stores the escaped bytes into the block `out` from
index `j` on and returns the block and the final `j`. -/
def qemudEscapeFill (shell : Bool) : List Nat → Nat → List Nat → List Nat × Nat
  | out, j, [] => (out, j)
  | out, j, c :: rest =>
    if c = 0 then (out, j)
    else if c = 13 then
      qemudEscapeFill shell ((out.set j 92).set (j + 1) 114) (j + 2) rest
    else if c = 10 then
      qemudEscapeFill shell ((out.set j 92).set (j + 1) 110) (j + 2) rest
    else if c = 34 ∨ c = 92 then
      qemudEscapeFill shell ((out.set j 92).set (j + 1) c) (j + 2) rest
    else if c = 39 then
      (if shell then
        qemudEscapeFill shell
          (((((out.set j 39).set (j + 1) 92).set (j + 2) 92).set (j + 3) 39).set (j + 4) 39)
          (j + 5) rest
       else qemudEscapeFill shell (out.set j c) (j + 1) rest)
    else qemudEscapeFill shell (out.set j c) (j + 1) rest

/-- `qemudEscape(in, shell)`: `none` is the NULL returned when the allocation fails,
otherwise the C string held by the returned block. -/
def qemudEscape (allocOk : Bool) (inp : List Nat) (shell : Bool) : Option (List Nat) :=
  match VIR_ALLOC_N allocOk (qemudEscapeLen shell 0 inp + 1) with
  | none => none
  | some out =>
    let r := qemudEscapeFill shell out 0 inp
    some (cstr (r.1.set r.2 0))

/-- `qemudEscapeMonitorArg(in)`. -/
def qemudEscapeMonitorArg (allocOk : Bool) (inp : List Nat) : Option (List Nat) :=
  qemudEscape allocOk inp false

/-- `qemudEscapeShellArg(in)`. -/
def qemudEscapeShellArg (allocOk : Bool) (inp : List Nat) : Option (List Nat) :=
  qemudEscape allocOk inp true

/-- The escape sequence the specification gives for one byte. -/
def specEscapeByte (shell : Bool) (c : Nat) : List Nat :=
  if c = 13 then [92, 114]
  else if c = 10 then [92, 110]
  else if c = 34 then [92, 34]
  else if c = 92 then [92, 92]
  else if c = 39 then (if shell then [39, 92, 92, 39, 39] else [39])
  else [c]

/-- The escaped string of the specification: the escape sequences of the bytes, in order. -/
def specEscape (shell : Bool) (s : List Nat) : List Nat :=
  (s.map (specEscapeByte shell)).flatten

/-- Modelled from the spec: the unescaping the monitor applies to a command argument (it is
the emulator that does it, no function of the driver): scanning left to right, backslash `r`
is CR, backslash `n` is LF, and backslash followed by any other byte is that byte. A
backslash that ends the text stands for itself. -/
def specMonitorUnescape : List Nat → List Nat
  | [] => []
  | [c] => [c]
  | c :: d :: rest =>
    if c = 92 then
      (if d = 114 then 13 else if d = 110 then 10 else d) :: specMonitorUnescape rest
    else c :: specMonitorUnescape (d :: rest)

/-- Bytes that end an unquoted shell word: blank, newline and the operator characters. -/
def shellDelimiter (c : Nat) : Bool :=
  c = 32 || c = 9 || c = 10 || c = 124 || c = 38 || c = 59 || c = 60 || c = 62 || c = 40 || c = 41

/-- Unquoted bytes that start a construct other than quoting (double quotes, expansions,
patterns, comments), which the model of the shell does not interpret. -/
def shellUnmodelled (c : Nat) : Bool :=
  c = 34 || c = 36 || c = 96 || c = 42 || c = 63 || c = 91 || c = 35 || c = 126

/-- Modelled from the spec: the POSIX shell reading one word (Shell Command Language,
Quoting). `inQuote` tells whether the text is inside single quotes, `acc` is the value of
the word read so far. Inside single quotes every byte is literal up to the closing quote;
outside, a backslash makes the next byte literal (backslash newline is a line continuation),
a single quote opens a quoted part, a delimiter ends the word. The result is the value of
the word and the text that follows it; `none` when a quote is not closed or the word uses a
construct the model does not interpret. -/
def shellWord : Bool → List Nat → List Nat → Option (List Nat × List Nat)
  | true, _, [] => none
  | false, acc, [] => some (acc, [])
  | true, acc, c :: rest =>
    if c = 39 then shellWord false acc rest else shellWord true (acc ++ [c]) rest
  | false, acc, [c] =>
    if c = 39 then none
    else if c = 92 then some (acc ++ [c], [])
    else if shellDelimiter c then some (acc, [c])
    else if shellUnmodelled c then none
    else some (acc ++ [c], [])
  | false, acc, c :: d :: rest =>
    if c = 39 then shellWord true acc (d :: rest)
    else if c = 92 then
      (if d = 10 then shellWord false acc rest else shellWord false (acc ++ [d]) rest)
    else if shellDelimiter c then some (acc, c :: d :: rest)
    else if shellUnmodelled c then none
    else shellWord false (acc ++ [c]) (d :: rest)

/-- The text of the shell command that follows the escaped path in the `migrate` command
built by `qemudDomainSave` (`"dd of='%s' oflag=append conv=notrunc 2>/dev/null"`), closing
quote included. -/
def saveCommandTail : List Nat := bytes "' oflag=append conv=notrunc 2>/dev/null"

/-! ## C library -/

/-- `strstr(hay, needle)` on the contents of two C strings: the offset of the first
occurrence of `needle` in `hay`, `none` for NULL. -/
def strstr : List Nat → List Nat → Option Nat
  | [], needle => if needle = [] then some 0 else none
  | c :: t, needle =>
    if needle.isPrefixOf (c :: t) then some 0 else (strstr t needle).map (· + 1)

/-- `strchr(s, ch)` for `ch` other than NUL on the contents of a C string: the offset of
the first `ch`, `none` for NULL. -/
def strchr : List Nat → Nat → Option Nat
  | [], _ => none
  | c :: t, ch => if c = ch then some 0 else (strchr t ch).map (· + 1)

/-- `memmove(block + dst, block + src, n)` inside one heap block: `none` when the source or
the destination range leaves the block. -/
def memmove (block : List Nat) (dst src n : Nat) : Option (List Nat) :=
  if src + n ≤ block.length ∧ dst + n ≤ block.length then
    some (block.take dst ++ (block.drop src).take n ++ block.drop (dst + n))
  else none

/-! ## `qemudMonitorCommand` -/

/-- The result of one `read(vm->monitor, data, sizeof(data))` of `qemudMonitorCommand`. -/
inductive MonRead
  /-- `got > 0`: the bytes read; `VIR_REALLOC_N` succeeds. -/
  | data (d : List Nat)
  /-- `got > 0`, and `VIR_REALLOC_N` fails. -/
  | nomem
  /-- `got == 0`. -/
  | eof
  /-- `got < 0` with `errno == EINTR`. -/
  | eintr
  /-- `got < 0` with `errno == EAGAIN`; `pollOk` is the result of the `poll` that follows when
  the prompt has not arrived (retried while it fails with `EINTR`). -/
  | eagain (pollOk : Bool)
  /-- `got < 0` with any other `errno`. -/
  | error
  deriving DecidableEq, Repr

/-- How `qemudMonitorCommand` ends. -/
inductive MonitorResult
  /-- Returns 0; `*reply` is the heap block `buf`. -/
  | reply (buf : List Nat)
  /-- Returns -1. -/
  | failed
  /-- Still waiting for the monitor when the recorded results of `read` end. -/
  | waiting
  /-- A `memmove` outside the block `buf`. -/
  | invalidAccess
  deriving DecidableEq, Repr

/-- The prompt that ends a reply of the monitor. -/
def monitorPrompt : List Nat := bytes "\n(qemu) "

/-- The body of `if (buf && ((tmp = strstr(buf, "\n(qemu) ")) != NULL))` in
`qemudMonitorCommand`, for the block `buf` (`[]` is NULL) and the command `cmd`: `none` when
the condition is false. -/
def qemudMonitorPromptFound (cmd buf : List Nat) : Option MonitorResult :=
  if buf = [] then none
  else
    match strstr (cstr buf) monitorPrompt with
    | none => none
    | some tmp =>
      let buf1 := buf.set (tmp + 1) 0
      let moved : Option (List Nat) :=
        match strstr (cstr buf1) (cstr cmd) with
        | some commptr => memmove buf1 0 commptr ((cstr (buf1.drop commptr)).length + 1)
        | none => some buf1
      match moved with
      | none => some MonitorResult.invalidAccess
      | some buf2 =>
        match strchr (cstr buf2) 10 with
        | some nlptr =>
          (match memmove buf2 (cstr cmd).length nlptr ((cstr (buf2.drop nlptr)).length + 1) with
           | some buf3 => some (MonitorResult.reply buf3)
           | none => some MonitorResult.invalidAccess)
        | none => some (MonitorResult.reply buf2)

/-- The `for (;;)` loops of `qemudMonitorCommand`, driven by the results of the successive
`read` calls; `buf` is the block read so far (`size + 1` bytes, or NULL). -/
def qemudMonitorLoop (cmd : List Nat) : List Nat → Nat → List MonRead → MonitorResult
  | _, _, [] => MonitorResult.waiting
  | buf, size, MonRead.data d :: rest =>
    if d.length = 0 then MonitorResult.failed
    else qemudMonitorLoop cmd (buf.take size ++ d ++ [0]) (size + d.length) rest
  | _, _, MonRead.nomem :: _ => MonitorResult.failed
  | _, _, MonRead.eof :: _ => MonitorResult.failed
  | buf, size, MonRead.eintr :: rest => qemudMonitorLoop cmd buf size rest
  | buf, size, MonRead.eagain pollOk :: rest =>
    match qemudMonitorPromptFound cmd buf with
    | some r => r
    | none => if pollOk then qemudMonitorLoop cmd buf size rest else MonitorResult.failed
  | _, _, MonRead.error :: _ => MonitorResult.failed

/-- `qemudMonitorCommand(vm, cmd, &reply)`: `writeCmdOk` and `writeCrOk` tell whether the two
`safewrite` calls wrote everything, `reads` are the results of the `read` calls. -/
def qemudMonitorCommand (cmd : List Nat) (writeCmdOk writeCrOk : Bool) (reads : List MonRead) :
    MonitorResult :=
  if !writeCmdOk then MonitorResult.failed
  else if !writeCrOk then MonitorResult.failed
  else qemudMonitorLoop cmd [] 0 reads

/-- The reply of `qemudMonitorCommand` as a C string, when it returns 0. -/
def MonitorResult.text : MonitorResult → Option (List Nat)
  | MonitorResult.reply buf => some (cstr buf)
  | _ => none

/-- The raw bytes the monitor sends in scenario S3 (`X` is the echo noise). -/
def s3Raw : List Nat :=
  bytes "iXinXinfXinfoXinfo Xinfo cXinfo cpXinfo cpuXinfo cpusX\n* CPU #0: pc=0x0 thread_id=42\n(qemu) "

/-- An occurrence of `needle` at offset `i` of `hay`, with none at a smaller offset. -/
def FirstOccurrence (needle hay : List Nat) (i : Nat) : Prop :=
  i ≤ hay.length ∧ needle <+: hay.drop i ∧ ∀ j, j < i → ¬ needle <+: hay.drop j

instance (needle hay : List Nat) (i : Nat) : Decidable (FirstOccurrence needle hay i) := by
  unfold FirstOccurrence
  exact inferInstance

/-! ## Domain definitions and domain objects -/

/-- `enum virDomainVirtType` (only `VIR_DOMAIN_VIRT_KVM` is told apart by the driver). -/
inductive VirtType
  | qemu | kqemu | kvm | xen
  deriving DecidableEq, Repr

/-- `enum virDomainChrType` (only `VIR_DOMAIN_CHR_TYPE_PTY` is told apart by the driver). -/
inductive ChrType
  | null | vc | pty | dev | file | pipe | stdio | udp | tcp | unix
  deriving DecidableEq, Repr

/-- The states of a domain the driver uses (`VIR_DOMAIN_SHUTOFF`, `VIR_DOMAIN_RUNNING`,
`VIR_DOMAIN_PAUSED`). -/
inductive DomainState
  | shutoff | running | paused
  deriving DecidableEq, Repr

/-- `virDomainChrDef`: the type of a character device and `data.file.path` (`none` is NULL). -/
structure DomainChrDef where
  type : ChrType
  path : Option (List Nat)
  deriving DecidableEq, Repr

/-- `virDomainGraphicsDef`, the fields the driver reads. -/
structure DomainGraphicsDef where
  isVnc : Bool
  autoport : Bool
  port : Int
  deriving DecidableEq, Repr

/-- `virDomainDef`, the fields the driver reads or writes. -/
structure DomainDef where
  id : Int
  name : List Nat
  uuid : List Nat
  virtType : VirtType
  vcpus : Nat
  graphics : Option DomainGraphicsDef
  serials : List DomainChrDef
  parallels : List DomainChrDef
  deriving DecidableEq, Repr

/-- `virDomainObj`; the field `def` is `def_`, a NULL pointer is `none`. -/
structure DomainObj where
  stdin_fd : Int
  stdout_fd : Int
  stdout_watch : Int
  stderr_fd : Int
  stderr_watch : Int
  monitor : Int
  monitorpath : Option (List Nat)
  logfile : Int
  pid : Int
  state : DomainState
  nvcpupids : Int
  vcpupids : Option (List Int)
  autostart : Bool
  persistent : Bool
  def_ : DomainDef
  newDef : Option DomainDef
  deriving DecidableEq, Repr

/-- How a call ends: it returns `code` and leaves the state `st`, or it performs an access
outside an object, or it does not return. -/
inductive Outcome (σ : Type)
  | returns (code : Int) (st : σ)
  | undefinedBehaviour
  | noReturn
  deriving DecidableEq, Repr

/-- The value a call returns, when it returns. -/
def Outcome.code {σ : Type} : Outcome σ → Option Int
  | Outcome.returns c _ => some c
  | _ => none

/-- The state a call leaves, when it returns. -/
def Outcome.final {σ : Type} : Outcome σ → Option σ
  | Outcome.returns _ st => some st
  | _ => none

/-- Modelled from the spec: `virDomainIsActive(vm)` (of `domain_conf.h`, outside the
sources): a domain is active when it has an id, inactive domains having id -1. -/
def virDomainIsActive (vm : DomainObj) : Bool := vm.def_.id != -1

/-! ## `qemudDetectVcpuPIDs` -/

/-- Modelled from the spec: `c_isspace` (gnulib `c-ctype.h`, outside the sources), the
white-space characters of the C locale: space, `\t`, `\n`, `\v`, `\f`, `\r`. -/
def c_isspace (c : Nat) : Bool :=
  c = 32 || c = 9 || c = 10 || c = 11 || c = 12 || c = 13

/-- A decimal digit. -/
def isDigit (c : Nat) : Bool := 48 ≤ c && c ≤ 57

/-- The value of a sequence of decimal digits. -/
def digitsValue (ds : List Nat) : Nat := ds.foldl (fun acc d => 10 * acc + (d - 48)) 0

/-- Modelled from the spec: `virStrToLong_i(s, &end, 10, &result)` (of `util.c`, outside the
sources), a wrapper of `strtol`: optional white space, an optional sign, decimal digits.
`none` is the return value -1 (no digit, or a value that does not fit in `int`); otherwise
the value and the offset `end - s` of the first byte after the digits. -/
def virStrToLong_i (s : List Nat) : Option (Int × Nat) :=
  let ws := (s.takeWhile c_isspace).length
  let neg := (s.drop ws).head? = some 45
  let signLen := if (s.drop ws).head? = some 45 ∨ (s.drop ws).head? = some 43 then 1 else 0
  let digits := (s.drop (ws + signLen)).takeWhile isDigit
  if digits = [] then none
  else
    let v : Int := if neg then - (digitsValue digits : Int) else (digitsValue digits : Int)
    if v < -2147483648 ∨ 2147483647 < v then none
    else some (v, ws + signLen + digits.length)

/-- The byte a pointer at offset `i` of a C string points to (NUL at the end). -/
def charAt (s : List Nat) (i : Nat) : Nat := s.getD i 0

/-- The key `"thread_id="`. -/
def threadIdKey : List Nat := bytes "thread_id="

/-- How the `do ... while` loop of `qemudDetectVcpuPIDs` ends. -/
inductive VcpuParse
  /-- The loop is left by `break` or by its condition, with these `lastVcpu` and `vcpupids`. -/
  | done (lastVcpu : Int) (vcpupids : List Int)
  /-- `goto error`. -/
  | error
  /-- The store `vm->vcpupids[vcpu] = tid` is outside the array. -/
  | invalidStore (vcpu : Int)
  /-- The bound on the number of iterations given to the model is reached. -/
  | outOfFuel
  deriving DecidableEq, Repr

/-- The `do ... while (line != NULL)` loop of `qemudDetectVcpuPIDs`; `line` is the C string
at the pointer `line`, `fuel` bounds the number of iterations. -/
def qemudDetectVcpuLoop (nvcpupids : Int) : Nat → List Nat → Int → List Int → VcpuParse
  | 0, _, _, _ => VcpuParse.outOfFuel
  | fuel + 1, line, lastVcpu, vcpupids =>
    match strchr line 35 with
    | none => VcpuParse.done lastVcpu vcpupids
    | some offset =>
      match virStrToLong_i (line.drop (offset + 1)) with
      | none => VcpuParse.error
      | some (vcpu, e) =>
        if charAt (line.drop (offset + 1)) e ≠ 58 then VcpuParse.error
        else
          match strstr line threadIdKey with
          | none => VcpuParse.error
          | some offset2 =>
            match virStrToLong_i (line.drop (offset2 + threadIdKey.length)) with
            | none => VcpuParse.error
            | some (tid, e2) =>
              if !c_isspace (charAt (line.drop (offset2 + threadIdKey.length)) e2) then
                VcpuParse.error
              else if vcpu > nvcpupids ∨ vcpu ≠ lastVcpu + 1 then VcpuParse.error
              else if vcpu < 0 ∨ (vcpupids.length : Int) ≤ vcpu then VcpuParse.invalidStore vcpu
              else
                match (strchr (line.drop offset2) 13).orElse
                    (fun _ => strchr (line.drop offset2) 10) with
                | none => VcpuParse.done vcpu (vcpupids.set vcpu.toNat tid)
                | some next =>
                  qemudDetectVcpuLoop nvcpupids fuel ((line.drop offset2).drop next) vcpu
                    (vcpupids.set vcpu.toNat tid)

/-- `VIR_ALLOC_N(vm->vcpupids, n)`: `n` zero elements, or NULL when `calloc` fails. -/
def allocVcpupids (ok : Bool) (n : Nat) : Option (List Int) :=
  if ok then some (List.replicate n 0) else none

/-- `qemudDetectVcpuPIDs(conn, vm)`. `allocOk` is the outcome of the allocation and
`infoCpus` the outcome of `qemudMonitorCommand(vm, "info cpus", &qemucpus)`, were it
called. -/
def qemudDetectVcpuPIDs (vm : DomainObj) (allocOk : Bool) (infoCpus : MonitorResult) :
    Outcome DomainObj :=
  let n : Nat := if vm.def_.virtType ≠ VirtType.kvm then 1 else vm.def_.vcpus
  match allocVcpupids allocOk n with
  | none => Outcome.returns (-1) { vm with nvcpupids := n, vcpupids := none }
  | some pids =>
    if vm.def_.virtType ≠ VirtType.kvm then
      Outcome.returns 0 { vm with nvcpupids := n, vcpupids := some (pids.set 0 vm.pid) }
    else
      match infoCpus with
      | MonitorResult.waiting => Outcome.noReturn
      | MonitorResult.invalidAccess => Outcome.undefinedBehaviour
      | MonitorResult.failed => Outcome.returns (-1) { vm with nvcpupids := 0, vcpupids := none }
      | MonitorResult.reply buf =>
        match qemudDetectVcpuLoop n ((cstr buf).length + 1) (cstr buf) (-1) pids with
        | VcpuParse.done lastVcpu pids2 =>
          if lastVcpu ≠ (vm.def_.vcpus : Int) - 1 then
            Outcome.returns 0 { vm with nvcpupids := 0, vcpupids := none }
          else Outcome.returns 0 { vm with nvcpupids := n, vcpupids := some pids2 }
        | VcpuParse.error => Outcome.returns 0 { vm with nvcpupids := 0, vcpupids := none }
        | VcpuParse.invalidStore _ => Outcome.undefinedBehaviour
        | VcpuParse.outOfFuel => Outcome.noReturn

/-- An inactive domain object with the definition `d`, as the parser of definitions and
`virDomainAssignDef` leave it. -/
def inactiveDomain (d : DomainDef) : DomainObj :=
  { stdin_fd := -1, stdout_fd := -1, stdout_watch := -1, stderr_fd := -1, stderr_watch := -1,
    monitor := -1, monitorpath := none, logfile := -1, pid := 0, state := DomainState.shutoff,
    nvcpupids := 0, vcpupids := none, autostart := false, persistent := false,
    def_ := { d with id := -1 }, newDef := none }

/-- The definition of scenario S1: name `alpha`, one vcpu, one PTY serial, no graphics. -/
def alphaDef (virtType : VirtType) : DomainDef :=
  { id := -1, name := bytes "alpha", uuid := List.replicate 15 0 ++ [1], virtType := virtType,
    vcpus := 1, graphics := none, serials := [{ type := ChrType.pty, path := none }],
    parallels := [] }

/-- A data line of the reply to `info cpus`, cut at the places the parser looks at:
`pre`, `#`, the digits `num` of the vCPU number, `:`, `mid`, `thread_id=`, the digits `tid`
of the thread id, `post`. The text `pre` starts where the previous data line ends (for the
first line, at the start of the reply), and `post` ends where the line ends. -/
structure VcpuLine where
  pre : List Nat
  num : List Nat
  mid : List Nat
  tid : List Nat
  post : List Nat
  deriving DecidableEq, Repr

/-- The text of a data line up to its `thread_id=`. -/
def VcpuLine.front (l : VcpuLine) : List Nat := l.pre ++ 35 :: (l.num ++ 58 :: l.mid)

/-- The text of a data line followed by the text `next`. -/
def VcpuLine.text (l : VcpuLine) (next : List Nat) : List Nat :=
  l.front ++ (threadIdKey ++ (l.tid ++ (l.post ++ next)))

/-- The reply made of the data lines `lines` followed by `tail`. -/
def replyText : List VcpuLine → List Nat → List Nat
  | [], tail => tail
  | l :: ls, tail => l.text (replyText ls tail)

/-- The data line for vCPU `i` has the expected form: no `#` before its own, a decimal
vCPU number `i`, no `thread_id=` before its own, a decimal thread id that fits in `int`. -/
def VcpuLine.ok (l : VcpuLine) (i : Nat) : Prop :=
  35 ∉ l.pre ∧ l.num ≠ [] ∧ (∀ c ∈ l.num, isDigit c = true) ∧ digitsValue l.num = i ∧
  FirstOccurrence threadIdKey (l.front ++ threadIdKey) l.front.length ∧
  l.tid ≠ [] ∧ (∀ c ∈ l.tid, isDigit c = true) ∧ digitsValue l.tid ≤ 2147483647

/-- The text starts with a white-space character. -/
def startsWithSpace (s : List Nat) : Prop := c_isspace (charAt s 0) = true

/-- The data lines `lines`, for the vCPUs `i`, `i + 1`, ..., followed by `tail`, have the
expected form, with uniform line ends: every data line but the last is ended by the byte
`eol` (CR, or LF in a text without CR), which `post` does not contain; white space
follows every thread id; no `#` follows the last thread id. -/
def vcpuLinesOk (eol : Nat) : Nat → List VcpuLine → List Nat → Prop
  | _, [], _ => True
  | i, [l], tail => l.ok i ∧ startsWithSpace (l.post ++ tail) ∧ 35 ∉ l.post ++ tail
  | i, l :: l2 :: ls, tail =>
    l.ok i ∧ startsWithSpace (l.post ++ l2.pre) ∧ 13 ∉ l.post ∧ 10 ∉ l.post ∧
    l2.pre.head? = some eol ∧
    (eol = 13 ∨ (eol = 10 ∧ 13 ∉ replyText (l2 :: ls) tail)) ∧
    vcpuLinesOk eol (i + 1) (l2 :: ls) tail

/-- A running KVM domain with `vcpus` vCPUs and the child process `pid`. -/
def kvmDomain (vcpus : Nat) (pid : Int) : DomainObj :=
  { inactiveDomain { alphaDef VirtType.kvm with vcpus := vcpus } with
    pid := pid, state := DomainState.running,
    def_ := { alphaDef VirtType.kvm with vcpus := vcpus, id := 1 } }

/-- A reply to `info cpus` for two vCPUs whose first data line is ended by LF and whose
second data line is ended by CR LF. -/
def mixedReply : List Nat :=
  bytes "* CPU #0: pc=0x0 thread_id=41\n  CPU #1: pc=0x0 thread_id=42\r\n"

/-- The first data line of `mixedReply`. -/
def mixedLine0 : VcpuLine :=
  { pre := bytes "* CPU ", num := bytes "0", mid := bytes " pc=0x0 ", tid := bytes "41",
    post := [] }

/-- The second data line of `mixedReply`. -/
def mixedLine1 : VcpuLine :=
  { pre := bytes "\n  CPU ", num := bytes "1", mid := bytes " pc=0x0 ", tid := bytes "42",
    post := [] }

/-- Sequencing of calls: the continuation runs when the first call returns. -/
def Outcome.bind {σ τ : Type} (o : Outcome σ) (f : Int → σ → Outcome τ) : Outcome τ :=
  match o with
  | Outcome.returns c s => f c s
  | Outcome.undefinedBehaviour => Outcome.undefinedBehaviour
  | Outcome.noReturn => Outcome.noReturn

/-- `needle` of `qemudExtractMonitorPath`; `sizeof(needle)` is its length plus one. -/
def charDeviceNeedle : List Nat := bytes "char device redirected to"

/-- The offset of the first white-space character of a C string. -/
def findSpace : List Nat → Option Nat
  | [] => none
  | c :: t => if c_isspace c then some 0 else (findSpace t).map (· + 1)

/-- `qemudExtractMonitorPath(conn, haystack, &offset, &path)`: the return value with the
new values of `*offset` and `*path` (`*path` is freed on entry). `allocOk d` is the outcome
of the allocation of a path that starts at offset `d`. When the needle ends the haystack,
`tmp += sizeof(needle)` moves past the terminator and the read of `*tmp` is undefined. -/
def qemudExtractMonitorPath (allocOk : Nat → Bool) (haystack : List Nat) (offset : Nat) :
    Outcome (Nat × Option (List Nat)) :=
  match strstr (haystack.drop offset) charDeviceNeedle with
  | none => Outcome.returns 1 (offset, none)
  | some k =>
    let dev := offset + k + (charDeviceNeedle.length + 1)
    if haystack.length < dev then Outcome.undefinedBehaviour
    else
      match findSpace (haystack.drop dev) with
      | none => Outcome.returns 1 (offset, none)
      | some j =>
        if allocOk dev then Outcome.returns 0 (dev + j, some ((haystack.drop dev).take j))
        else Outcome.returns (-1) (offset, none)

/-- One of the two `for` loops of `qemudFindCharDevicePTYs` over character devices: the
value of `ret` with the new `offset` and the devices (the loop is left at the first `ret`
other than 0). -/
def qemudExtractDevicePTYs (allocOk : Nat → Bool) (output : List Nat) :
    Nat → List DomainChrDef → Outcome (Nat × List DomainChrDef)
  | offset, [] => Outcome.returns 0 (offset, [])
  | offset, chr :: rest =>
    if chr.type = ChrType.pty then
      (qemudExtractMonitorPath allocOk output offset).bind fun ret r =>
        if ret ≠ 0 then Outcome.returns ret (r.1, { chr with path := r.2 } :: rest)
        else
          (qemudExtractDevicePTYs allocOk output r.1 rest).bind fun ret2 r2 =>
            Outcome.returns ret2 (r2.1, { chr with path := r.2 } :: r2.2)
    else
      (qemudExtractDevicePTYs allocOk output offset rest).bind fun ret2 r2 =>
        Outcome.returns ret2 (r2.1, chr :: r2.2)

/-- The results of the system calls of `qemudOpenMonitor`: the descriptor returned by `open`
(negative on failure), whether `qemudSetCloseExec` and `qemudSetNonBlock` succeed, whether
`qemudReadMonitorOutput` sees the prompt (it then returns 0, `qemudCheckMonitorPrompt`
having stored the descriptor in `vm->monitor`, and -1 otherwise), whether `strdup`
succeeds. -/
structure OpenMonitorEnv where
  monfd : Int
  cloexecOk : Bool
  nonblockOk : Bool
  promptSeen : Bool
  strdupOk : Bool
  deriving DecidableEq, Repr

/-- `qemudOpenMonitor(conn, vm, monitor)`. -/
def qemudOpenMonitor (env : OpenMonitorEnv) (vm : DomainObj) (monitor : List Nat) :
    Int × DomainObj :=
  if env.monfd < 0 then (-1, vm)
  else if !env.cloexecOk then (-1, vm)
  else if !env.nonblockOk then (-1, vm)
  else
    let ret : Int := if env.promptSeen then 0 else -1
    let vm1 : DomainObj := if env.promptSeen then { vm with monitor := env.monfd } else vm
    if !env.strdupOk then (ret, { vm1 with monitorpath := none })
    else (ret, { vm1 with monitorpath := some monitor })

/-- `qemudFindCharDevicePTYs(conn, vm, output, fd)`. -/
def qemudFindCharDevicePTYs (env : OpenMonitorEnv) (allocOk : Nat → Bool) (vm : DomainObj)
    (output : List Nat) : Outcome DomainObj :=
  (qemudExtractMonitorPath allocOk (cstr output) 0).bind fun ret m =>
    if ret ≠ 0 then Outcome.returns ret vm
    else
      (qemudExtractDevicePTYs allocOk (cstr output) m.1 vm.def_.serials).bind fun ret1 s =>
        if ret1 ≠ 0 then
          Outcome.returns ret1 { vm with def_ := { vm.def_ with serials := s.2 } }
        else
          (qemudExtractDevicePTYs allocOk (cstr output) s.1 vm.def_.parallels).bind
            fun ret2 q =>
              if ret2 ≠ 0 then
                Outcome.returns ret2
                  { vm with def_ := { vm.def_ with serials := s.2, parallels := q.2 } }
              else
                match m.2 with
                | none => Outcome.undefinedBehaviour
                | some monitor =>
                  Outcome.returns
                    (qemudOpenMonitor env
                      { vm with def_ := { vm.def_ with serials := s.2, parallels := q.2 } }
                      monitor).1
                    (qemudOpenMonitor env
                      { vm with def_ := { vm.def_ with serials := s.2, parallels := q.2 } }
                      monitor).2

/-- The text of the records `char device redirected to <p>` for the paths `p`, each followed
by its terminating character `w`, and then `tail`. -/
def recordsText : List (List Nat × Nat) → List Nat → List Nat
  | [], tail => tail
  | r :: rs, tail => charDeviceNeedle ++ 32 :: (r.1 ++ r.2 :: recordsText rs tail)

/-- The number of devices of type PTY. -/
def countPty (devs : List DomainChrDef) : Nat := devs.countP (fun chr => chr.type = ChrType.pty)

/-- The devices with the paths given, in order, to those of type PTY; the other devices
keep their path. -/
def assignPtyPaths : List DomainChrDef → List (List Nat) → List DomainChrDef
  | [], _ => []
  | chr :: rest, paths =>
    if chr.type = ChrType.pty then
      { chr with path := paths.head? } :: assignPtyPaths rest paths.tail
    else chr :: assignPtyPaths rest paths

/-- A record of the boot output: a path without white space and the white-space character
that follows it. -/
def recordOk (r : List Nat × Nat) : Prop :=
  r.1 ≠ [] ∧ (∀ c ∈ r.1, c_isspace c = false) ∧ c_isspace r.2 = true

/-- The stderr text of scenario S2. -/
def s2Output : List Nat :=
  bytes "char device redirected to /dev/pts/7\nchar device redirected to /dev/pts/9\n(qemu) "

/-- System calls that all succeed, with the monitor on descriptor 9. -/
def openMonitorOk : OpenMonitorEnv :=
  { monfd := 9, cloexecOk := true, nonblockOk := true, promptSeen := true, strdupOk := true }

/-- The domain object with the character devices replaced. -/
def withCharDevices (vm : DomainObj) (serials parallels : List DomainChrDef) : DomainObj :=
  { vm with def_ := { vm.def_ with serials := serials, parallels := parallels } }

/-! ## Lifecycle: `qemudShutdownVMDaemon`, `qemudStartVMDaemon` -/

/-- `qemudShutdownVMDaemon(conn, driver, vm)`. The signals, the draining of the pipes, the
removal of the watches, `close`, `waitpid` and the removal of the status files leave the
fields of the domain object as they are; the stores of the function are those below. -/
def qemudShutdownVMDaemon (vm : DomainObj) : DomainObj :=
  if !virDomainIsActive vm then vm
  else
    match vm.newDef with
    | some newDef =>
      { vm with logfile := -1, stdout_fd := -1, stderr_fd := -1, monitor := -1, pid := -1,
                state := DomainState.shutoff, vcpupids := none, nvcpupids := 0,
                def_ := { newDef with id := -1 }, newDef := none }
    | none =>
      { vm with logfile := -1, stdout_fd := -1, stderr_fd := -1, monitor := -1, pid := -1,
                state := DomainState.shutoff, vcpupids := none, nvcpupids := 0,
                def_ := { vm.def_ with id := -1 } }

/-- What `qemudWaitForMonitor` gives: its return value and the values it leaves in
`vm->monitor`, `vm->monitorpath` and the character devices (`qemudFindCharDevicePTYs` run on
the successive contents of the buffer read from stderr). -/
structure WaitForMonitorResult where
  ret : Int
  monitor : Int
  monitorpath : Option (List Nat)
  serials : List DomainChrDef
  parallels : List DomainChrDef
  deriving DecidableEq, Repr

/-- The results of the calls made by `qemudStartVMDaemon`, in the order of the calls:
`qemudNextFreeVNCPort`, `virFileMakePath`, `qemudLogFD`, the emulator path (explicit or
default) being non-NULL, `stat`, `qemudExtractVersionInfo`, `qemudBuildCommandLine`,
`virExec` (its return value and, when it is 0, the pid and the two pipes it stores; when it
fails it stores nothing), the two `virEventAddHandle`, `qemudWaitForMonitor`, the allocation
and the monitor command of `qemudDetectVcpuPIDs`, and for `qemudInitCpus` whether the
affinity calls succeed and the outcome of the monitor command `cont`. -/
structure StartEnv where
  vncPort : Int
  makePathOk : Bool
  logfd : Int
  emulatorFound : Bool
  statOk : Bool
  versionOk : Bool
  buildCommandLineOk : Bool
  execRet : Int
  pid : Int
  stdoutFd : Int
  stderrFd : Int
  stdoutWatch : Int
  stderrWatch : Int
  waitForMonitor : WaitForMonitorResult
  allocOk : Bool
  infoCpus : MonitorResult
  affinityOk : Bool
  cont : MonitorResult
  deriving DecidableEq, Repr

/-- `qemudInitCpus(conn, vm, migrateFrom)`. -/
def qemudInitCpus (env : StartEnv) (vm : DomainObj) (migrateFrom : Option (List Nat)) :
    Outcome DomainObj :=
  if !env.affinityOk then Outcome.returns (-1) vm
  else
    match migrateFrom with
    | some _ => Outcome.returns 0 vm
    | none =>
      match env.cont with
      | MonitorResult.reply _ => Outcome.returns 0 vm
      | MonitorResult.failed => Outcome.returns (-1) vm
      | MonitorResult.waiting => Outcome.noReturn
      | MonitorResult.invalidAccess => Outcome.undefinedBehaviour

/-- The part of `qemudStartVMDaemon` that follows a successful `virExec`: the two watches,
`qemudWaitForMonitor`, `qemudDetectVcpuPIDs` and `qemudInitCpus`, chained by `||`; the
result is the return value of the function. -/
def qemudStartVMDaemonBoot (env : StartEnv) (vm : DomainObj) (migrateFrom : Option (List Nat)) :
    Outcome DomainObj :=
  if env.stdoutWatch < 0 then
    Outcome.returns (-1) (qemudShutdownVMDaemon { vm with stdout_watch := env.stdoutWatch })
  else if env.stderrWatch < 0 then
    Outcome.returns (-1) (qemudShutdownVMDaemon
      { vm with stdout_watch := env.stdoutWatch, stderr_watch := env.stderrWatch })
  else if env.waitForMonitor.ret < 0 then
    Outcome.returns (-1) (qemudShutdownVMDaemon
      { vm with stdout_watch := env.stdoutWatch, stderr_watch := env.stderrWatch,
                monitor := env.waitForMonitor.monitor,
                monitorpath := env.waitForMonitor.monitorpath,
                def_ := { vm.def_ with serials := env.waitForMonitor.serials,
                                       parallels := env.waitForMonitor.parallels } })
  else
    (qemudDetectVcpuPIDs
      { vm with stdout_watch := env.stdoutWatch, stderr_watch := env.stderrWatch,
                monitor := env.waitForMonitor.monitor,
                monitorpath := env.waitForMonitor.monitorpath,
                def_ := { vm.def_ with serials := env.waitForMonitor.serials,
                                       parallels := env.waitForMonitor.parallels } }
      env.allocOk env.infoCpus).bind fun r1 vm1 =>
        if r1 < 0 then Outcome.returns (-1) (qemudShutdownVMDaemon vm1)
        else
          (qemudInitCpus env vm1 migrateFrom).bind fun r2 vm2 =>
            if r2 < 0 then Outcome.returns (-1) (qemudShutdownVMDaemon vm2)
            else Outcome.returns 0 vm2

/-- The domain object with the port of its graphics device replaced. -/
def withVncPort (vm : DomainObj) (port : Int) : DomainObj :=
  { vm with def_ := { vm.def_ with
      graphics := vm.def_.graphics.map (fun g => { g with port := port }) } }

/-- Whether the definition asks for a VNC port chosen by the driver. -/
def wantsVncAutoport (vm : DomainObj) : Bool :=
  match vm.def_.graphics with
  | some g => g.isVnc && g.autoport
  | none => false

/-- The domain object once the VNC port is chosen: `vm->def->graphics->data.vnc.port` is
the port found when the definition asks for one, and is left alone otherwise. -/
def withAutoport (env : StartEnv) (vm : DomainObj) : DomainObj :=
  if wantsVncAutoport vm then withVncPort vm env.vncPort else vm

/-- The value of type `int` (32 bits, two's complement) a number converts to. -/
def toInt32 (v : Int) : Int :=
  if v % 4294967296 < 2147483648 then v % 4294967296 else v % 4294967296 - 4294967296

/-- The domain object when `virExec` has returned 0: the log file, the pid and the pipes
stored by `virExec`, the state, and the id taken from the counter. -/
def execStarted (env : StartEnv) (nextvmid : Int) (vm : DomainObj)
    (migrateFrom : Option (List Nat)) : DomainObj :=
  { withAutoport env vm with
      logfile := env.logfd, pid := env.pid, stdout_fd := env.stdoutFd,
      stderr_fd := env.stderrFd,
      state := if migrateFrom.isSome then DomainState.paused else DomainState.running,
      def_ := { (withAutoport env vm).def_ with id := nextvmid } }

/-- `qemudStartVMDaemon(conn, driver, vm, migrateFrom)` on the counter `driver->nextvmid`,
an `int`: the return value with the new counter and the domain object. The id is the
counter, and `driver->nextvmid++` leaves the counter plus one as an `int` holds it: past
`INT_MAX` the value wraps round to `INT_MIN`. -/
def qemudStartVMDaemon (env : StartEnv) (nextvmid : Int) (vm : DomainObj)
    (migrateFrom : Option (List Nat)) : Outcome (Int × DomainObj) :=
  if virDomainIsActive vm then Outcome.returns (-1) (nextvmid, vm)
  else if wantsVncAutoport vm && decide (env.vncPort < 0) then Outcome.returns (-1) (nextvmid, vm)
  else if !env.makePathOk then Outcome.returns (-1) (nextvmid, withAutoport env vm)
  else if env.logfd < 0 then
    Outcome.returns (-1) (nextvmid, { withAutoport env vm with logfile := env.logfd })
  else if !env.emulatorFound then
    Outcome.returns (-1) (nextvmid, { withAutoport env vm with logfile := env.logfd })
  else if !env.statOk then
    Outcome.returns (-1) (nextvmid, { withAutoport env vm with logfile := env.logfd })
  else if !env.versionOk then
    Outcome.returns (-1) (nextvmid, { withAutoport env vm with logfile := env.logfd })
  else if !env.buildCommandLineOk then
    Outcome.returns (-1)
      (toInt32 (nextvmid + 1),
        { withAutoport env vm with
            logfile := -1, def_ := { (withAutoport env vm).def_ with id := -1 } })
  else if env.execRet ≠ 0 then
    Outcome.returns env.execRet
      (toInt32 (nextvmid + 1),
        { withAutoport env vm with
            logfile := env.logfd, stdout_fd := -1, stderr_fd := -1,
            def_ := { (withAutoport env vm).def_ with id := -1 } })
  else
    (qemudStartVMDaemonBoot env (execStarted env nextvmid vm migrateFrom) migrateFrom).bind
      fun r vm2 => Outcome.returns r (toInt32 (nextvmid + 1), vm2)

/-! ## The driver and its registry -/

/-- The type of a lifecycle event (`virDomainEventType`). -/
inductive EventType
  | defined | undefined | started | suspended | resumed | stopped
  deriving DecidableEq, Repr

/-- The detail of a lifecycle event. -/
inductive EventDetail
  | added | updated | removed | booted | migrated | restored | paused | unpaused
  | shutdown | destroyed | crashed | saved | failed
  deriving DecidableEq, Repr

/-- A lifecycle event: the name, UUID and id the domain has when the event is created
(`virDomainEventNewFromObj`), the type and the detail. -/
structure DomainEvent where
  id : Int
  name : List Nat
  uuid : List Nat
  type : EventType
  detail : EventDetail
  deriving DecidableEq, Repr

/-- `struct qemud_driver`: the counter `nextvmid` (an `int`), the registry `domains` and the
queue of events. -/
structure Driver where
  nextvmid : Int
  domains : List DomainObj
  events : List DomainEvent
  deriving DecidableEq, Repr

/-- `virDomainEventNewFromObj(vm, type, detail)`. -/
def virDomainEventNewFromObj (vm : DomainObj) (type : EventType) (detail : EventDetail) :
    DomainEvent :=
  { id := vm.def_.id, name := vm.def_.name, uuid := vm.def_.uuid, type := type,
    detail := detail }

/-- Modelled from the spec: `virDomainFindByName(&driver->domains, name)` (of
`domain_conf.c`, outside the sources): the position of the first domain of the registry
with that name. -/
def virDomainFindByName (doms : List DomainObj) (name : List Nat) : Option Nat :=
  doms.findIdx? (fun vm => vm.def_.name = name)

/-- Modelled from the spec: `virDomainRemoveInactive(&driver->domains, vm)` (of
`domain_conf.c`, outside the sources): the registry without the domain at position `i`. -/
def virDomainRemoveInactive (doms : List DomainObj) (i : Nat) : List DomainObj :=
  doms.eraseIdx i

/-- `qemudDomainMigrateFinish2(dconn, dname, ..., retcode)` on the driver; the events are
taken to be allocated and queued. -/
def qemudDomainMigrateFinish2 (driver : Driver) (dname : List Nat) (retcode : Int) : Driver :=
  match virDomainFindByName driver.domains dname with
  | none => driver
  | some i =>
    match driver.domains.get? i with
    | none => driver
    | some vm =>
      if retcode = 0 then
        { driver with
            domains := driver.domains.set i { vm with state := DomainState.running },
            events := driver.events ++
              [virDomainEventNewFromObj { vm with state := DomainState.running }
                EventType.resumed EventDetail.migrated] }
      else
        { driver with
            domains :=
              if !(qemudShutdownVMDaemon vm).persistent then
                virDomainRemoveInactive driver.domains i
              else driver.domains.set i (qemudShutdownVMDaemon vm),
            events := driver.events ++
              [virDomainEventNewFromObj (qemudShutdownVMDaemon vm)
                EventType.stopped EventDetail.failed] }

/-- A start or a shutdown applied to the domain at a position of the registry. -/
inductive LifecycleOp
  | start (i : Nat) (env : StartEnv) (migrateFrom : Option (List Nat))
  | shutdown (i : Nat)
  deriving DecidableEq, Repr

/-- The driver after a start or a shutdown, with the return value of the call (0 for the
shutdown, which returns nothing). A position outside the registry names no domain: nothing
is called. -/
def applyOp (driver : Driver) : LifecycleOp → Outcome Driver
  | LifecycleOp.start i env migrateFrom =>
    match driver.domains.get? i with
    | none => Outcome.returns (-1) driver
    | some vm =>
      (qemudStartVMDaemon env driver.nextvmid vm migrateFrom).bind fun r res =>
        Outcome.returns r
          { driver with nextvmid := res.1, domains := driver.domains.set i res.2 }
  | LifecycleOp.shutdown i =>
    match driver.domains.get? i with
    | none => Outcome.returns 0 driver
    | some vm =>
      Outcome.returns 0 { driver with domains := driver.domains.set i (qemudShutdownVMDaemon vm) }

/-- The id given by an operation: the id of the started domain when the operation is a start
that returned 0. -/
def assignedId (op : LifecycleOp) (ret : Int) (after : Driver) : Option Int :=
  match op with
  | LifecycleOp.start i _ _ =>
    if ret = 0 then (after.domains.get? i).map (fun vm => vm.def_.id) else none
  | LifecycleOp.shutdown _ => none

/-- A sequence of starts and shutdowns: the final driver and the ids given by the
successful starts, the most recent first; `none` when a call does not return. -/
def runOps : Driver → List Int → List LifecycleOp → Option (Driver × List Int)
  | driver, log, [] => some (driver, log)
  | driver, log, op :: ops =>
    match applyOp driver op with
    | Outcome.returns ret after =>
      match assignedId op ret after with
      | some id => runOps after (id :: log) ops
      | none => runOps after log ops
    | _ => none

/-- The driver as `qemudStartup` leaves it before any start: the counter is 1 and the
domains of the registry are inactive. -/
def initialDriver (defs : List DomainDef) : Driver :=
  { nextvmid := 1, domains := defs.map inactiveDomain, events := [] }

/-- Results of calls with which a start succeeds: pid 500, pipes 11 and 12, watches 1 and 2,
the monitor on descriptor 13, no reply parsed for `info cpus` by a domain that is not KVM. -/
def startOk : StartEnv :=
  { vncPort := 5900, makePathOk := true, logfd := 10, emulatorFound := true, statOk := true,
    versionOk := true, buildCommandLineOk := true, execRet := 0, pid := 500, stdoutFd := 11,
    stderrFd := 12, stdoutWatch := 1, stderrWatch := 2,
    waitForMonitor := { ret := 0, monitor := 13, monitorpath := some (bytes "/dev/pts/7"),
                        serials := [], parallels := [] },
    allocOk := true, infoCpus := MonitorResult.reply [0], affinityOk := true,
    cont := MonitorResult.reply [0] }

/-- The number of starts in a sequence of operations. -/
def startCount : List LifecycleOp → Nat
  | [] => 0
  | LifecycleOp.start _ _ _ :: ops => startCount ops + 1
  | LifecycleOp.shutdown _ :: ops => startCount ops

/-- Results of calls with which a start fails in `qemudBuildCommandLine`, after the id is
taken from the counter. -/
def failedBuild : StartEnv := { startOk with buildCommandLineOk := false }

/-- The invariant of the registry: the counter is at least 1, every domain that is not
SHUTOFF has an id between 1 and the counter (excluded), and two domains that are not
SHUTOFF have different ids. -/
def DriverInv (d : Driver) : Prop :=
  1 ≤ d.nextvmid ∧
  (∀ i vi, d.domains.get? i = some vi → vi.state ≠ DomainState.shutoff →
    1 ≤ vi.def_.id ∧ vi.def_.id < d.nextvmid) ∧
  (∀ i j vi vj, i ≠ j → d.domains.get? i = some vi → d.domains.get? j = some vj →
    vi.state ≠ DomainState.shutoff → vj.state ≠ DomainState.shutoff →
    vi.def_.id ≠ vj.def_.id)

/-- The invariant of the ids given so far (the most recent first): each is greater than
the ones given before it, and all lie between 1 and the counter (excluded). -/
def LogInv (d : Driver) (log : List Int) : Prop :=
  log.Pairwise (fun later earlier => earlier < later) ∧ ∀ x ∈ log, 1 ≤ x ∧ x < d.nextvmid

/-! ## Public operations: errors, lookups, results -/

/-- The error codes the driver reports (`VIR_ERR_INTERNAL_ERROR`, `VIR_ERR_NO_MEMORY`,
`VIR_ERR_NO_SUPPORT`, `VIR_ERR_INVALID_DOMAIN`, `VIR_ERR_INVALID_ARG`,
`VIR_ERR_OPERATION_FAILED`, `VIR_ERR_SYSTEM_ERROR`). -/
inductive VirErr
  | internalError | noMemory | noSupport | invalidDomain | invalidArg | operationFailed
  | systemError
  deriving DecidableEq, Repr

/-- A call of `qemudReportError`: the code and the text, which is the format of the source
with its arguments filled in (the formats are not translated). -/
structure ErrorReport where
  code : VirErr
  message : List Nat
  deriving DecidableEq, Repr

/-- The conversion `%d` of `printf` for a non-negative number: its decimal digits. -/
def fmtNat (n : Nat) : List Nat := (Nat.toDigits 10 n).map Char.toNat

/-- The conversion `%d` of `printf`: an optional minus sign and the decimal digits. -/
def fmtInt (v : Int) : List Nat :=
  if v < 0 then 45 :: fmtNat v.natAbs else fmtNat v.toNat

/-- The handle `virDomainPtr` a caller holds: name, UUID and id of a domain. -/
structure VirDomain where
  name : List Nat
  uuid : List Nat
  id : Int
  deriving DecidableEq, Repr

/-- What a public operation leaves behind: the driver, the errors reported by the calls of
`qemudReportError` in the operation (and in the public operations it calls), in order, and
the commands the operation itself hands to `qemudMonitorCommand`, in order. -/
structure Api where
  driver : Driver
  errors : List ErrorReport
  sent : List (List Nat)
  deriving DecidableEq, Repr

/-- Modelled from the spec: `virDomainFindByID(&driver->domains, id)` (of `domain_conf.c`,
outside the sources), the lookup by numeric id: the position of the first domain of the
registry with that id. -/
def virDomainFindByID (doms : List DomainObj) (id : Int) : Option Nat :=
  doms.findIdx? (fun vm => vm.def_.id = id)

/-- Modelled from the spec: `virDomainFindByUUID(&driver->domains, uuid)` (of
`domain_conf.c`, outside the sources), the lookup by UUID: the position of the first domain
of the registry with that UUID. -/
def virDomainFindByUUID (doms : List DomainObj) (uuid : List Nat) : Option Nat :=
  doms.findIdx? (fun vm => vm.def_.uuid = uuid)

/-- The domain object a lookup returns, with its position; `none` is the NULL pointer. -/
def domainAt (doms : List DomainObj) (found : Option Nat) : Option (Nat × DomainObj) :=
  match found with
  | none => none
  | some i =>
    match doms.get? i with
    | none => none
    | some vm => some (i, vm)

/-- Modelled from the spec: `virDomainAssignDef(conn, &driver->domains, def)` (of
`domain_conf.c`, outside the sources), the operation `add` of the registry. A domain of that
name which is inactive gets the definition; one which is active gets it as its pending
definition `newDef`; when there is none a new inactive, transient domain object is appended,
unless its allocation fails. The result is the registry and the position of the domain. -/
def virDomainAssignDef (allocOk : Bool) (doms : List DomainObj) (d : DomainDef) :
    Option (List DomainObj × Nat) :=
  match domainAt doms (virDomainFindByName doms d.name) with
  | some (i, vm) =>
    if !virDomainIsActive vm then some (doms.set i { vm with def_ := d }, i)
    else some (doms.set i { vm with newDef := some d }, i)
  | none =>
    if allocOk then some (doms ++ [inactiveDomain d], doms.length) else none

/-- The end of the operations that stop a domain: the object `vm` (after
`qemudShutdownVMDaemon`) at position `i` is taken out of the registry by
`virDomainRemoveInactive` when it is not persistent and stays otherwise, and the event is
queued. -/
def stopDomain (driver : Driver) (i : Nat) (vm : DomainObj) (event : DomainEvent) : Driver :=
  { driver with
      domains :=
        if !vm.persistent then virDomainRemoveInactive driver.domains i
        else driver.domains.set i vm,
      events := driver.events ++ [event] }

/-- The report `no domain with matching id %d`. -/
def noDomainWithId (id : Int) : ErrorReport :=
  { code := VirErr.invalidDomain, message := bytes "no domain with matching id " ++ fmtInt id }

/-- A report of `VIR_ERR_OPERATION_FAILED` with a fixed text. -/
def operationFailed (text : String) : ErrorReport :=
  { code := VirErr.operationFailed, message := bytes text }

/-- A call of `qemudMonitorCommand` whose reply is used: `failed` when the call returns -1,
`ok` on the reply; a call that waits for ever does not return. -/
def onMonitor {σ : Type} (r : MonitorResult) (failed : Outcome σ) (ok : List Nat → Outcome σ) :
    Outcome σ :=
  match r with
  | MonitorResult.reply buf => ok buf
  | MonitorResult.failed => failed
  | MonitorResult.waiting => Outcome.noReturn
  | MonitorResult.invalidAccess => Outcome.undefinedBehaviour

/-! ## `qemudDomainSuspend`, `qemudDomainResume`, `qemudDomainDestroy` -/

/-- `qemudDomainSuspend(dom)`; `stop` is the outcome of the monitor command `stop`. -/
def qemudDomainSuspend (driver : Driver) (dom : VirDomain) (stop : MonitorResult) :
    Outcome Api :=
  match domainAt driver.domains (virDomainFindByID driver.domains dom.id) with
  | none =>
    Outcome.returns (-1) { driver := driver, errors := [noDomainWithId dom.id], sent := [] }
  | some (i, vm) =>
    if !virDomainIsActive vm then
      Outcome.returns (-1)
        { driver := driver, errors := [operationFailed "domain is not running"], sent := [] }
    else if vm.state ≠ DomainState.paused then
      onMonitor stop
        (Outcome.returns (-1)
          { driver := driver, errors := [operationFailed "suspend operation failed"],
            sent := [bytes "stop"] })
        (fun _ => Outcome.returns 0
          { driver :=
              { driver with
                  domains := driver.domains.set i { vm with state := DomainState.paused },
                  events := driver.events ++
                    [virDomainEventNewFromObj { vm with state := DomainState.paused }
                      EventType.suspended EventDetail.paused] },
            errors := [], sent := [bytes "stop"] })
    else Outcome.returns 0 { driver := driver, errors := [], sent := [] }

/-- `qemudDomainResume(dom)`; `cont` is the outcome of the monitor command `cont`. -/
def qemudDomainResume (driver : Driver) (dom : VirDomain) (cont : MonitorResult) :
    Outcome Api :=
  match domainAt driver.domains (virDomainFindByID driver.domains dom.id) with
  | none =>
    Outcome.returns (-1) { driver := driver, errors := [noDomainWithId dom.id], sent := [] }
  | some (i, vm) =>
    if !virDomainIsActive vm then
      Outcome.returns (-1)
        { driver := driver, errors := [operationFailed "domain is not running"], sent := [] }
    else if vm.state = DomainState.paused then
      onMonitor cont
        (Outcome.returns (-1)
          { driver := driver, errors := [operationFailed "resume operation failed"],
            sent := [bytes "cont"] })
        (fun _ => Outcome.returns 0
          { driver :=
              { driver with
                  domains := driver.domains.set i { vm with state := DomainState.running },
                  events := driver.events ++
                    [virDomainEventNewFromObj { vm with state := DomainState.running }
                      EventType.resumed EventDetail.unpaused] },
            errors := [], sent := [bytes "cont"] })
    else Outcome.returns 0 { driver := driver, errors := [], sent := [] }

/-- `qemudVMData(driver, vm, fd)`: 0 when the domain has no child process; otherwise the
pipe is drained into the log file, and `readFails` tells whether a `read` fails with an
error other than `EAGAIN`. -/
def qemudVMData (vm : DomainObj) (readFails : Bool) : Int :=
  if vm.pid < 0 then 0 else if readFails then -1 else 0

/-- The loop of `qemudDispatchVMEvent` over the registry: the first active domain one of
whose two watches is `watch`. -/
def findByWatch (doms : List DomainObj) (watch : Int) : Option Nat :=
  doms.findIdx? (fun vm =>
    virDomainIsActive vm && (decide (vm.stdout_watch = watch) || decide (vm.stderr_watch = watch)))

/-- `qemudDispatchVMEvent(watch, fd, events, opaque)`; `readable` is
`events & VIR_EVENT_HANDLE_READABLE`, and `readFails` is for the `read` of `qemudVMData`.
The event is built before `qemudShutdownVMDaemon` runs. -/
def qemudDispatchVMEvent (driver : Driver) (watch fd : Int) (readable readFails : Bool) :
    Driver :=
  match domainAt driver.domains (findByWatch driver.domains watch) with
  | none => driver
  | some (i, vm) =>
    if vm.stdout_fd ≠ fd ∧ vm.stderr_fd ≠ fd then
      stopDomain driver i (qemudShutdownVMDaemon vm)
        (virDomainEventNewFromObj vm EventType.stopped EventDetail.failed)
    else if readable then
      if qemudVMData vm readFails < 0 then
        stopDomain driver i (qemudShutdownVMDaemon vm)
          (virDomainEventNewFromObj vm EventType.stopped EventDetail.failed)
      else driver
    else
      stopDomain driver i (qemudShutdownVMDaemon vm)
        (virDomainEventNewFromObj vm EventType.stopped EventDetail.shutdown)

/-! ## `qemudDomainCreate` -/

/-- Two lower-case hexadecimal digits for each byte. -/
def hexBytes (bs : List Nat) : List Nat :=
  (bs.map fun b => [(Nat.digitChar (b / 16 % 16)).toNat, (Nat.digitChar (b % 16)).toNat]).flatten

/-- Modelled from the spec: `virUUIDFormat(uuid, uuidstr)` (of `uuid.c`, outside the
sources): the bytes of the UUID in lower-case hexadecimal, two digits a byte, with a dash
after the bytes 4, 6, 8 and 10. -/
def virUUIDFormat (uuid : List Nat) : List Nat :=
  hexBytes (uuid.take 4) ++ 45 :: hexBytes ((uuid.drop 4).take 2) ++
    45 :: hexBytes ((uuid.drop 6).take 2) ++ 45 :: hexBytes ((uuid.drop 8).take 2) ++
    45 :: hexBytes ((uuid.drop 10).take 6)

/-- The results of the calls made by `qemudDomainCreate`: the definition parsed from the
XML by `virDomainDefParseString` with `VIR_DOMAIN_XML_INACTIVE` (`none` is NULL), the
allocation of `virDomainAssignDef`, the calls of `qemudStartVMDaemon`, and whether
`virGetDomain` gives a handle. -/
structure CreateEnv where
  parsed : Option DomainDef
  assignAllocOk : Bool
  start : StartEnv
  getDomainOk : Bool
  deriving DecidableEq, Repr

/-- `virGetDomain(conn, vm->def->name, vm->def->uuid)` followed by `dom->id = vm->def->id`. -/
def virGetDomain (ok : Bool) (vm : DomainObj) : Option VirDomain :=
  if ok then some { name := vm.def_.name, uuid := vm.def_.uuid, id := vm.def_.id } else none

/-- `qemudDomainCreate(conn, xml, flags)`: the handle returned (`none` is NULL; the code is
0 with a handle and -1 without) and what the call leaves. -/
def qemudDomainCreate (driver : Driver) (env : CreateEnv) : Outcome (Option VirDomain × Api) :=
  match env.parsed with
  | none => Outcome.returns (-1) (none, { driver := driver, errors := [], sent := [] })
  | some d =>
    if (virDomainFindByName driver.domains d.name).isSome then
      Outcome.returns (-1)
        (none,
          { driver := driver,
            errors := [{ code := VirErr.operationFailed,
                         message := bytes "domain '" ++ d.name ++ bytes "' is already defined" }],
            sent := [] })
    else if (virDomainFindByUUID driver.domains d.uuid).isSome then
      Outcome.returns (-1)
        (none,
          { driver := driver,
            errors := [{ code := VirErr.operationFailed,
                         message := bytes "domain with uuid '" ++ virUUIDFormat d.uuid ++
                           bytes "' is already defined" }],
            sent := [] })
    else
      match virDomainAssignDef env.assignAllocOk driver.domains d with
      | none => Outcome.returns (-1) (none, { driver := driver, errors := [], sent := [] })
      | some (doms, i) =>
        match doms.get? i with
        | none => Outcome.returns (-1) (none, { driver := driver, errors := [], sent := [] })
        | some vm =>
          (qemudStartVMDaemon env.start driver.nextvmid vm none).bind fun r res =>
            if r < 0 then
              Outcome.returns (-1)
                (none,
                  { driver := { driver with nextvmid := res.1,
                                            domains := virDomainRemoveInactive doms i },
                    errors := [], sent := [] })
            else
              Outcome.returns (if env.getDomainOk then 0 else -1)
                (virGetDomain env.getDomainOk res.2,
                  { driver :=
                      { nextvmid := res.1, domains := doms.set i res.2,
                        events := driver.events ++
                          [virDomainEventNewFromObj res.2 EventType.started EventDetail.booted] },
                    errors := [], sent := [] })

/-! ## The save file: `struct qemud_save_header`, `qemudDomainSave` -/

/-- `QEMUD_SAVE_MAGIC`. -/
def QEMUD_SAVE_MAGIC : List Nat := bytes "LibvirtQemudSave"

/-- `QEMUD_SAVE_VERSION`. -/
def QEMUD_SAVE_VERSION : Int := 1

/-- `struct qemud_save_header`: `char magic[16]`, three `int` and `int unused[16]`. -/
structure qemud_save_header where
  magic : List Nat
  version : Int
  xml_len : Int
  was_running : Int
  unused : List Int
  deriving DecidableEq, Repr

/-- The four bytes of an object of type `int` in the byte order of the host. -/
def intObject (bigEndian : Bool) (v : Int) : List Nat :=
  if bigEndian then
    [(v % 4294967296).toNat / 16777216 % 256, (v % 4294967296).toNat / 65536 % 256,
     (v % 4294967296).toNat / 256 % 256, (v % 4294967296).toNat % 256]
  else
    [(v % 4294967296).toNat % 256, (v % 4294967296).toNat / 256 % 256,
     (v % 4294967296).toNat / 65536 % 256, (v % 4294967296).toNat / 16777216 % 256]

/-- The value of the `int` whose four bytes are the first four of `bs`. -/
def intOfObject (bigEndian : Bool) (bs : List Nat) : Int :=
  if bigEndian then
    toInt32 (16777216 * bs.getD 0 0 + 65536 * bs.getD 1 0 + 256 * bs.getD 2 0 + bs.getD 3 0 : Nat)
  else
    toInt32 (bs.getD 0 0 + 256 * bs.getD 1 0 + 65536 * bs.getD 2 0 + 16777216 * bs.getD 3 0 : Nat)

/-- The bytes of a `struct qemud_save_header` as `safewrite(fd, &header, sizeof(header))`
writes them: the members in order, none of them padded. -/
def headerObject (bigEndian : Bool) (h : qemud_save_header) : List Nat :=
  h.magic ++ intObject bigEndian h.version ++ intObject bigEndian h.xml_len ++
    intObject bigEndian h.was_running ++ (h.unused.map (intObject bigEndian)).flatten

/-- The `struct qemud_save_header` that `saferead(fd, &header, sizeof(header))` fills from
the bytes `bs`. -/
def headerOfObject (bigEndian : Bool) (bs : List Nat) : qemud_save_header :=
  { magic := bs.take 16,
    version := intOfObject bigEndian (bs.drop 16),
    xml_len := intOfObject bigEndian (bs.drop 20),
    was_running := intOfObject bigEndian (bs.drop 24),
    unused := (List.range 16).map fun k => intOfObject bigEndian (bs.drop (28 + 4 * k)) }

/-- The header `qemudDomainSave` has built when it writes it: `memset` to zero, the magic,
the version, `was_running` set to 1 when the domain was RUNNING, and `xml_len`, which is
`strlen(xml) + 1` converted to `int`. -/
def saveHeader (wasRunning : Bool) (xml : List Nat) : qemud_save_header :=
  { magic := QEMUD_SAVE_MAGIC, version := QEMUD_SAVE_VERSION,
    xml_len := toInt32 (xml.length + 1 : Nat),
    was_running := if wasRunning then 1 else 0,
    unused := List.replicate 16 0 }

/-- The results of the calls made by `qemudDomainSave`: the byte order of the host, the
monitor command `stop` of `qemudDomainSuspend`, the text given by `virDomainDefFormat`
(`none` is NULL), `open`, the two `safewrite`, `close` and the text of `strerror(errno)`,
the allocation of `qemudEscapeShellArg`, `virAsprintf`, and the monitor command `migrate`. -/
structure SaveEnv where
  bigEndian : Bool
  stop : MonitorResult
  xml : Option (List Nat)
  openOk : Bool
  writeHeaderOk : Bool
  writeXmlOk : Bool
  closeOk : Bool
  strerror : List Nat
  escapeAllocOk : Bool
  asprintfOk : Bool
  migrate : MonitorResult
  deriving DecidableEq, Repr

/-- What `qemudDomainSave` leaves: the driver, reports and commands, the bytes written to
the file by the calls of `safewrite` that succeeded, and whether the file is unlinked. -/
structure SaveResult where
  api : Api
  written : List Nat
  unlinked : Bool
  deriving DecidableEq, Repr

/-- The exits of `qemudDomainSave` through `cleanup` with `ret = -1`: the report is added
and the file is unlinked. -/
def saveFailure (driver : Driver) (errors : List ErrorReport) (report : ErrorReport)
    (sent : List (List Nat)) (written : List Nat) : Outcome SaveResult :=
  Outcome.returns (-1)
    { api := { driver := driver, errors := errors ++ [report], sent := sent },
      written := written, unlinked := true }

/-- The command `qemudDomainSave` builds with `virAsprintf`. -/
def saveCommand (safe_path : List Nat) : List Nat :=
  bytes "migrate \"exec:dd of='" ++ safe_path ++ saveCommandTail ++ [34]

/-- `qemudDomainSave` from the comment `Get XML for the domain` on: `vm` is the domain, at
position `i` of the registry, `wasRunning` tells whether `header.was_running` was set, and
`errors`, `sent` are the reports and commands so far. -/
def qemudDomainSaveImage (driver : Driver) (i : Nat) (vm : DomainObj) (path : List Nat)
    (env : SaveEnv) (wasRunning : Bool) (errors : List ErrorReport) (sent : List (List Nat)) :
    Outcome SaveResult :=
  match env.xml with
  | none => saveFailure driver errors (operationFailed "failed to get domain xml") sent []
  | some xml =>
    if !env.openOk then
      saveFailure driver errors
        { code := VirErr.operationFailed,
          message := bytes "failed to create '" ++ path ++ bytes "'" } sent []
    else if !env.writeHeaderOk then
      saveFailure driver errors (operationFailed "failed to write save header") sent []
    else if (saveHeader wasRunning xml).xml_len ≠ (xml.length + 1 : Nat) then
      Outcome.undefinedBehaviour
    else if !env.writeXmlOk then
      saveFailure driver errors (operationFailed "failed to write xml") sent
        (headerObject env.bigEndian (saveHeader wasRunning xml))
    else if !env.closeOk then
      saveFailure driver errors
        { code := VirErr.operationFailed,
          message := bytes "unable to save file " ++ path ++ 32 :: env.strerror } sent
        (headerObject env.bigEndian (saveHeader wasRunning xml) ++ xml ++ [0])
    else
      match qemudEscapeShellArg env.escapeAllocOk path with
      | none =>
        saveFailure driver errors (operationFailed "out of memory") sent
          (headerObject env.bigEndian (saveHeader wasRunning xml) ++ xml ++ [0])
      | some safe_path =>
        if !env.asprintfOk then
          saveFailure driver errors (operationFailed "out of memory") sent
            (headerObject env.bigEndian (saveHeader wasRunning xml) ++ xml ++ [0])
        else
          onMonitor env.migrate
            (saveFailure driver errors (operationFailed "migrate operation failed")
              (sent ++ [saveCommand safe_path])
              (headerObject env.bigEndian (saveHeader wasRunning xml) ++ xml ++ [0]))
            (fun info =>
              if (strstr (cstr info) (bytes "unknown command:")).isSome then
                saveFailure driver errors
                  { code := VirErr.noSupport,
                    message := bytes "'migrate' not supported by this qemu" }
                  (sent ++ [saveCommand safe_path])
                  (headerObject env.bigEndian (saveHeader wasRunning xml) ++ xml ++ [0])
              else
                Outcome.returns 0
                  { api :=
                      { driver :=
                          stopDomain driver i (qemudShutdownVMDaemon vm)
                            (virDomainEventNewFromObj (qemudShutdownVMDaemon vm)
                              EventType.stopped EventDetail.saved),
                        errors := errors, sent := sent ++ [saveCommand safe_path] },
                    written :=
                      headerObject env.bigEndian (saveHeader wasRunning xml) ++ xml ++ [0],
                    unlinked := false })

/-- `qemudDomainSave(dom, path)`. The call of `qemudDomainSuspend(dom)` is made on the
driver as it is, and the domain object is read again after it. -/
def qemudDomainSave (driver : Driver) (dom : VirDomain) (path : List Nat) (env : SaveEnv) :
    Outcome SaveResult :=
  match domainAt driver.domains (virDomainFindByID driver.domains dom.id) with
  | none => saveFailure driver [] (noDomainWithId dom.id) [] []
  | some (i, vm) =>
    if !virDomainIsActive vm then
      saveFailure driver [] (operationFailed "domain is not running") [] []
    else if vm.state = DomainState.running then
      (qemudDomainSuspend driver dom env.stop).bind fun r api =>
        if r ≠ 0 then
          saveFailure api.driver api.errors (operationFailed "failed to pause domain")
            api.sent []
        else
          match api.driver.domains.get? i with
          | none => Outcome.undefinedBehaviour
          | some vm2 =>
            qemudDomainSaveImage api.driver i vm2 path env true api.errors api.sent
    else qemudDomainSaveImage driver i vm path env false [] []

/-! ## `qemudDomainRestore` -/

/-- The results of the calls made by `qemudDomainRestore`: the byte order of the host, the
bytes of the file at `path` (`none` when `open` fails) and the descriptor `open` gives,
`VIR_ALLOC_N(xml, header.xml_len)`, `virDomainDefParseString` on the text read, the
allocation of `virDomainAssignDef`, the calls of `qemudStartVMDaemon`, and the monitor
command `cont`. -/
structure RestoreEnv where
  bigEndian : Bool
  file : Option (List Nat)
  fd : Int
  allocOk : Bool
  parse : List Nat → Option DomainDef
  assignAllocOk : Bool
  start : StartEnv
  cont : MonitorResult

/-- The exits of a public operation with -1 and one report, the driver being `driver`. -/
def apiFailure (driver : Driver) (report : ErrorReport) (sent : List (List Nat)) :
    Outcome Api :=
  Outcome.returns (-1) { driver := driver, errors := [report], sent := sent }

/-- The report `image version is not supported (%d > %d)` of `qemudDomainRestore`. -/
def imageVersionReport (version : Int) : ErrorReport :=
  { code := VirErr.operationFailed,
    message := bytes "image version is not supported (" ++ fmtInt version ++ bytes " > " ++
      fmtInt QEMUD_SAVE_VERSION ++ bytes ")" }

/-- The domain `qemudDomainRestore` and `qemudDomainMigratePrepare2` look for before they
assign the definition: `virDomainFindByUUID`, and `virDomainFindByName` when it finds
nothing. -/
def findByUUIDOrName (doms : List DomainObj) (uuid name : List Nat) : Option (Nat × DomainObj) :=
  match domainAt doms (virDomainFindByUUID doms uuid) with
  | some r => some r
  | none => domainAt doms (virDomainFindByName doms name)

/-- `qemudDomainRestore` from the comment `Set the migration source and start it up` on:
the domain `vm` at position `i` of the registry `doms` is started from `stdio`, and resumed
when `was_running` is set. -/
def qemudDomainRestoreStart (driver : Driver) (doms : List DomainObj) (i : Nat) (vm : DomainObj)
    (env : RestoreEnv) (was_running : Int) : Outcome Api :=
  (qemudStartVMDaemon env.start driver.nextvmid { vm with stdin_fd := env.fd }
      (some (bytes "stdio"))).bind fun ret res =>
    if ret < 0 then
      Outcome.returns ret
        { driver :=
            { driver with
                nextvmid := res.1,
                domains :=
                  if !res.2.persistent then virDomainRemoveInactive doms i
                  else doms.set i { res.2 with stdin_fd := -1 } },
          errors := [operationFailed "failed to start VM"], sent := [] }
    else if was_running ≠ 0 then
      onMonitor env.cont
        (Outcome.returns ret
          { driver :=
              { nextvmid := res.1, domains := doms.set i { res.2 with stdin_fd := -1 },
                events := driver.events ++
                  [virDomainEventNewFromObj { res.2 with stdin_fd := -1 }
                    EventType.started EventDetail.restored] },
            errors := [operationFailed "failed to resume domain"], sent := [bytes "cont"] })
        (fun _ => Outcome.returns 0
          { driver :=
              { nextvmid := res.1,
                domains := doms.set i { res.2 with stdin_fd := -1, state := DomainState.running },
                events := driver.events ++
                  [virDomainEventNewFromObj { res.2 with stdin_fd := -1 }
                    EventType.started EventDetail.restored] },
            errors := [], sent := [bytes "cont"] })
    else
      Outcome.returns 0
        { driver :=
            { nextvmid := res.1, domains := doms.set i { res.2 with stdin_fd := -1 },
              events := driver.events ++
                [virDomainEventNewFromObj { res.2 with stdin_fd := -1 }
                  EventType.started EventDetail.restored] },
          errors := [], sent := [] }

/-- `qemudDomainRestore(conn, path)`. The text handed to the parser is the C string at the
start of the `xml_len` bytes read; when they hold no NUL the parser reads past them. -/
def qemudDomainRestore (driver : Driver) (env : RestoreEnv) : Outcome Api :=
  match env.file with
  | none => apiFailure driver (operationFailed "cannot read domain image") []
  | some file =>
    if file.length < 92 then apiFailure driver (operationFailed "failed to read qemu header") []
    else if (headerOfObject env.bigEndian (file.take 92)).magic ≠ QEMUD_SAVE_MAGIC then
      apiFailure driver (operationFailed "image magic is incorrect") []
    else if (headerOfObject env.bigEndian (file.take 92)).version > QEMUD_SAVE_VERSION then
      apiFailure driver
        (imageVersionReport (headerOfObject env.bigEndian (file.take 92)).version) []
    else if (headerOfObject env.bigEndian (file.take 92)).xml_len < 0 ∨ env.allocOk = false then
      apiFailure driver (operationFailed "out of memory") []
    else if ((file.drop 92).length : Int) < (headerOfObject env.bigEndian (file.take 92)).xml_len
    then apiFailure driver (operationFailed "failed to read XML") []
    else if 0 ∉ (file.drop 92).take (headerOfObject env.bigEndian (file.take 92)).xml_len.toNat
    then Outcome.undefinedBehaviour
    else
      match env.parse (cstr (file.drop 92)) with
      | none => apiFailure driver (operationFailed "failed to parse XML") []
      | some d =>
        if ((findByUUIDOrName driver.domains d.uuid d.name).map
              fun r => virDomainIsActive r.2) = some true then
          apiFailure driver
            { code := VirErr.operationFailed,
              message := bytes "domain is already active as '" ++
                ((findByUUIDOrName driver.domains d.uuid d.name).map
                  fun r => r.2.def_.name).getD [] ++ bytes "'" } []
        else
          match virDomainAssignDef env.assignAllocOk driver.domains d with
          | none => apiFailure driver (operationFailed "failed to assign new VM") []
          | some (doms, i) =>
            match doms.get? i with
            | none => Outcome.undefinedBehaviour
            | some vm =>
              qemudDomainRestoreStart driver doms i vm env
                (headerOfObject env.bigEndian (file.take 92)).was_running

/-! ## Migration: `qemudDomainMigratePrepare2`, `qemudDomainMigratePerform` -/

/-- Modelled from the spec: the macro `STREQLEN(a, b, n)` (of `internal.h`, outside the
sources), which is `strncmp(a, b, n) == 0`: the two C strings agree on their first `n`
characters, a string that ends earlier being compared up to its end. -/
def STREQLEN (a b : List Nat) (n : Nat) : Bool :=
  decide ((cstr a).take n = (cstr b).take n)

/-- `strrchr(s, ch)` for `ch` other than NUL on the contents of a C string: the offset of
the last `ch`, `none` for NULL. -/
def strrchr : List Nat → Nat → Option Nat
  | [], _ => none
  | c :: t, ch =>
    match strrchr t ch with
    | some k => some (k + 1)
    | none => if c = ch then some 0 else none

/-- Modelled from the spec: `virParseNumber(&str)` (of `util.c`, outside the sources), which
reads a decimal port number: -1 when the text does not start with a digit or the number
does not fit an `int`, the pointer being left alone; otherwise the number, the pointer being
moved past its digits. The result is the value and the number of characters passed. -/
def virParseNumber (s : List Nat) : Int × Nat :=
  if s.takeWhile isDigit = [] then (-1, 0)
  else if digitsValue (s.takeWhile isDigit) > 2147483647 then (-1, 0)
  else (digitsValue (s.takeWhile isDigit), (s.takeWhile isDigit).length)

/-- The results of the calls made by `qemudDomainMigratePrepare2`, and the two constants
`QEMUD_MIGRATION_FIRST_PORT` and `QEMUD_MIGRATION_NUM_PORTS` (of `qemu_conf.h`, outside the
sources): `gethostname` (`none` when it fails) and the text of `strerror(errno)`,
`virAsprintf`, `virDomainDefParseString` on `dom_xml`, the allocation of
`virDomainAssignDef`, and the calls of `qemudStartVMDaemon`. -/
structure PrepareEnv where
  firstPort : Int
  numPorts : Int
  hostname : Option (List Nat)
  strerror : List Nat
  asprintfOk : Bool
  parsed : Option DomainDef
  assignAllocOk : Bool
  start : StartEnv
  deriving DecidableEq, Repr

/-- What `qemudDomainMigratePrepare2` leaves: the driver, reports and commands, `*uri_out`
(`none` is NULL) and the static counter `port`. -/
structure PrepareResult where
  api : Api
  uri_out : Option (List Nat)
  port : Int
  deriving DecidableEq, Repr

/-- The exits of `qemudDomainMigratePrepare2` through `cleanup` with `ret = -1`: `*uri_out`
is freed. -/
def prepareFailure (driver : Driver) (port : Int) (report : ErrorReport) :
    Outcome PrepareResult :=
  Outcome.returns (-1)
    { api := { driver := driver, errors := [report], sent := [] }, uri_out := none,
      port := port }

/-- The text `snprintf (migrateFrom, sizeof (migrateFrom), "tcp:0.0.0.0:%d", this_port)`
stores in the 64 bytes of `migrateFrom`. -/
def migrateFromText (this_port : Int) : List Nat :=
  (bytes "tcp:0.0.0.0:" ++ fmtInt this_port).take 63

/-- `qemudDomainMigratePrepare2` from the comment `Parse the domain XML` on, the port being
`this_port`, `*uri_out` being `uri_out` and the static counter being `port`. -/
def qemudDomainMigratePrepareStart (driver : Driver) (env : PrepareEnv) (dname : Option (List Nat))
    (this_port : Int) (uri_out : Option (List Nat)) (port : Int) : Outcome PrepareResult :=
  match env.parsed with
  | none => prepareFailure driver port (operationFailed "failed to parse XML")
  | some d =>
    if ((findByUUIDOrName driver.domains d.uuid (dname.getD d.name)).map
          fun r => virDomainIsActive r.2) = some true then
      prepareFailure driver port
        { code := VirErr.operationFailed,
          message := bytes "domain with the same name or UUID already exists as '" ++
            ((findByUUIDOrName driver.domains d.uuid (dname.getD d.name)).map
              fun r => r.2.def_.name).getD [] ++ bytes "'" }
    else
      match virDomainAssignDef env.assignAllocOk driver.domains d with
      | none => prepareFailure driver port (operationFailed "failed to assign new VM")
      | some (doms, i) =>
        match doms.get? i with
        | none => Outcome.undefinedBehaviour
        | some vm =>
          (qemudStartVMDaemon env.start driver.nextvmid
              { vm with def_ := { vm.def_ with id := -1 } }
              (some (migrateFromText this_port))).bind fun ret res =>
            if ret < 0 then
              prepareFailure
                { driver with
                    nextvmid := res.1,
                    domains :=
                      if !res.2.persistent then virDomainRemoveInactive doms i
                      else doms.set i res.2 }
                port (operationFailed "failed to start listening VM")
            else
              Outcome.returns 0
                { api :=
                    { driver :=
                        { nextvmid := res.1, domains := doms.set i res.2,
                          events := driver.events ++
                            [virDomainEventNewFromObj res.2 EventType.started
                              EventDetail.migrated] },
                      errors := [], sent := [] },
                  uri_out := uri_out, port := port }

/-- `qemudDomainMigratePrepare2(dconn, ..., uri_in, uri_out, flags, dname, resource,
dom_xml)`; `port` is the static counter of the function. A NULL argument is `none`; `dom_xml`
enters through `env.parsed`, and `hasXml` tells whether it is not NULL. -/
def qemudDomainMigratePrepare2 (driver : Driver) (env : PrepareEnv) (port : Int)
    (uri_in dname : Option (List Nat)) (hasXml : Bool) : Outcome PrepareResult :=
  if !hasXml then
    prepareFailure driver port
      { code := VirErr.internalError, message := bytes "no domain XML passed" }
  else
    match uri_in with
    | none =>
      match env.hostname with
      | none =>
        prepareFailure driver (if port + 1 = env.numPorts then 0 else port + 1)
          { code := VirErr.systemError, message := env.strerror }
      | some hostname =>
        if !env.asprintfOk then
          prepareFailure driver (if port + 1 = env.numPorts then 0 else port + 1)
            { code := VirErr.noMemory, message := env.strerror }
        else
          qemudDomainMigratePrepareStart driver env dname (env.firstPort + port)
            (some (bytes "tcp:" ++ cstr hostname ++ 58 :: fmtInt (env.firstPort + port)))
            (if port + 1 = env.numPorts then 0 else port + 1)
    | some uri =>
      if !STREQLEN uri (bytes "tcp:") 6 then
        prepareFailure driver port
          { code := VirErr.invalidArg,
            message := bytes "only tcp URIs are supported for KVM migrations" }
      else
        match strrchr (cstr uri) 58 with
        | none => Outcome.undefinedBehaviour
        | some colon =>
          if (virParseNumber ((cstr uri).drop (colon + 1))).1 = -1 ∨
              colon + 1 + (virParseNumber ((cstr uri).drop (colon + 1))).2 ≠ (cstr uri).length
          then
            prepareFailure driver port
              { code := VirErr.invalidArg,
                message := bytes "URI did not have ':port' at the end" }
          else
            qemudDomainMigratePrepareStart driver env dname
              (virParseNumber ((cstr uri).drop (colon + 1))).1 none port

/-- The results of the calls made by `qemudDomainMigratePerform`, and the size of its
buffer `cmd` (`HOST_NAME_MAX+50`): the monitor commands `stop` and `migrate_set_speed`, the
allocation of `qemudEscapeMonitorArg` and the text of `strerror(errno)`, and the monitor
command `migrate`. -/
structure PerformEnv where
  cmdSize : Nat
  stop : MonitorResult
  setSpeed : MonitorResult
  escapeAllocOk : Bool
  strerror : List Nat
  migrate : MonitorResult
  deriving DecidableEq, Repr

/-- A call of `qemudMonitorCommand` whose return value is not looked at: when `skip` holds
the call is not made; otherwise the operation goes on whether the command failed or not. -/
def ignoringReply {σ : Type} (skip : Bool) (r : MonitorResult) (next : Outcome σ) : Outcome σ :=
  if skip then next else onMonitor r next (fun _ => next)

/-- The text `snprintf (cmd, sizeof cmd, ...)` stores in `cmd`. -/
def snprintfCmd (cmdSize : Nat) (text : List Nat) : List Nat := text.take (cmdSize - 1)

/-- The commands `qemudDomainMigratePerform` sends before `migrate`. -/
def performSent (env : PerformEnv) (live : Bool) (resource : Nat) : List (List Nat) :=
  (if live then [] else [snprintfCmd env.cmdSize (bytes "stop")]) ++
    (if resource > 0 then
      [snprintfCmd env.cmdSize (bytes "migrate_set_speed " ++ fmtNat resource ++ bytes "m")]
     else [])

/-- The driver once `qemudDomainMigratePerform` has paused the domain: without the flag
`VIR_MIGRATE_LIVE` the event suspended/migrated is queued; no field of the domain is
written. -/
def performPaused (driver : Driver) (vm : DomainObj) (live : Bool) : Driver :=
  if live then driver
  else
    { driver with
        events := driver.events ++
          [virDomainEventNewFromObj vm EventType.suspended EventDetail.migrated] }

/-- `qemudDomainMigratePerform(dom, ..., uri, flags, dname, resource)`; `live` is
`flags & VIR_MIGRATE_LIVE`. -/
def qemudDomainMigratePerform (driver : Driver) (dom : VirDomain) (uri : List Nat) (live : Bool)
    (resource : Nat) (env : PerformEnv) : Outcome Api :=
  match domainAt driver.domains (virDomainFindByID driver.domains dom.id) with
  | none => apiFailure driver (noDomainWithId dom.id) []
  | some (i, vm) =>
    if !virDomainIsActive vm then apiFailure driver (operationFailed "domain is not running") []
    else
      ignoringReply live env.stop
        (ignoringReply (decide (resource = 0)) env.setSpeed
          (match qemudEscapeMonitorArg env.escapeAllocOk uri with
           | none =>
             apiFailure (performPaused driver vm live)
               { code := VirErr.systemError, message := env.strerror }
               (performSent env live resource)
           | some safe_uri =>
             onMonitor env.migrate
               (apiFailure (performPaused driver vm live)
                 (operationFailed "migrate operation failed")
                 (performSent env live resource ++
                   [snprintfCmd env.cmdSize (bytes "migrate \"" ++ safe_uri ++ [34])]))
               (fun info =>
                 if (strstr (cstr info) (bytes "fail")).isSome then
                   apiFailure (performPaused driver vm live)
                     { code := VirErr.operationFailed,
                       message := bytes "migrate failed: " ++ cstr info }
                     (performSent env live resource ++
                       [snprintfCmd env.cmdSize (bytes "migrate \"" ++ safe_uri ++ [34])])
                 else
                   Outcome.returns 0
                     { driver :=
                         stopDomain (performPaused driver vm live) i (qemudShutdownVMDaemon vm)
                           (virDomainEventNewFromObj (qemudShutdownVMDaemon vm)
                             EventType.stopped EventDetail.migrated),
                       errors := [],
                       sent := performSent env live resource ++
                         [snprintfCmd env.cmdSize (bytes "migrate \"" ++ safe_uri ++ [34])] })))

/-! ## Sample drivers -/

/-- A driver whose registry holds one running KVM domain, `alpha`, with id 1 and pid 77. -/
def runningDriver : Driver := { nextvmid := 2, domains := [kvmDomain 1 77], events := [] }

/-- The handle of the domain `alpha` with the id `id`. -/
def alphaHandle (id : Int) : VirDomain :=
  { name := bytes "alpha", uuid := (alphaDef VirtType.kvm).uuid, id := id }

/-- The second domain object has the name, the UUID and the flag `persistent` of the first,
and neither has a pending definition. -/
def SameIdentity (vm vm2 : DomainObj) : Prop :=
  vm2.def_.name = vm.def_.name ∧ vm2.def_.uuid = vm.def_.uuid ∧
    vm2.persistent = vm.persistent ∧ vm.newDef = none ∧ vm2.newDef = none

/-- No two domains of the registry share a name or a UUID. -/
def RegistryUnique (doms : List DomainObj) : Prop :=
  doms.Pairwise (fun a b => a.def_.name ≠ b.def_.name ∧ a.def_.uuid ≠ b.def_.uuid)

/-- A definition named `beta`, with a UUID of its own. -/
def betaDef : DomainDef :=
  { alphaDef VirtType.qemu with name := bytes "beta", uuid := List.replicate 15 0 ++ [2] }

/-- Results of calls with which `qemudDomainCreate` succeeds for the definition `d`. -/
def createOk (d : DomainDef) : CreateEnv :=
  { parsed := some d, assignAllocOk := true, start := startOk, getDomainOk := true }

/-- Results of calls with which `qemudDomainSave` succeeds on a little-endian host: the
monitor answers `stop` and `migrate` with an empty reply, the XML is `<domain/>`. -/
def saveOk : SaveEnv :=
  { bigEndian := false, stop := MonitorResult.reply [0], xml := some (bytes "<domain/>"),
    openOk := true, writeHeaderOk := true, writeXmlOk := true, closeOk := true, strerror := [],
    escapeAllocOk := true, asprintfOk := true, migrate := MonitorResult.reply [0] }

/-- Results of calls with which `qemudDomainMigratePerform` succeeds: the monitor answers
every command with an empty reply; the buffer `cmd` has 114 bytes. -/
def performOk : PerformEnv :=
  { cmdSize := 114, stop := MonitorResult.reply [0], setSpeed := MonitorResult.reply [0],
    escapeAllocOk := true, strerror := [], migrate := MonitorResult.reply [0] }

/-- The bytes of a save file: a header with the given version and `was_running` for the
text `<domain/>`, in little-endian order, and that text. -/
def saveFile (version was_running : Int) : List Nat :=
  headerObject false
      { magic := QEMUD_SAVE_MAGIC, version := version, xml_len := 10,
        was_running := was_running, unused := List.replicate 16 0 } ++
    bytes "<domain/>" ++ [0]

/-- Results of calls with which `qemudDomainRestore` succeeds on a little-endian host for
the file `file`, the XML being parsed to the definition `alpha`. -/
def restoreOk (file : List Nat) : RestoreEnv :=
  { bigEndian := false, file := some file, fd := 20, allocOk := true,
    parse := fun _ => some (alphaDef VirtType.qemu), assignAllocOk := true, start := startOk,
    cont := MonitorResult.reply [0] }

/-- Results of calls with which `qemudDomainMigratePrepare2` succeeds once the URI is
accepted: ports 49152 to 49215, the host name `dest`, the definition `alpha`. -/
def prepareOk : PrepareEnv :=
  { firstPort := 49152, numPorts := 64, hostname := some (bytes "dest"), strerror := [],
    asprintfOk := true, parsed := some (alphaDef VirtType.qemu), assignAllocOk := true,
    start := startOk }

/-! ## Disks: `qemudDiskDeviceName` and the hot-plug operations -/

/-- `enum virDomainDiskType`. -/
inductive DiskType
  | block | file
  deriving DecidableEq, Repr

/-- `enum virDomainDiskDevice`. -/
inductive DiskDevice
  | disk | cdrom | floppy
  deriving DecidableEq, Repr

/-- `enum virDomainDiskBus`. -/
inductive DiskBus
  | ide | fdc | scsi | virtio | xen | usb
  deriving DecidableEq, Repr

/-- `virDomainDiskDef`, the fields the driver reads or writes; a NULL `src` is `none`. -/
structure DomainDiskDef where
  type : DiskType
  device : DiskDevice
  bus : DiskBus
  src : Option (List Nat)
  dst : List Nat
  slotnum : Int
  deriving DecidableEq, Repr

/-- Modelled from the spec: `virDomainDiskBusTypeToString(bus)` (of `domain_conf.c`, outside
the sources): the name of the bus as the spec writes it. -/
def virDomainDiskBusTypeToString : DiskBus → List Nat
  | DiskBus.ide => bytes "ide"
  | DiskBus.fdc => bytes "fdc"
  | DiskBus.scsi => bytes "scsi"
  | DiskBus.virtio => bytes "virtio"
  | DiskBus.xen => bytes "xen"
  | DiskBus.usb => bytes "usb"

/-- A report of `VIR_ERR_NO_MEMORY` with a NULL format. -/
def noMemory : ErrorReport := { code := VirErr.noMemory, message := [] }

/-- `qemudDiskDeviceName(conn, disk)`: the name (`none` is NULL) and the reports. `index` is
what `virDiskNameToBusDeviceIndex` (of `domain_conf.c`, outside the sources) gives for the
disk: `none` when it returns a negative value, otherwise `busid` and `devid`; `asprintfOk`
tells whether `virAsprintf` succeeds. -/
def qemudDiskDeviceName (disk : DomainDiskDef) (index : Option (Int × Int)) (asprintfOk : Bool) :
    Option (List Nat) × List ErrorReport :=
  match index with
  | none =>
    (none, [{ code := VirErr.internalError,
              message := bytes "cannot convert disk '" ++ disk.dst ++
                bytes "' to bus/device index" }])
  | some (busid, devid) =>
    match disk.bus with
    | DiskBus.ide =>
      if !asprintfOk then (none, [noMemory])
      else if disk.device = DiskDevice.disk then
        (some (bytes "ide" ++ fmtInt busid ++ bytes "-hd" ++ fmtInt devid), [])
      else (some (bytes "ide" ++ fmtInt busid ++ bytes "-cd" ++ fmtInt devid), [])
    | DiskBus.scsi =>
      if !asprintfOk then (none, [noMemory])
      else if disk.device = DiskDevice.disk then
        (some (bytes "scsi" ++ fmtInt busid ++ bytes "-hd" ++ fmtInt devid), [])
      else (some (bytes "scsi" ++ fmtInt busid ++ bytes "-cd" ++ fmtInt devid), [])
    | DiskBus.fdc =>
      if !asprintfOk then (none, [noMemory])
      else (some (bytes "floppy" ++ fmtInt devid), [])
    | DiskBus.virtio =>
      if !asprintfOk then (none, [noMemory])
      else (some (bytes "virtio" ++ fmtInt devid), [])
    | bus =>
      (none, [{ code := VirErr.noSupport,
                message := bytes "Unsupported disk name mapping for bus '" ++
                  virDomainDiskBusTypeToString bus ++ bytes "'" }])

/-- What a hot-plug operation leaves: the disks `vm->def->disks[0 .. ndisks)` of the
definition, the disk `dev->data.disk` handed in, the reports and the commands given to
`qemudMonitorCommand`. -/
structure HotplugResult where
  disks : List DomainDiskDef
  disk : DomainDiskDef
  errors : List ErrorReport
  sent : List (List Nat)
  deriving DecidableEq, Repr

/-- The results of the calls made by the attach and detach operations: `VIR_REALLOC_N` of
the array of disks, the allocation of `qemudEscapeMonitorArg`, `virAsprintf`, the monitor
command, and `qsort` with `virDomainDiskQSort` (of `domain_conf.c`, outside the sources) as
the function `qsort` on the array. -/
structure HotplugEnv where
  reallocOk : Bool
  escapeAllocOk : Bool
  asprintfOk : Bool
  monitor : MonitorResult
  qsort : List DomainDiskDef → List DomainDiskDef

/-- A hot-plug operation returning `ret` with a report, the disks being as they were. -/
def hotplugFailure (ret : Int) (disks : List DomainDiskDef) (disk : DomainDiskDef)
    (report : ErrorReport) (sent : List (List Nat)) : Outcome HotplugResult :=
  Outcome.returns ret { disks := disks, disk := disk, errors := [report], sent := sent }

/-- `PCI_ATTACH_OK_MSG`. -/
def PCI_ATTACH_OK_MSG : List Nat := bytes "OK bus 0, slot "

/-- The disk `dev->data.disk` once `virStrToLong_i` has run on the text after
`PCI_ATTACH_OK_MSG` at offset `s` of the reply: the slot number is stored when a number is
read, and left as it is otherwise (a warning is logged). -/
def withParsedSlot (disk : DomainDiskDef) (reply : List Nat) (s : Nat) : DomainDiskDef :=
  match virStrToLong_i (reply.drop (s + PCI_ATTACH_OK_MSG.length)) with
  | some (slot, _) => { disk with slotnum := slot }
  | none => disk

/-- `qemudDomainAttachPciDiskDevice(conn, vm, dev)` on the disks of `vm->def`. -/
def qemudDomainAttachPciDiskDevice (disks : List DomainDiskDef) (disk : DomainDiskDef)
    (env : HotplugEnv) : Outcome HotplugResult :=
  if disks.any (fun d => decide (d.dst = disk.dst)) then
    hotplugFailure (-1) disks disk
      { code := VirErr.operationFailed,
        message := bytes "target " ++ disk.dst ++ bytes " already exists" } []
  else if !env.reallocOk then hotplugFailure (-1) disks disk noMemory []
  else
    match disk.src with
    | none => Outcome.undefinedBehaviour
    | some src =>
      match qemudEscapeMonitorArg env.escapeAllocOk src with
      | none => hotplugFailure (-1) disks disk (operationFailed "out of memory") []
      | some safe_path =>
        if !env.asprintfOk then hotplugFailure (-1) disks disk noMemory []
        else
          onMonitor env.monitor
            (hotplugFailure (-1) disks disk
              { code := VirErr.operationFailed,
                message := bytes "cannot attach " ++ virDomainDiskBusTypeToString disk.bus ++
                  bytes " disk" }
              [bytes "pci_add 0 storage file=" ++ safe_path ++ bytes ",if=" ++
                virDomainDiskBusTypeToString disk.bus])
            (fun reply =>
              match strstr (cstr reply) PCI_ATTACH_OK_MSG with
              | none =>
                hotplugFailure (-1) disks disk
                  { code := VirErr.operationFailed,
                    message := bytes "adding " ++ virDomainDiskBusTypeToString disk.bus ++
                      bytes " disk failed" }
                  [bytes "pci_add 0 storage file=" ++ safe_path ++ bytes ",if=" ++
                    virDomainDiskBusTypeToString disk.bus]
              | some s =>
                Outcome.returns 0
                  { disks := env.qsort (disks ++ [withParsedSlot disk (cstr reply) s]),
                    disk := withParsedSlot disk (cstr reply) s,
                    errors := [],
                    sent := [bytes "pci_add 0 storage file=" ++ safe_path ++ bytes ",if=" ++
                      virDomainDiskBusTypeToString disk.bus] })

/-- `qemudDomainAttachUsbMassstorageDevice(conn, vm, dev)` on the disks of `vm->def`. -/
def qemudDomainAttachUsbMassstorageDevice (disks : List DomainDiskDef) (disk : DomainDiskDef)
    (env : HotplugEnv) : Outcome HotplugResult :=
  if disks.any (fun d => decide (d.dst = disk.dst)) then
    hotplugFailure (-1) disks disk
      { code := VirErr.operationFailed,
        message := bytes "target " ++ disk.dst ++ bytes " already exists" } []
  else if !env.reallocOk then hotplugFailure (-1) disks disk noMemory []
  else
    match disk.src with
    | none => Outcome.undefinedBehaviour
    | some src =>
      match qemudEscapeMonitorArg env.escapeAllocOk src with
      | none => hotplugFailure (-1) disks disk (operationFailed "out of memory") []
      | some safe_path =>
        if !env.asprintfOk then hotplugFailure (-1) disks disk noMemory []
        else
          onMonitor env.monitor
            (hotplugFailure (-1) disks disk (operationFailed "cannot attach usb disk")
              [bytes "usb_add disk:" ++ safe_path])
            (fun reply =>
              if (strstr (cstr reply) (bytes "Could not add ")).isSome then
                hotplugFailure (-1) disks disk (operationFailed "adding usb disk failed")
                  [bytes "usb_add disk:" ++ safe_path]
              else
                Outcome.returns 0
                  { disks := env.qsort (disks ++ [disk]), disk := disk, errors := [],
                    sent := [bytes "usb_add disk:" ++ safe_path] })

/-- The array of disks after `vm->def->disks[i] = vm->def->disks[--vm->def->ndisks]`. -/
def dropDiskAt (disks : List DomainDiskDef) (i : Nat) : List DomainDiskDef :=
  match disks.getLast? with
  | none => []
  | some last => (disks.set i last).dropLast

/-- `qemudDomainDetachPciDiskDevice(conn, vm, dev)` on the disks of `vm->def`; `shrinkOk` is
the outcome of the `VIR_REALLOC_N` that shrinks the array. -/
def qemudDomainDetachPciDiskDevice (disks : List DomainDiskDef) (disk : DomainDiskDef)
    (env : HotplugEnv) (shrinkOk : Bool) : Outcome HotplugResult :=
  match disks.findIdx? (fun d => decide (d.dst = disk.dst)) with
  | none =>
    hotplugFailure (-1) disks disk
      { code := VirErr.operationFailed,
        message := bytes "disk " ++ disk.dst ++ bytes " not found" } []
  | some i =>
    match disks.get? i with
    | none => Outcome.undefinedBehaviour
    | some detach =>
      if detach.slotnum < 1 then
        hotplugFailure (-1) disks disk
          { code := VirErr.operationFailed,
            message := bytes "disk " ++ detach.dst ++
              bytes " cannot be detached - invalid slot number " ++ fmtInt detach.slotnum } []
      else if !env.asprintfOk then hotplugFailure (-1) disks disk noMemory []
      else
        onMonitor env.monitor
          (hotplugFailure (-1) disks disk
            { code := VirErr.operationFailed,
              message := bytes "failed to execute detach disk " ++ detach.dst ++
                bytes " command" }
            [bytes "pci_del 0 " ++ fmtInt detach.slotnum])
          (fun reply =>
            if (strstr (cstr reply) (bytes "invalid slot")).isSome then
              hotplugFailure (-1) disks disk
                { code := VirErr.operationFailed,
                  message := bytes "failed to detach disk " ++ detach.dst ++
                    bytes ": invalid slot " ++ fmtInt detach.slotnum }
                [bytes "pci_del 0 " ++ fmtInt detach.slotnum]
            else if disks.length > 1 then
              if !shrinkOk then
                Outcome.returns (-1)
                  { disks := dropDiskAt disks i, disk := disk, errors := [noMemory],
                    sent := [bytes "pci_del 0 " ++ fmtInt detach.slotnum] }
              else
                Outcome.returns 0
                  { disks := env.qsort (dropDiskAt disks i), disk := disk, errors := [],
                    sent := [bytes "pci_del 0 " ++ fmtInt detach.slotnum] }
            else
              Outcome.returns 0
                { disks := [], disk := disk, errors := [],
                  sent := [bytes "pci_del 0 " ++ fmtInt detach.slotnum] })

/-- The results of the calls made by `qemudDomainChangeEjectableMedia`, with the text
`vm->def->emulator`: `qemudExtractVersionInfo` (`none` when it fails, otherwise whether
`QEMUD_CMD_FLAG_DRIVE` is set), `virDiskNameToBusDeviceIndex` for `qemudDiskDeviceName`, the
allocation of the device name (`virAsprintf` or `strdup`), the allocation of
`qemudEscapeMonitorArg`, `virAsprintf` of the command, and the monitor command. -/
structure MediaEnv where
  emulator : List Nat
  versionInfo : Option Bool
  index : Option (Int × Int)
  nameAllocOk : Bool
  escapeAllocOk : Bool
  asprintfOk : Bool
  monitor : MonitorResult
  deriving DecidableEq, Repr

/-- Modelled from the spec: `virDomainDiskDeviceTypeToString(device)` (of `domain_conf.c`,
outside the sources): the name of the kind of device as the spec writes it. -/
def virDomainDiskDeviceTypeToString : DiskDevice → List Nat
  | DiskDevice.disk => bytes "disk"
  | DiskDevice.cdrom => bytes "cdrom"
  | DiskDevice.floppy => bytes "floppy"

/-- The device name `qemudDomainChangeEjectableMedia` uses: that of `qemudDiskDeviceName`
with `-drive`, the target of a floppy or `cdrom` for the target `hdc` without; `none` with
the reports when there is none. -/
def mediaDeviceName (newdisk : DomainDiskDef) (env : MediaEnv) (drive : Bool) :
    Option (List Nat) × List ErrorReport :=
  if drive then qemudDiskDeviceName newdisk env.index env.nameAllocOk
  else if newdisk.device = DiskDevice.floppy then
    (if env.nameAllocOk then (some newdisk.dst, []) else (none, [noMemory]))
  else if newdisk.device = DiskDevice.cdrom ∧ newdisk.dst = bytes "hdc" then
    (if env.nameAllocOk then (some (bytes "cdrom"), []) else (none, [noMemory]))
  else
    (none, [{ code := VirErr.internalError,
              message := bytes "Emulator version does not support removable media for device '"
                ++ virDomainDiskDeviceTypeToString newdisk.device ++ bytes "' and target '" ++
                newdisk.dst ++ bytes "'" }])

/-- The command of `qemudDomainChangeEjectableMedia`: `change` with the escaped source, or
`eject` when the new disk has no source; `none` with the report when an allocation fails. -/
def mediaCommand (newdisk : DomainDiskDef) (env : MediaEnv) (devname : List Nat) :
    Option (List Nat) × List ErrorReport :=
  match newdisk.src with
  | some src =>
    match qemudEscapeMonitorArg env.escapeAllocOk src with
    | none => (none, [noMemory])
    | some safe_path =>
      if env.asprintfOk then
        (some (bytes "change " ++ devname ++ bytes " \"" ++ safe_path ++ [34]), [])
      else (none, [noMemory])
  | none =>
    if env.asprintfOk then (some (bytes "eject " ++ devname), []) else (none, [noMemory])

/-- `qemudDomainChangeEjectableMedia(conn, vm, dev)` on the disks of `vm->def`. -/
def qemudDomainChangeEjectableMedia (disks : List DomainDiskDef) (newdisk : DomainDiskDef)
    (env : MediaEnv) : Outcome HotplugResult :=
  match disks.findIdx?
      (fun d => decide (d.bus = newdisk.bus) && decide (d.dst = newdisk.dst)) with
  | none =>
    hotplugFailure (-1) disks newdisk
      { code := VirErr.internalError,
        message := bytes "No device with bus '" ++ virDomainDiskBusTypeToString newdisk.bus ++
          bytes "' and target '" ++ newdisk.dst ++ bytes "'" } []
  | some i =>
    match disks.get? i with
    | none => Outcome.undefinedBehaviour
    | some origdisk =>
      match env.versionInfo with
      | none =>
        hotplugFailure (-1) disks newdisk
          { code := VirErr.internalError,
            message := bytes "Cannot determine QEMU argv syntax " ++ env.emulator } []
      | some drive =>
        match mediaDeviceName newdisk env drive with
        | (none, reports) =>
          Outcome.returns (-1)
            { disks := disks, disk := newdisk, errors := reports, sent := [] }
        | (some devname, _) =>
          match mediaCommand newdisk env devname with
          | (none, reports) =>
            Outcome.returns (-1)
              { disks := disks, disk := newdisk, errors := reports, sent := [] }
          | (some cmd, _) =>
            onMonitor env.monitor
              (hotplugFailure (-1) disks newdisk
                (operationFailed "could not change cdrom media") [cmd])
              (fun reply =>
                if (strstr (cstr reply) (bytes "\ndevice ")).isSome then
                  hotplugFailure (-1) disks newdisk
                    { code := VirErr.operationFailed,
                      message := bytes "changing cdrom media failed: " ++ cstr reply } [cmd]
                else
                  Outcome.returns 0
                    { disks := disks.set i
                        { origdisk with src := newdisk.src, type := newdisk.type },
                      disk := { newdisk with src := none },
                      errors := [], sent := [cmd] })

/-! ## `qemudOpen` -/

/-- `virDrvOpenStatus`. -/
inductive virDrvOpenStatus
  | VIR_DRV_OPEN_SUCCESS | VIR_DRV_OPEN_DECLINED | VIR_DRV_OPEN_ERROR
  deriving DecidableEq, Repr

/-- The members `scheme` and `path` of an `xmlURI`, NULL being `none`. -/
structure XmlURI where
  scheme : Option (List Nat)
  path : Option (List Nat)
  deriving DecidableEq, Repr

/-- `qemudOpen(conn, auth, flags)`: the status and `conn->uri`. `initialised` tells whether
`qemu_driver` is not NULL, `probe` is the result of `qemudProbe`, `uid` is `getuid()`,
`uri` is `conn->uri` (`none` is NULL), and `parseOk` tells whether `xmlParseURI` gives a
URI for the default text, which it splits into the scheme `qemu` and the path after
`qemu://`. -/
def qemudOpen (initialised probe : Bool) (uid : Nat) (uri : Option XmlURI) (parseOk : Bool) :
    virDrvOpenStatus × Option XmlURI :=
  if !initialised then (virDrvOpenStatus.VIR_DRV_OPEN_DECLINED, uri)
  else if !probe then (virDrvOpenStatus.VIR_DRV_OPEN_DECLINED, uri)
  else
    match uri with
    | none =>
      if !parseOk then (virDrvOpenStatus.VIR_DRV_OPEN_ERROR, none)
      else
        (virDrvOpenStatus.VIR_DRV_OPEN_SUCCESS,
          some { scheme := some (bytes "qemu"),
                 path := some (if uid ≠ 0 then bytes "/session" else bytes "/system") })
    | some u =>
      match u.scheme, u.path with
      | some scheme, some path =>
        if cstr scheme ≠ bytes "qemu" then (virDrvOpenStatus.VIR_DRV_OPEN_DECLINED, uri)
        else if uid ≠ 0 then
          (if cstr path ≠ bytes "/session" then (virDrvOpenStatus.VIR_DRV_OPEN_DECLINED, uri)
           else (virDrvOpenStatus.VIR_DRV_OPEN_SUCCESS, uri))
        else
          (if cstr path ≠ bytes "/system" ∧ cstr path ≠ bytes "/session" then
            (virDrvOpenStatus.VIR_DRV_OPEN_DECLINED, uri)
           else (virDrvOpenStatus.VIR_DRV_OPEN_SUCCESS, uri))
      | _, _ => (virDrvOpenStatus.VIR_DRV_OPEN_DECLINED, uri)

/-! ## The events of a watch -/

/-- Modelled from the spec: the bits of `virEventHandleType` (of `libvirt.h`, outside the
sources): readable, writable, error and hang-up. -/
def VIR_EVENT_HANDLE_READABLE : Nat := 1

/-- See `VIR_EVENT_HANDLE_READABLE`. -/
def VIR_EVENT_HANDLE_WRITABLE : Nat := 2

/-- See `VIR_EVENT_HANDLE_READABLE`. -/
def VIR_EVENT_HANDLE_ERROR : Nat := 4

/-- See `VIR_EVENT_HANDLE_READABLE`. -/
def VIR_EVENT_HANDLE_HANGUP : Nat := 8

/-- `qemudDispatchVMEvent(watch, fd, events, opaque)` for the bit set `events`. -/
def qemudDispatchVMEventBits (driver : Driver) (watch fd : Int) (events : Nat)
    (readFails : Bool) : Driver :=
  qemudDispatchVMEvent driver watch fd
    (decide (events &&& VIR_EVENT_HANDLE_READABLE ≠ 0)) readFails

/-! ## `util/viralloc.c` -/

/-- The value of type `size_t` (64 bits) a number reduces to. -/
def toSize (n : Nat) : Nat := n % 18446744073709551616

/-- The difference of type `size_t` of two values of type `size_t`. -/
def subSize (a b : Nat) : Nat := (a + 18446744073709551616 - b) % 18446744073709551616

/-- The outcomes of the C library for the functions of `viralloc.c`: the bound of the macro
`xalloc_oversized(n, s)` (gnulib, outside the sources), which holds when
`oversizedLimit / s < n`; whether `realloc` gives a block; and the bytes found in memory
that `realloc` adds, which are not initialised. -/
structure AllocEnv where
  oversizedLimit : Nat
  reallocOk : Bool
  junk : Nat → Nat

/-- `memset(block + off, c, n)` inside one heap block: `none` when the range leaves the
block. -/
def memset (block : List Nat) (off c n : Nat) : Option (List Nat) :=
  if off + n ≤ block.length then
    some (block.take off ++ List.replicate n c ++ block.drop (off + n))
  else none

/-- `memcpy(block + off, src, n)` from another object: `none` when the destination range
leaves the block or the source has fewer than `n` bytes. -/
def memcpy (block : List Nat) (off : Nat) (src : List Nat) (n : Nat) : Option (List Nat) :=
  if off + n ≤ block.length ∧ n ≤ src.length then
    some (block.take off ++ src.take n ++ block.drop (off + n))
  else none

/-- `virReallocN(ptrptr, size, count)`: the return value and the block `*ptrptr` (the empty
block for NULL). A block that grows keeps its bytes and gets bytes that are not
initialised. -/
def virReallocN (env : AllocEnv) (block : List Nat) (size count : Nat) : Int × List Nat :=
  if env.oversizedLimit / size < count then (-1, block)
  else if env.reallocOk = false ∧ toSize (size * count) ≠ 0 then (-1, block)
  else
    (0, block.take (toSize (size * count)) ++
      (List.range (toSize (size * count) - block.length)).map env.junk)

/-- `virExpandN(ptrptr, size, countptr, add)`: the return value, the block and `*countptr`;
`none` when the `memset` leaves the block. -/
def virExpandN (env : AllocEnv) (block : List Nat) (size count add : Nat) :
    Option (Int × List Nat × Nat) :=
  if toSize (count + add) < count then some (-1, block, count)
  else if (virReallocN env block size (toSize (count + add))).1 = 0 then
    match memset (virReallocN env block size (toSize (count + add))).2 (toSize (size * count)) 0
        (toSize (size * add)) with
    | none => none
    | some b => some (0, b, toSize (count + add))
  else some ((virReallocN env block size (toSize (count + add))).1, block, count)

/-- `virShrinkN(ptrptr, size, countptr, toremove)`: the block and `*countptr`. -/
def virShrinkN (env : AllocEnv) (block : List Nat) (size count toremove : Nat) :
    List Nat × Nat :=
  if toremove < count then
    ((virReallocN env block size (subSize count toremove)).2, subSize count toremove)
  else ([], 0)

/-- What `virInsertElementsN` leaves: the block `*ptrptr`, `*countptr`, and the caller's
array `newelems` (`none` is NULL). -/
structure InsertResult where
  block : List Nat
  count : Nat
  newelems : Option (List Nat)
  deriving DecidableEq, Repr

/-- The second part of `virInsertElementsN`, once `*countptr` is `count`: the elements from
`at` on are moved up, and the new elements are copied in or set to zero. -/
def virInsertElementsMove (block : List Nat) (size at_ count add : Nat)
    (newelems : Option (List Nat)) (clearOriginal inPlace : Bool) : Outcome InsertResult :=
  match
    (if at_ < subSize count add then
      memmove block (toSize (size * toSize (at_ + add))) (toSize (size * at_))
        (toSize (size * subSize (subSize count add) at_))
     else some block) with
  | none => Outcome.undefinedBehaviour
  | some moved =>
    match newelems with
    | some elems =>
      match memcpy moved (toSize (size * at_)) elems (toSize (size * add)) with
      | none => Outcome.undefinedBehaviour
      | some b =>
        Outcome.returns 0
          { block := b, count := count,
            newelems :=
              if clearOriginal then
                some (List.replicate (toSize (size * add)) 0 ++ elems.drop (toSize (size * add)))
              else some elems }
    | none =>
      if inPlace ∨ at_ < subSize count add then
        match memset moved (toSize (size * at_)) 0 (toSize (size * add)) with
        | none => Outcome.undefinedBehaviour
        | some b => Outcome.returns 0 { block := b, count := count, newelems := none }
      else Outcome.returns 0 { block := moved, count := count, newelems := none }

/-- `virInsertElementsN(ptrptr, size, at, countptr, add, newelems, clearOriginal,
inPlace)` on the block `*ptrptr` of `size * *countptr` bytes; the arguments of type
`size_t` are numbers below `2^64`. -/
def virInsertElementsN (env : AllocEnv) (block : List Nat) (size at_ count add : Nat)
    (newelems : Option (List Nat)) (clearOriginal inPlace : Bool) : Outcome InsertResult :=
  if at_ > count then
    Outcome.returns (-1) { block := block, count := count, newelems := newelems }
  else if inPlace then
    virInsertElementsMove block size at_ (toSize (count + add)) add newelems clearOriginal
      inPlace
  else
    match virExpandN env block size count add with
    | none => Outcome.undefinedBehaviour
    | some (ret, b, c) =>
      if ret < 0 then
        Outcome.returns (-1) { block := block, count := count, newelems := newelems }
      else virInsertElementsMove b size at_ c add newelems clearOriginal inPlace

/-- `virDeleteElementsN(ptrptr, size, at, countptr, remove, inPlace)` on the block
`*ptrptr` of `size * *countptr` bytes: the block and `*countptr`. -/
def virDeleteElementsN (env : AllocEnv) (block : List Nat) (size at_ count remove : Nat)
    (inPlace : Bool) : Outcome (List Nat × Nat) :=
  if toSize (at_ + remove) > count then Outcome.returns (-1) (block, count)
  else
    match memmove block (toSize (size * at_)) (toSize (size * toSize (at_ + remove)))
        (toSize (size * subSize (subSize count remove) at_)) with
    | none => Outcome.undefinedBehaviour
    | some moved =>
      if inPlace then Outcome.returns 0 (moved, subSize count remove)
      else Outcome.returns 0 (virShrinkN env moved size count remove)

/-! ## Lock and unlock steps of one thread -/

/-- A step of a thread on a lock: `qemuDriverLock`, `qemuDriverUnlock`, and
`virDomainObjLock`, `virDomainObjUnlock` on the domain at a position of the registry. -/
inductive LockStep
  | driverLock | driverUnlock | vmLock (i : Nat) | vmUnlock (i : Nat)
  deriving DecidableEq, Repr

/-- The locks a thread holds: the driver lock, and the positions of the domains whose lock
it holds. -/
structure LocksHeld where
  driver : Bool
  vms : List Nat
  deriving DecidableEq, Repr

/-- Modelled from the spec: the lock hierarchy on the steps of one thread. The driver lock
is requested only while the thread holds neither the driver lock nor a VM lock, and a VM
lock is requested only while the thread holds no VM lock. -/
def lockOrderOk : LocksHeld → List LockStep → Bool
  | _, [] => true
  | h, LockStep.driverLock :: rest =>
    !h.driver && h.vms.isEmpty && lockOrderOk { h with driver := true } rest
  | h, LockStep.driverUnlock :: rest => lockOrderOk { h with driver := false } rest
  | h, LockStep.vmLock i :: rest =>
    h.vms.isEmpty && lockOrderOk { h with vms := i :: h.vms } rest
  | h, LockStep.vmUnlock i :: rest => lockOrderOk { h with vms := h.vms.erase i } rest

/-- A thread that holds no lock. -/
def noLocks : LocksHeld := { driver := false, vms := [] }

/-- Modelled from the spec: the steps on locks of a lookup in the registry
(`virDomainFindByID` and its siblings, of `domain_conf.c`, outside the sources): the domain
found, at position `i`, is returned with its lock held. -/
def lookupLocks (found : Option (Nat × DomainObj)) : List LockStep :=
  match found with
  | none => []
  | some (i, _) => [LockStep.vmLock i]

/-- The steps on locks of `qemudDomainSuspend(dom)`, in the order of the source; the steps
end where the monitor command does not return. -/
def qemudDomainSuspendLocks (driver : Driver) (dom : VirDomain) (stop : MonitorResult) :
    List LockStep :=
  match domainAt driver.domains (virDomainFindByID driver.domains dom.id) with
  | none => [LockStep.driverLock] ++ lookupLocks none ++ [LockStep.driverUnlock]
  | some (i, vm) =>
    [LockStep.driverLock] ++ lookupLocks (some (i, vm)) ++ [LockStep.driverUnlock] ++
      (if !virDomainIsActive vm then [LockStep.vmUnlock i]
       else if vm.state ≠ DomainState.paused then
         match stop with
         | MonitorResult.reply _ =>
           [LockStep.vmUnlock i, LockStep.driverLock, LockStep.driverUnlock]
         | MonitorResult.failed => [LockStep.vmUnlock i]
         | _ => []
       else [LockStep.vmUnlock i])

/-- The steps on locks of `qemudDomainSave(dom, path)`, in the order of the source, with
those of the call of `qemudDomainSuspend(dom)` it makes for a running domain. At `cleanup`
the domain is unlocked unless it was removed from the registry. -/
def qemudDomainSaveLocks (driver : Driver) (dom : VirDomain) (path : List Nat)
    (env : SaveEnv) : List LockStep :=
  match domainAt driver.domains (virDomainFindByID driver.domains dom.id) with
  | none => [LockStep.driverLock] ++ lookupLocks none ++ [LockStep.driverUnlock]
  | some (i, vm) =>
    [LockStep.driverLock] ++ lookupLocks (some (i, vm)) ++
      (if virDomainIsActive vm ∧ vm.state = DomainState.running then
         qemudDomainSuspendLocks driver dom env.stop
       else []) ++
      (match qemudDomainSave driver dom path env with
       | Outcome.returns ret _ =>
         (if ret ≠ 0 ∨ vm.persistent then [LockStep.vmUnlock i] else []) ++
           [LockStep.driverUnlock]
       | _ => [])

/-! ## Sample data for the hot-plug, allocation and reactor functions -/

/-- The running domain `alpha` with its two pipes watched: stdout is the descriptor 11 under
the watch 1, stderr the descriptor 12 under the watch 2. -/
def watchedDomain : DomainObj :=
  { kvmDomain 1 77 with stdout_fd := 11, stdout_watch := 1, stderr_fd := 12, stderr_watch := 2 }

/-- A driver whose registry holds `watchedDomain`. -/
def watchedDriver : Driver := { nextvmid := 2, domains := [watchedDomain], events := [] }

/-- A C library in which `realloc` succeeds, with the bound `SIZE_MAX` for
`xalloc_oversized`; memory that is not initialised holds the byte 170. -/
def allocOk : AllocEnv :=
  { oversizedLimit := 18446744073709551615, reallocOk := true, junk := fun _ => 170 }

/-- A C library in which `realloc` fails. -/
def allocFails : AllocEnv :=
  { oversizedLimit := 18446744073709551615, reallocOk := false, junk := fun _ => 170 }

/-- A virtio disk with the target `vdb` and the image `/img/b`, without a slot. -/
def diskVdb : DomainDiskDef :=
  { type := DiskType.file, device := DiskDevice.disk, bus := DiskBus.virtio,
    src := some (bytes "/img/b"), dst := bytes "vdb", slotnum := -1 }

/-- A virtio disk with the target `vda` and the image `/img/a`, in the slot 4. -/
def diskVda : DomainDiskDef :=
  { type := DiskType.file, device := DiskDevice.disk, bus := DiskBus.virtio,
    src := some (bytes "/img/a"), dst := bytes "vda", slotnum := 4 }

/-- An IDE CD-ROM with the target `hdc` and the image `/iso/a`. -/
def cdromHdc : DomainDiskDef :=
  { type := DiskType.file, device := DiskDevice.cdrom, bus := DiskBus.ide,
    src := some (bytes "/iso/a"), dst := bytes "hdc", slotnum := -1 }

/-- Results of calls with which the allocations of a hot-plug operation succeed and the
monitor answers with the text `reply`; `qsort` finds the array in order. -/
def hotplugOk (reply : String) : HotplugEnv :=
  { reallocOk := true, escapeAllocOk := true, asprintfOk := true,
    monitor := MonitorResult.reply (bytes reply ++ [0]), qsort := fun l => l }

/-- Results of calls with which the allocations of a media change succeed, the emulator has
`-drive`, the target converts to the bus 1 and the device 0, and the monitor answers with
the text `reply`. -/
def mediaOk (reply : String) : MediaEnv :=
  { emulator := bytes "/usr/bin/qemu", versionInfo := some true, index := some (1, 0),
    nameAllocOk := true, escapeAllocOk := true, asprintfOk := true,
    monitor := MonitorResult.reply (bytes reply ++ [0]) }

/-- Consecutive stores of the bytes `w` into `out` from index `j` on. -/
def writeAt (out : List Nat) (j : Nat) : List Nat → List Nat
  | [] => out
  | c :: w => writeAt (out.set j c) (j + 1) w

/-! # Theorems -/

/-! ## Proof helpers: stores into a block -/

theorem set_append_cons (pre : List Nat) (x c : Nat) (t : List Nat) :
    (pre ++ x :: t).set pre.length c = pre ++ c :: t := by
  induction pre with
  | nil => rfl
  | cons a pre ih => simp [ih]

theorem writeAt_append (w : List Nat) : ∀ (pre tail : List Nat), w.length ≤ tail.length →
    writeAt (pre ++ tail) pre.length w = pre ++ w ++ tail.drop w.length := by
  induction w with
  | nil => intro pre tail _; simp [writeAt]
  | cons c w ih =>
    intro pre tail h
    cases tail with
    | nil => simp at h
    | cons x t =>
      have h2 : w.length ≤ t.length := by simpa using h
      have e : pre.length + 1 = (pre ++ [c]).length := by simp
      have e2 : pre ++ c :: t = (pre ++ [c]) ++ t := by simp
      rw [writeAt, set_append_cons, e, e2, ih _ _ h2]
      simp

theorem cstr_append_zero (a b : List Nat) (ha : ∀ x ∈ a, x ≠ 0) : cstr (a ++ 0 :: b) = a := by
  induction a with
  | nil => simp [cstr]
  | cons x a ih =>
    have hx : x ≠ 0 := ha x (by simp)
    have : cstr (a ++ 0 :: b) = a := ih (fun y hy => ha y (by simp [hy]))
    simp [cstr, hx, this]

theorem cstr_of_nul_free (a : List Nat) (ha : ∀ x ∈ a, x ≠ 0) : cstr a = a := by
  induction a with
  | nil => rfl
  | cons x a ih =>
    have hx : x ≠ 0 := ha x (by simp)
    simp [cstr, hx, ih (fun y hy => ha y (by simp [hy]))]

/-! ## `qemudEscape`: agreement of the two loops with the specification -/

theorem specEscapeByte_ne_zero (shell : Bool) (c : Nat) (hc : c ≠ 0) :
    ∀ x ∈ specEscapeByte shell c, x ≠ 0 := by
  intro x hx
  unfold specEscapeByte at hx
  split_ifs at hx <;> simp at hx <;> omega

theorem specEscape_cons (shell : Bool) (c : Nat) (s : List Nat) :
    specEscape shell (c :: s) = specEscapeByte shell c ++ specEscape shell s := by
  simp [specEscape]

theorem specEscape_ne_zero (shell : Bool) (s : List Nat) (hs : ∀ b ∈ s, b ≠ 0) :
    ∀ x ∈ specEscape shell s, x ≠ 0 := by
  induction s with
  | nil => intro x hx; simp [specEscape] at hx
  | cons c s ih =>
    intro x hx
    rw [specEscape_cons, List.mem_append] at hx
    rcases hx with hx | hx
    · exact specEscapeByte_ne_zero shell c (hs c (by simp)) x hx
    · exact ih (fun b hb => hs b (by simp [hb])) x hx

theorem qemudEscapeLen_cons (shell : Bool) (len c : Nat) (rest : List Nat) (hc : c ≠ 0) :
    qemudEscapeLen shell len (c :: rest)
      = qemudEscapeLen shell (len + (specEscapeByte shell c).length) rest := by
  unfold specEscapeByte
  rw [qemudEscapeLen]
  cases shell <;> split_ifs <;> simp_all

theorem qemudEscapeLen_eq (shell : Bool) (s : List Nat) (hs : ∀ b ∈ s, b ≠ 0) :
    ∀ len, qemudEscapeLen shell len s = len + (specEscape shell s).length := by
  induction s with
  | nil => intro len; simp [qemudEscapeLen, specEscape]
  | cons c s ih =>
    intro len
    rw [qemudEscapeLen_cons shell len c s (hs c (by simp)),
      ih (fun b hb => hs b (by simp [hb])), specEscape_cons]
    simp; omega

theorem qemudEscapeFill_cons (shell : Bool) (out : List Nat) (j c : Nat) (rest : List Nat)
    (hc : c ≠ 0) :
    qemudEscapeFill shell out j (c :: rest)
      = qemudEscapeFill shell (writeAt out j (specEscapeByte shell c))
          (j + (specEscapeByte shell c).length) rest := by
  unfold specEscapeByte
  rw [qemudEscapeFill]
  cases shell <;> split_ifs <;> simp_all [writeAt]

theorem qemudEscapeFill_eq (shell : Bool) (s : List Nat) (hs : ∀ b ∈ s, b ≠ 0) :
    ∀ (pre tail : List Nat), (specEscape shell s).length ≤ tail.length →
      qemudEscapeFill shell (pre ++ tail) pre.length s
        = (pre ++ specEscape shell s ++ tail.drop (specEscape shell s).length,
           pre.length + (specEscape shell s).length) := by
  induction s with
  | nil => intro pre tail _; simp [qemudEscapeFill, specEscape]
  | cons c s ih =>
    intro pre tail h
    rw [specEscape_cons] at h ⊢
    have h1 : (specEscapeByte shell c).length ≤ tail.length := by
      rw [List.length_append] at h; omega
    have h2 : (specEscape shell s).length ≤ (tail.drop (specEscapeByte shell c).length).length := by
      rw [List.length_append] at h; rw [List.length_drop]; omega
    rw [qemudEscapeFill_cons shell _ _ c s (hs c (by simp)), writeAt_append _ _ _ h1]
    have e : pre.length + (specEscapeByte shell c).length
        = (pre ++ specEscapeByte shell c).length := by simp
    rw [e, ih (fun b hb => hs b (by simp [hb])) _ _ h2]
    simp only [List.append_assoc, List.drop_drop, List.length_append, Prod.mk.injEq]
    exact ⟨trivial, by omega⟩

theorem qemudEscape_eq_specEscape (s : List Nat) (shell : Bool) (hs : ∀ b ∈ s, b ≠ 0) :
    qemudEscape true s shell = some (specEscape shell s) := by
  have hfill := qemudEscapeFill_eq shell s hs []
    (List.replicate ((specEscape shell s).length + 1) 0) (by simp)
  simp only [List.nil_append, List.length_nil, Nat.zero_add] at hfill
  have hdrop : (List.replicate ((specEscape shell s).length + 1) 0).drop (specEscape shell s).length
      = [0] := by
    simp [List.drop_replicate]
  rw [hdrop] at hfill
  unfold qemudEscape VIR_ALLOC_N
  simp only [if_true, qemudEscapeLen_eq shell s hs, Nat.zero_add, hfill]
  have hset : (specEscape shell s ++ [0]).set (specEscape shell s).length 0
      = specEscape shell s ++ [0] := by
    exact set_append_cons (specEscape shell s) 0 0 []
  rw [hset, cstr_append_zero _ _ (specEscape_ne_zero shell s hs)]

theorem specEscape_length (shell : Bool) (s : List Nat) :
    (specEscape shell s).length
      = s.length + s.countP (fun c => c = 13 ∨ c = 10 ∨ c = 34 ∨ c = 92)
        + 4 * (if shell then s.countP (fun c => c = 39) else 0) := by
  induction s with
  | nil => cases shell <;> simp [specEscape]
  | cons c s ih =>
    rw [specEscape_cons, List.length_append, ih]
    unfold specEscapeByte
    cases shell <;> split_ifs <;> simp_all [List.countP_cons] <;> omega

/-- C1: for a NUL-free `in` and either flavour, `qemudEscape` returns the concatenation of
the escape sequences of the bytes of `in` in order (CR, LF, double quote and backslash
backslash-escaped, the single quote replaced by five bytes for the shell flavour and kept
otherwise, any other byte kept), and the length of the result is
`len(in) + #{CR, LF, dquote, backslash} + 4 * #{single quotes, shell flavour only}`. -/
theorem qemudEscape_spec (s : List Nat) (shell : Bool) (hs : ∀ b ∈ s, b ≠ 0) :
    qemudEscape true s shell = some (specEscape shell s) ∧
    (∀ out, qemudEscape true s shell = some out →
      out.length = s.length + s.countP (fun c => c = 13 ∨ c = 10 ∨ c = 34 ∨ c = 92)
        + 4 * (if shell then s.countP (fun c => c = 39) else 0)) := by
  refine ⟨qemudEscape_eq_specEscape s shell hs, ?_⟩
  intro out hout
  rw [qemudEscape_eq_specEscape s shell hs] at hout
  cases hout
  exact specEscape_length shell s

theorem qemudEscape_spec_witness :
    qemudEscape true [97, 39, 10, 92] true = some (specEscape true [97, 39, 10, 92]) ∧
    (∀ out, qemudEscape true [97, 39, 10, 92] true = some out →
      out.length = [97, 39, 10, 92].length
        + [97, 39, 10, 92].countP (fun c => c = 13 ∨ c = 10 ∨ c = 34 ∨ c = 92)
        + 4 * (if true then [97, 39, 10, 92].countP (fun c => c = 39) else 0)) :=
  qemudEscape_spec [97, 39, 10, 92] true (by decide)

/-! ## Round trips -/

theorem specMonitorUnescape_cons_of_ne (c : Nat) (r : List Nat) (hc : c ≠ 92) :
    specMonitorUnescape (c :: r) = c :: specMonitorUnescape r := by
  cases r with
  | nil => simp [specMonitorUnescape]
  | cons d r => simp [specMonitorUnescape, hc]

theorem specMonitorUnescape_escapeByte (c : Nat) (t : List Nat) :
    specMonitorUnescape (specEscapeByte false c ++ specEscape false t)
      = c :: specMonitorUnescape (specEscape false t) := by
  unfold specEscapeByte
  split_ifs <;> simp_all [specMonitorUnescape, specMonitorUnescape_cons_of_ne]

theorem specMonitorUnescape_specEscape (s : List Nat) :
    specMonitorUnescape (specEscape false s) = s := by
  induction s with
  | nil => simp [specEscape, specMonitorUnescape]
  | cons c s ih => rw [specEscape_cons, specMonitorUnescape_escapeByte, ih]

/-- C2: monitor-escape followed by the monitor's unescaping is the identity on NUL-free
strings, hence `qemudEscapeMonitorArg` is injective on them. -/
theorem monitor_escape_roundtrip (s t : List Nat) (hs : ∀ b ∈ s, b ≠ 0)
    (ht : ∀ b ∈ t, b ≠ 0) :
    (qemudEscapeMonitorArg true s).map specMonitorUnescape = some s ∧
    (qemudEscapeMonitorArg true s = qemudEscapeMonitorArg true t → s = t) := by
  unfold qemudEscapeMonitorArg
  rw [qemudEscape_eq_specEscape s false hs, qemudEscape_eq_specEscape t false ht]
  refine ⟨by simp [specMonitorUnescape_specEscape], ?_⟩
  intro h
  have h2 : specEscape false s = specEscape false t := by simpa using h
  rw [← specMonitorUnescape_specEscape s, ← specMonitorUnescape_specEscape t, h2]

theorem monitor_escape_roundtrip_witness :
    (qemudEscapeMonitorArg true [34, 13, 92, 114]).map specMonitorUnescape
      = some [34, 13, 92, 114] ∧
    (qemudEscapeMonitorArg true [34, 13, 92, 114] = qemudEscapeMonitorArg true [34, 13, 92, 114]
      → [34, 13, 92, 114] = [34, 13, 92, 114]) :=
  monitor_escape_roundtrip [34, 13, 92, 114] [34, 13, 92, 114] (by decide) (by decide)

theorem specMonitorUnescape_shellEscapeByte (c : Nat) (x : List Nat) :
    specMonitorUnescape (specEscapeByte true c ++ x)
      = (if c = 39 then [39, 92, 39, 39] else [c]) ++ specMonitorUnescape x := by
  unfold specEscapeByte
  split_ifs <;> simp_all [specMonitorUnescape, specMonitorUnescape_cons_of_ne]

theorem shellWord_unquoted_quote (acc y : List Nat) :
    shellWord false acc (39 :: y) = shellWord true acc y := by
  cases y with
  | nil => simp [shellWord]
  | cons d r => simp [shellWord]

theorem shellWord_quoted_byte (c : Nat) (acc y : List Nat) :
    shellWord true acc ((if c = 39 then [39, 92, 39, 39] else [c]) ++ y)
      = shellWord true (acc ++ [c]) y := by
  split_ifs with h
  · subst h
    simp [shellWord, shellWord_unquoted_quote]
  · simp [shellWord, h]

theorem shellWord_quoted_escaped (s : List Nat) : ∀ (acc r : List Nat),
    shellWord true acc (specMonitorUnescape (specEscape true s) ++ r)
      = shellWord true (acc ++ s) r := by
  induction s with
  | nil => intro acc r; simp [specEscape, specMonitorUnescape]
  | cons c s ih =>
    intro acc r
    rw [specEscape_cons, specMonitorUnescape_shellEscapeByte, List.append_assoc,
      shellWord_quoted_byte, ih]
    simp

/-- C3: shell-escape, then the monitor's unescaping, then the POSIX shell reading the word
`of='...'` of the command built by `qemudDomainSave`, gives the value `of=` followed by the
original NUL-free string, and the word ends exactly at the closing quote of the command. -/
theorem shell_escape_roundtrip (s : List Nat) (hs : ∀ b ∈ s, b ≠ 0) :
    (qemudEscapeShellArg true s).map
        (fun e => shellWord false [] (bytes "of='" ++ specMonitorUnescape e ++ saveCommandTail))
      = some (some (bytes "of=" ++ s, bytes " oflag=append conv=notrunc 2>/dev/null")) := by
  unfold qemudEscapeShellArg
  rw [qemudEscape_eq_specEscape s true hs]
  have h1 : bytes "of='" = [111, 102, 61, 39] := by decide
  have h2 : saveCommandTail = 39 :: 32 :: bytes "oflag=append conv=notrunc 2>/dev/null" := by
    decide
  have h3 : bytes " oflag=append conv=notrunc 2>/dev/null"
      = 32 :: bytes "oflag=append conv=notrunc 2>/dev/null" := by decide
  have h4 : bytes "of=" = [111, 102, 61] := by decide
  have h5 : bytes "oflag=append conv=notrunc 2>/dev/null" = 111 :: bytes "flag=append conv=notrunc 2>/dev/null" := by
    decide
  simp only [Option.map_some', h1, h3, h4]
  have step : shellWord false [] ([111, 102, 61, 39] ++ specMonitorUnescape (specEscape true s)
      ++ saveCommandTail)
      = shellWord true [111, 102, 61] (specMonitorUnescape (specEscape true s)
          ++ saveCommandTail) := by
    cases h : specMonitorUnescape (specEscape true s) ++ saveCommandTail with
    | nil => rw [h2] at h; simp at h
    | cons d r =>
      have e : [111, 102, 61, 39] ++ specMonitorUnescape (specEscape true s) ++ saveCommandTail
          = 111 :: 102 :: 61 :: 39 :: d :: r := by
        rw [List.append_assoc, h]; rfl
      rw [e]
      simp [shellWord, shellDelimiter, shellUnmodelled]
  rw [step, shellWord_quoted_escaped, h2, h5]
  simp [shellWord, shellDelimiter]

theorem shell_escape_roundtrip_witness :
    (qemudEscapeShellArg true (bytes "/tmp/it's a \"test\"")).map
        (fun e => shellWord false [] (bytes "of='" ++ specMonitorUnescape e ++ saveCommandTail))
      = some (some (bytes "of=" ++ bytes "/tmp/it's a \"test\"",
          bytes " oflag=append conv=notrunc 2>/dev/null")) :=
  shell_escape_roundtrip (bytes "/tmp/it's a \"test\"") (by decide)

/-! ## C library: first occurrences -/

theorem strstr_of_firstOccurrence (needle : List Nat) : ∀ (hay : List Nat) (i : Nat),
    FirstOccurrence needle hay i → strstr hay needle = some i := by
  intro hay
  induction hay with
  | nil =>
    intro i ⟨hi, hp, _⟩
    have hi0 : i = 0 := by simpa using hi
    subst hi0
    have hn : needle = [] := by simpa using hp
    simp [strstr, hn]
  | cons c t ih =>
    intro i ⟨hi, hp, hmin⟩
    cases i with
    | zero =>
      have hpre : needle.isPrefixOf (c :: t) = true :=
        List.isPrefixOf_iff_prefix.mpr (by simpa using hp)
      simp [strstr, hpre]
    | succ j =>
      have h0 : ¬ needle <+: (c :: t) := by simpa using hmin 0 (Nat.succ_pos j)
      have hpre : needle.isPrefixOf (c :: t) = false := by
        rw [Bool.eq_false_iff]
        intro h
        exact h0 (List.isPrefixOf_iff_prefix.mp h)
      have hj : FirstOccurrence needle t j :=
        ⟨by simpa using hi, by simpa using hp,
         fun k hk => by simpa using hmin (k + 1) (by omega)⟩
      simp [strstr, hpre, ih j hj]

theorem strchr_eq_strstr (ch : Nat) : ∀ s : List Nat, strchr s ch = strstr s [ch] := by
  intro s
  induction s with
  | nil => simp [strchr, strstr]
  | cons c t ih =>
    by_cases h : c = ch
    · subst h; simp [strchr, strstr, List.isPrefixOf]
    · have h2 : ¬ ch = c := fun e => h e.symm
      simp [strchr, strstr, List.isPrefixOf, h, h2, ih]

theorem firstOccurrence_take (needle hay : List Nat) (i m : Nat)
    (h : FirstOccurrence needle hay i) (hm : i + needle.length ≤ m) :
    FirstOccurrence needle (hay.take m) i := by
  obtain ⟨hi, ⟨r, hr⟩, hmin⟩ := h
  refine ⟨by simp; omega, ?_, ?_⟩
  · rw [List.drop_take, ← hr, List.take_append_eq_append_take]
    have : needle.take (m - i) = needle := List.take_of_length_le (by omega)
    rw [this]
    exact List.prefix_append _ _
  · intro j hj hp
    apply hmin j hj
    rw [List.drop_take] at hp
    exact hp.trans (List.take_prefix _ _)

theorem firstOccurrence_append_left (ch : Nat) (a r : List Nat) (k : Nat)
    (ha : ∀ x ∈ a, x ≠ ch) (h : FirstOccurrence [ch] r k) :
    strchr (a ++ r) ch = some (a.length + k) := by
  induction a with
  | nil =>
    simpa [strchr_eq_strstr] using strstr_of_firstOccurrence [ch] r k h
  | cons x a ih =>
    have hx : x ≠ ch := ha x (by simp)
    have := ih (fun y hy => ha y (by simp [hy]))
    simp [strchr, hx, this]
    omega

/-! ## `qemudMonitorCommand`: the two moves -/

theorem memmove_cstring (s junk : List Nat) (dst src : Nat) (hs : ∀ x ∈ s, x ≠ 0)
    (h1 : dst ≤ src) (h2 : src ≤ s.length) :
    ∃ junk2, memmove (s ++ 0 :: junk) dst src ((cstr ((s ++ 0 :: junk).drop src)).length + 1)
      = some ((s.take dst ++ s.drop src) ++ 0 :: junk2) := by
  have hd : (s ++ 0 :: junk).drop src = s.drop src ++ 0 :: junk :=
    List.drop_append_of_le_length h2
  have hc : cstr (s.drop src ++ 0 :: junk) = s.drop src :=
    cstr_append_zero _ _ (fun x hx => hs x (List.mem_of_mem_drop hx))
  rw [hd, hc]
  refine ⟨(s ++ 0 :: junk).drop (dst + ((s.drop src).length + 1)), ?_⟩
  unfold memmove
  have hb : src + ((s.drop src).length + 1) ≤ (s ++ 0 :: junk).length
      ∧ dst + ((s.drop src).length + 1) ≤ (s ++ 0 :: junk).length := by
    simp; omega
  rw [if_pos hb, hd]
  have ht : (s ++ 0 :: junk).take dst = s.take dst :=
    List.take_append_of_le_length (by omega)
  have ht2 : (s.drop src ++ 0 :: junk).take ((s.drop src).length + 1) = s.drop src ++ [0] := by
    rw [List.take_append_eq_append_take]
    simp
  rw [ht, ht2]
  simp

theorem qemudMonitorPromptFound_strip (cmd B junk0 : List Nat) (p c k : Nat)
    (hcmd : ∀ x ∈ cmd, x ≠ 0 ∧ x ≠ 10) (hB : ∀ x ∈ B, x ≠ 0)
    (hp : FirstOccurrence monitorPrompt B p)
    (hc : FirstOccurrence cmd B c) (hcp : c + cmd.length ≤ p)
    (hk : FirstOccurrence [10] (B.drop (c + cmd.length)) k) :
    ∃ junk, qemudMonitorPromptFound cmd (B ++ 0 :: junk0)
      = some (MonitorResult.reply
          ((cmd ++ (B.take (p + 1)).drop (c + cmd.length + k)) ++ 0 :: junk)) := by
  have hplen : monitorPrompt.length = 8 := by decide
  have hpB : p + 8 ≤ B.length := by
    have := hp.2.1.length_le
    rw [List.length_drop, hplen] at this
    omega
  have hSlen : (B.take (p + 1)).length = p + 1 := by simp; omega
  have hSnul : ∀ x ∈ B.take (p + 1), x ≠ 0 := fun x hx => hB x (List.mem_of_mem_take hx)
  obtain ⟨x, r, hxr⟩ : ∃ x r, B.drop (p + 1) = x :: r := by
    cases h : B.drop (p + 1) with
    | nil => have := congrArg List.length h; simp at this; omega
    | cons x r => exact ⟨x, r, rfl⟩
  have hbuf : B ++ 0 :: junk0 = B.take (p + 1) ++ x :: (r ++ 0 :: junk0) := by
    rw [← List.cons_append, ← hxr, ← List.append_assoc, List.take_append_drop]
  have hbuf1 : (B ++ 0 :: junk0).set (p + 1) 0 = B.take (p + 1) ++ 0 :: (r ++ 0 :: junk0) := by
    have key : ∀ S : List Nat, S.length = p + 1 →
        (S ++ x :: (r ++ 0 :: junk0)).set (p + 1) 0 = S ++ 0 :: (r ++ 0 :: junk0) := by
      intro S h
      rw [← h, set_append_cons]
    rw [hbuf]
    exact key _ hSlen
  have hcmdnul : ∀ x ∈ cmd, x ≠ 0 := fun x hx => (hcmd x hx).1
  -- the command in the truncated string
  have hcS : FirstOccurrence cmd (B.take (p + 1)) c :=
    firstOccurrence_take cmd B c (p + 1) hc (by omega)
  obtain ⟨junk2, hm1⟩ := memmove_cstring (B.take (p + 1)) (r ++ 0 :: junk0) 0 c hSnul
    (Nat.zero_le _) hcS.1
  -- the string after the first move
  have hS2 : (B.take (p + 1)).drop c = cmd ++ (B.take (p + 1)).drop (c + cmd.length) := by
    obtain ⟨t, ht⟩ := hcS.2.1
    have : t = ((B.take (p + 1)).drop c).drop cmd.length := by
      rw [← ht]; simp
    rw [this, List.drop_drop] at ht
    exact ht.symm
  have hS2nul : ∀ x ∈ (B.take (p + 1)).drop c, x ≠ 0 :=
    fun x hx => hSnul x (List.mem_of_mem_drop hx)
  -- the first newline after the command
  have hkp : c + cmd.length + k ≤ p := by
    by_contra hlt
    have hq := hk.2.2 (p - (c + cmd.length)) (by omega)
    apply hq
    rw [List.drop_drop]
    have e : c + cmd.length + (p - (c + cmd.length)) = p := by omega
    rw [e]
    obtain ⟨t, ht⟩ := hp.2.1
    rw [← ht]
    have hprompt : monitorPrompt = [10] ++ [40, 113, 101, 109, 117, 41, 32] := by decide
    rw [hprompt, List.append_assoc]
    exact List.prefix_append _ _
  have hkS : FirstOccurrence [10] ((B.take (p + 1)).drop (c + cmd.length)) k := by
    rw [List.drop_take]
    exact firstOccurrence_take [10] _ k _ hk (by simp; omega)
  have hnl : strchr ((B.take (p + 1)).drop c) 10 = some (cmd.length + k) := by
    rw [hS2]
    exact firstOccurrence_append_left 10 cmd _ k (fun x hx => (hcmd x hx).2) hkS
  have hS2len : cmd.length + k ≤ ((B.take (p + 1)).drop c).length := by
    have := hkS.1
    rw [hS2, List.length_append]
    omega
  obtain ⟨junk3, hm2⟩ := memmove_cstring ((B.take (p + 1)).drop c) junk2 cmd.length
    (cmd.length + k) hS2nul (Nat.le_add_right _ _) hS2len
  have htake : ((B.take (p + 1)).drop c).take cmd.length = cmd := by
    rw [hS2]; simp
  have hdrop : ((B.take (p + 1)).drop c).drop (cmd.length + k)
      = (B.take (p + 1)).drop (c + cmd.length + k) := by
    rw [List.drop_drop]
    congr 1
    omega
  rw [htake, hdrop] at hm2
  have hm1b : memmove (B.take (p + 1) ++ 0 :: (r ++ 0 :: junk0)) 0 c
      ((cstr ((B.take (p + 1) ++ 0 :: (r ++ 0 :: junk0)).drop c)).length + 1)
      = some ((B.take (p + 1)).drop c ++ 0 :: junk2) := by
    rw [hm1]; simp
  refine ⟨junk3, ?_⟩
  unfold qemudMonitorPromptFound
  have hne0 : B ++ 0 :: junk0 ≠ [] := by simp
  simp only [hne0, if_false, cstr_append_zero B junk0 hB, strstr_of_firstOccurrence _ _ _ hp,
    hbuf1, cstr_append_zero (B.take (p + 1)) (r ++ 0 :: junk0) hSnul, cstr_of_nul_free cmd hcmdnul,
    strstr_of_firstOccurrence _ _ _ hcS, hm1b,
    cstr_append_zero ((B.take (p + 1)).drop c) junk2 hS2nul, hnl, hm2]

theorem qemudMonitorLoop_cons_data (cmd buf : List Nat) (size : Nat) (d : List Nat)
    (rest : List MonRead) (hd : d.length ≠ 0) :
    qemudMonitorLoop cmd buf size (MonRead.data d :: rest)
      = qemudMonitorLoop cmd (buf.take size ++ d ++ [0]) (size + d.length) rest := by
  rw [qemudMonitorLoop, if_neg hd]

theorem qemudMonitorLoop_data (cmd : List Nat) : ∀ (chunks : List (List Nat)) (a : List Nat)
    (tail : List MonRead), (∀ d ∈ chunks, d ≠ []) →
    qemudMonitorLoop cmd (a ++ [0]) a.length (chunks.map MonRead.data ++ tail)
      = qemudMonitorLoop cmd ((a ++ chunks.flatten) ++ [0]) (a ++ chunks.flatten).length tail := by
  intro chunks
  induction chunks with
  | nil => intro a tail _; simp
  | cons d ds ih =>
    intro a tail h
    have hd : d.length ≠ 0 := by
      have := h d (by simp)
      simpa using this
    have ht : (a ++ [0]).take a.length = a := by simp
    have e : a.length + d.length = (a ++ d).length := by simp
    rw [List.map_cons, List.cons_append, qemudMonitorLoop_cons_data _ _ _ _ _ hd, ht, e,
      ih (a ++ d) tail (fun x hx => h x (by simp [hx]))]
    simp

theorem qemudMonitorLoop_first (cmd : List Nat) (chunks : List (List Nat))
    (tail : List MonRead) (h : ∀ d ∈ chunks, d ≠ []) (hne : chunks.flatten ≠ []) :
    qemudMonitorLoop cmd [] 0 (chunks.map MonRead.data ++ tail)
      = qemudMonitorLoop cmd (chunks.flatten ++ [0]) chunks.flatten.length tail := by
  cases chunks with
  | nil => simp at hne
  | cons d ds =>
    have hd : d.length ≠ 0 := by
      have := h d (by simp)
      simpa using this
    rw [List.map_cons, List.cons_append, qemudMonitorLoop_cons_data _ _ _ _ _ hd,
      List.take_nil, List.nil_append, Nat.zero_add,
      qemudMonitorLoop_data cmd ds d tail (fun x hx => h x (by simp [hx]))]
    simp

theorem cstr_ne_zero : ∀ (raw : List Nat), ∀ x ∈ cstr raw, x ≠ 0 := by
  intro raw
  induction raw with
  | nil => intro x hx; simp [cstr] at hx
  | cons c t ih =>
    intro x hx
    by_cases hc : c = 0
    · simp [cstr, hc] at hx
    · simp only [cstr, hc, if_false, List.mem_cons] at hx
      rcases hx with hx | hx
      · rw [hx]; exact hc
      · exact ih x hx

theorem cstr_split : ∀ (raw : List Nat), ∃ junk, raw ++ [0] = cstr raw ++ 0 :: junk := by
  intro raw
  induction raw with
  | nil => exact ⟨[], by simp [cstr]⟩
  | cons c t ih =>
    by_cases hc : c = 0
    · exact ⟨t ++ [0], by simp [cstr, hc]⟩
    · obtain ⟨j, hj⟩ := ih
      exact ⟨j, by simp [cstr, hc, hj]⟩

/-- C4: echo stripping in `qemudMonitorCommand`. Let the reads deliver, before the first
`EAGAIN`, chunks whose concatenation is `raw`, and let `B` be the text accumulated in the
buffer (the C string `raw` holds); let `p` be the offset of the first prompt in `B`, `c` the
offset of the first full copy of the newline-free command `cmd`, lying before the prompt,
and `k` the distance from the end of that copy to the next newline. Then the call returns 0
and the reply is `cmd` followed by the bytes of `B` from that newline up to and including
the newline that starts the prompt. For the input of scenario S3 the reply is `info cpus`,
newline, `* CPU #0: pc=0x0 thread_id=42`, newline. -/
theorem monitor_echo_stripping (cmd raw B : List Nat) (p c k : Nat) (chunks : List (List Nat))
    (pollOk : Bool) (rest : List MonRead)
    (hcmd : ∀ x ∈ cmd, x ≠ 0 ∧ x ≠ 10)
    (hchunks : ∀ d ∈ chunks, d ≠ []) (hflat : chunks.flatten = raw) (hB : cstr raw = B)
    (hp : FirstOccurrence monitorPrompt B p)
    (hc : FirstOccurrence cmd B c) (hcp : c + cmd.length ≤ p)
    (hk : FirstOccurrence [10] (B.drop (c + cmd.length)) k) :
    (qemudMonitorCommand cmd true true
        (chunks.map MonRead.data ++ MonRead.eagain pollOk :: rest)).text
      = some (cmd ++ (B.take (p + 1)).drop (c + cmd.length + k)) ∧
    (qemudMonitorCommand (bytes "info cpus") true true
        [MonRead.data s3Raw, MonRead.eagain true]).text
      = some (bytes "info cpus\n* CPU #0: pc=0x0 thread_id=42\n") := by
  refine ⟨?_, by decide⟩
  have hBnul : ∀ x ∈ B, x ≠ 0 := by
    rw [← hB]; exact cstr_ne_zero raw
  have hBne : chunks.flatten ≠ [] := by
    rw [hflat]
    intro hnil
    have := hp.2.1.length_le
    rw [← hB, hnil] at this
    simp [cstr, show monitorPrompt.length = 8 from by decide] at this
  obtain ⟨junk0, hj0⟩ := cstr_split raw
  rw [hB] at hj0
  obtain ⟨junk, hj⟩ := qemudMonitorPromptFound_strip cmd B junk0 p c k hcmd hBnul hp hc hcp hk
  have hnul : ∀ x ∈ cmd ++ (B.take (p + 1)).drop (c + cmd.length + k), x ≠ 0 := by
    intro x hx
    rcases List.mem_append.mp hx with hx | hx
    · exact (hcmd x hx).1
    · exact hBnul x (List.mem_of_mem_take (List.mem_of_mem_drop hx))
  unfold qemudMonitorCommand
  simp only [Bool.not_true, Bool.false_eq_true, if_false]
  rw [qemudMonitorLoop_first cmd chunks _ hchunks hBne, hflat, hj0]
  simp only [qemudMonitorLoop, hj, MonitorResult.text]
  rw [cstr_append_zero _ _ hnul]

theorem monitor_echo_stripping_witness :
    FirstOccurrence monitorPrompt s3Raw 84 ∧ FirstOccurrence (bytes "info cpus") s3Raw 44 ∧
    (qemudMonitorCommand (bytes "info cpus") true true
        ([s3Raw.take 40, s3Raw.drop 40].map MonRead.data ++ MonRead.eagain true :: [])).text
      = some (bytes "info cpus" ++ (s3Raw.take (84 + 1)).drop (44 + (bytes "info cpus").length + 1)) :=
  ⟨by decide, by decide,
   (monitor_echo_stripping (bytes "info cpus") s3Raw s3Raw 84 44 1
      [s3Raw.take 40, s3Raw.drop 40]
      true [] (by decide) (by decide) (by decide) (by decide) (by decide) (by decide)
      (by decide) (by decide)).1⟩

/-! ## `qemudDetectVcpuPIDs`: helpers -/

theorem strchr_append_of_not_mem (ch : Nat) (a b : List Nat) (h : ch ∉ a) :
    strchr (a ++ ch :: b) ch = some a.length := by
  induction a with
  | nil => simp [strchr]
  | cons x a ih =>
    have hx : x ≠ ch := fun e => h (by simp [e])
    have := ih (fun hm => h (by simp [hm]))
    simp [strchr, hx, this]

theorem strchr_none_of_not_mem (ch : Nat) (s : List Nat) (h : ch ∉ s) : strchr s ch = none := by
  induction s with
  | nil => simp [strchr]
  | cons x a ih =>
    have hx : x ≠ ch := fun e => h (by simp [e])
    have := ih (fun hm => h (by simp [hm]))
    simp [strchr, hx, this]

theorem charAt_append_cons (a : List Nat) (c : Nat) (b : List Nat) :
    charAt (a ++ c :: b) a.length = c := by
  induction a with
  | nil => rfl
  | cons x a ih => simpa [charAt] using ih

theorem firstOccurrence_append_right (needle a rest : List Nat)
    (h : FirstOccurrence needle (a ++ needle) a.length) :
    FirstOccurrence needle (a ++ needle ++ rest) a.length := by
  obtain ⟨_, _, hmin⟩ := h
  refine ⟨by simp, ?_, ?_⟩
  · rw [List.append_assoc, List.drop_left]
    exact List.prefix_append _ _
  · intro j hj hp
    apply hmin j hj
    have hle : j ≤ (a ++ needle).length := by simp; omega
    rw [List.drop_append_of_le_length hle] at hp
    refine List.prefix_of_prefix_length_le hp (List.prefix_append _ _) ?_
    simp
    omega

theorem isDigit_facts (c : Nat) (h : isDigit c = true) :
    c ≠ 13 ∧ c ≠ 10 ∧ c ≠ 35 ∧ c ≠ 45 ∧ c ≠ 43 ∧ c_isspace c = false := by
  simp only [isDigit, Bool.and_eq_true, decide_eq_true_eq] at h
  refine ⟨by omega, by omega, by omega, by omega, by omega, ?_⟩
  simp [c_isspace]
  omega

theorem c_isspace_not_digit (c : Nat) (h : c_isspace c = true) : isDigit c = false := by
  cases hd : isDigit c with
  | false => rfl
  | true => rw [(isDigit_facts c hd).2.2.2.2.2] at h; cases h

theorem takeWhile_append_stop (q : Nat → Bool) (ds x : List Nat) (hds : ∀ c ∈ ds, q c = true)
    (hx : ∀ c r, x = c :: r → q c = false) : (ds ++ x).takeWhile q = ds := by
  induction ds with
  | nil =>
    cases x with
    | nil => rfl
    | cons c r => simp [List.takeWhile, hx c r rfl]
  | cons d ds ih =>
    have hd : q d = true := hds d (by simp)
    simp [List.takeWhile, hd, ih (fun c hc => hds c (by simp [hc]))]

theorem virStrToLong_i_digits (ds x : List Nat) (hne : ds ≠ [])
    (hds : ∀ c ∈ ds, isDigit c = true) (hx : ∀ c r, x = c :: r → isDigit c = false)
    (hv : digitsValue ds ≤ 2147483647) :
    virStrToLong_i (ds ++ x) = some ((digitsValue ds : Int), ds.length) := by
  obtain ⟨d, dr, hd⟩ : ∃ d dr, ds = d :: dr := by
    cases ds with
    | nil => exact absurd rfl hne
    | cons d dr => exact ⟨d, dr, rfl⟩
  have hdd : isDigit d = true := hds d (by simp [hd])
  obtain ⟨_, _, _, h45, h43, hsp⟩ := isDigit_facts d hdd
  have hws : (ds ++ x).takeWhile c_isspace = [] := by
    rw [hd]; simp [List.takeWhile, hsp]
  have hhead : (ds ++ x).head? = some d := by rw [hd]; simp
  have htw : (ds ++ x).takeWhile isDigit = ds := takeWhile_append_stop isDigit ds x hds hx
  unfold virStrToLong_i
  simp only [hws, List.length_nil, List.drop_zero, hhead, Option.some.injEq, h45, h43, or_self,
    if_false, Nat.add_zero, htw, hne, decide_False, Bool.false_eq_true, Nat.zero_add]
  have h1 : ¬ ((digitsValue ds : Int) < -2147483648 ∨ (2147483647 : Int) < (digitsValue ds : Int)) := by
    omega
  simp only [h1, if_false]

theorem threadIdKey_eq : threadIdKey = [116, 104, 114, 101, 97, 100, 95, 105, 100, 61] := by
  decide

theorem startsWithSpace_cons (x : List Nat) (h : startsWithSpace x) :
    ∃ c r, x = c :: r ∧ c_isspace c = true := by
  cases x with
  | nil => simp [startsWithSpace, charAt, c_isspace] at h
  | cons c r => exact ⟨c, r, rfl, by simpa [startsWithSpace, charAt] using h⟩

theorem startsWithSpace_append (a b : List Nat) (h : startsWithSpace a) :
    startsWithSpace (a ++ b) := by
  obtain ⟨c, r, ha, hc⟩ := startsWithSpace_cons a h
  rw [ha]
  simpa [startsWithSpace, charAt] using hc

theorem startsWithSpace_not_digit (x : List Nat) (h : startsWithSpace x) :
    ∀ c r, x = c :: r → isDigit c = false := by
  obtain ⟨c0, r0, hx, hc⟩ := startsWithSpace_cons x h
  intro c r hcr
  rw [hx] at hcr
  cases hcr
  exact c_isspace_not_digit _ hc

theorem startsWithSpace_charAt (a x : List Nat) (h : startsWithSpace x) :
    c_isspace (charAt (a ++ x) a.length) = true := by
  obtain ⟨c0, r0, hx, hc⟩ := startsWithSpace_cons x h
  rw [hx, charAt_append_cons]
  exact hc

/-- One iteration of the loop on a well-formed data line. -/
theorem qemudDetectVcpuLoop_line (n : Int) (hn : n ≤ 2147483647) (fuel : Nat) (l : VcpuLine)
    (next : List Nat) (i : Nat) (pids : List Int) (hok : l.ok i)
    (hsp : startsWithSpace (l.post ++ next)) (hin : (i : Int) ≤ n) (hlen : i < pids.length) :
    qemudDetectVcpuLoop n (fuel + 1) (l.text next) ((i : Int) - 1) pids
      = match (strchr (threadIdKey ++ (l.tid ++ (l.post ++ next))) 13).orElse
            (fun _ => strchr (threadIdKey ++ (l.tid ++ (l.post ++ next))) 10) with
        | none => VcpuParse.done i (pids.set i (digitsValue l.tid))
        | some r =>
          qemudDetectVcpuLoop n fuel ((threadIdKey ++ (l.tid ++ (l.post ++ next))).drop r) i
            (pids.set i (digitsValue l.tid)) := by
  obtain ⟨hpre, hnum, hnumd, hnumv, hkey, htid, htidd, htidv⟩ := hok
  -- the '#'
  have htext1 : l.text next
      = l.pre ++ 35 :: (l.num ++ 58 :: (l.mid ++ (threadIdKey ++ (l.tid ++ (l.post ++ next))))) := by
    simp [VcpuLine.text, VcpuLine.front]
  have h1 : strchr (l.text next) 35 = some l.pre.length := by
    rw [htext1]; exact strchr_append_of_not_mem 35 _ _ hpre
  have hd1 : (l.text next).drop (l.pre.length + 1)
      = l.num ++ 58 :: (l.mid ++ (threadIdKey ++ (l.tid ++ (l.post ++ next)))) := by
    rw [htext1]
    have : l.pre ++ 35 :: (l.num ++ 58 :: (l.mid ++ (threadIdKey ++ (l.tid ++ (l.post ++ next)))))
        = (l.pre ++ [35]) ++ (l.num ++ 58 :: (l.mid ++ (threadIdKey ++ (l.tid ++ (l.post ++ next))))) := by
      simp
    rw [this]
    have hl : l.pre.length + 1 = (l.pre ++ [35]).length := by simp
    rw [hl, List.drop_left]
  have hiv : digitsValue l.num ≤ 2147483647 := by
    rw [hnumv]; omega
  have h2 : virStrToLong_i (l.num ++ 58 :: (l.mid ++ (threadIdKey ++ (l.tid ++ (l.post ++ next)))))
      = some ((i : Int), l.num.length) := by
    rw [virStrToLong_i_digits l.num _ hnum hnumd (by intro c r h; cases h; decide) hiv, hnumv]
  -- the key
  have htext2 : l.text next = l.front ++ threadIdKey ++ (l.tid ++ (l.post ++ next)) := by
    simp [VcpuLine.text]
  have h3 : strstr (l.text next) threadIdKey = some l.front.length := by
    rw [htext2]
    exact strstr_of_firstOccurrence _ _ _ (firstOccurrence_append_right _ _ _ hkey)
  have hd2 : (l.text next).drop (l.front.length + threadIdKey.length)
      = l.tid ++ (l.post ++ next) := by
    rw [htext2]
    have hl : l.front.length + threadIdKey.length = (l.front ++ threadIdKey).length := by simp
    rw [hl, List.drop_left]
  have hd3 : (l.text next).drop l.front.length = threadIdKey ++ (l.tid ++ (l.post ++ next)) := by
    rw [VcpuLine.text, List.drop_left]
  have h4 : virStrToLong_i (l.tid ++ (l.post ++ next))
      = some ((digitsValue l.tid : Int), l.tid.length) :=
    virStrToLong_i_digits l.tid _ htid htidd (startsWithSpace_not_digit _ hsp) htidv
  have h5 : c_isspace (charAt (l.tid ++ (l.post ++ next)) l.tid.length) = true :=
    startsWithSpace_charAt _ _ hsp
  have h6 : ¬ ((i : Int) > n ∨ (i : Int) ≠ (i : Int) - 1 + 1) := by omega
  have h7 : ¬ ((i : Int) < 0 ∨ (pids.length : Int) ≤ (i : Int)) := by omega
  rw [qemudDetectVcpuLoop]
  simp only [h1, hd1, h2, charAt_append_cons, ne_eq, not_true_eq_false, if_false, h3, hd2, h4,
    h5, Bool.not_true, Bool.false_eq_true, h6, h7, hd3, Int.toNat_ofNat]

theorem threadIdKey_free (ch : Nat) (h : ch = 13 ∨ ch = 10 ∨ ch = 35) : ch ∉ threadIdKey := by
  rw [threadIdKey_eq]
  rcases h with h | h | h <;> subst h <;> decide

theorem digits_free (ch : Nat) (h : ch = 13 ∨ ch = 10 ∨ ch = 35) (ds : List Nat)
    (hds : ∀ c ∈ ds, isDigit c = true) : ch ∉ ds := by
  intro hm
  obtain ⟨h13, h10, h35, _⟩ := isDigit_facts ch (hds ch hm)
  rcases h with h | h | h <;> omega

theorem replyText_length (lines : List VcpuLine) (tail : List Nat) :
    lines.length ≤ (replyText lines tail).length := by
  induction lines with
  | nil => simp
  | cons l ls ih =>
    simp only [replyText, VcpuLine.text, VcpuLine.front, List.length_append, List.length_cons]
    omega

theorem set_append_replicate (done extra : List Int) (k : Nat) (t : Int) :
    (done ++ (List.replicate (k + 1) 0 ++ extra)).set done.length t
      = (done ++ [t]) ++ (List.replicate k 0 ++ extra) := by
  induction done with
  | nil => simp [List.replicate_succ]
  | cons a d ih => simpa using ih

/-- The loop on a reply made of well-formed data lines. -/
theorem qemudDetectVcpuLoop_lines (n : Int) (hn : n ≤ 2147483647) (eol : Nat) (tail : List Nat)
    (extra : List Int) :
    ∀ (lines : List VcpuLine) (i : Nat) (done : List Int) (fuel : Nat), lines ≠ [] →
      done.length = i → vcpuLinesOk eol i lines tail → ((i + lines.length : Nat) : Int) ≤ n →
      lines.length + 1 ≤ fuel →
      qemudDetectVcpuLoop n fuel (replyText lines tail) ((i : Int) - 1)
          (done ++ (List.replicate lines.length 0 ++ extra))
        = VcpuParse.done (((i + lines.length : Nat) : Int) - 1)
            (done ++ (lines.map (fun l => (digitsValue l.tid : Int)) ++ extra)) := by
  intro lines
  induction lines with
  | nil => intro i done fuel h; exact absurd rfl h
  | cons l ls ih =>
    intro i done fuel _ hdone hok hle hfuel
    obtain ⟨f, hf⟩ : ∃ f, fuel = f + 1 := ⟨fuel - 1, by simp at hfuel; omega⟩
    subst hf
    have hset : (done ++ (List.replicate (l :: ls).length 0 ++ extra)).set i
          (digitsValue l.tid : Int)
        = (done ++ [(digitsValue l.tid : Int)]) ++ (List.replicate ls.length 0 ++ extra) := by
      rw [← hdone]; exact set_append_replicate done extra ls.length _
    have hlen : i < (done ++ (List.replicate (l :: ls).length 0 ++ extra)).length := by
      simp; omega
    have hin : (i : Int) ≤ n := by
      simp at hle; omega
    cases ls with
    | nil =>
      obtain ⟨hl, hsp, hfree⟩ := hok
      have hseg : 35 ∉ threadIdKey ++ (l.tid ++ (l.post ++ tail)) := by
        intro hm
        rcases List.mem_append.mp hm with hm | hm
        · exact threadIdKey_free 35 (by simp) hm
        · rcases List.mem_append.mp hm with hm | hm
          · exact digits_free 35 (by simp) l.tid hl.2.2.2.2.2.2.1 hm
          · exact hfree hm
      simp only [replyText]
      rw [qemudDetectVcpuLoop_line n hn f l tail i _ hl hsp hin hlen]
      simp only [List.length_cons, List.length_nil, Nat.zero_add] at hset ⊢
      rw [hset]
      cases hnext : (strchr (threadIdKey ++ (l.tid ++ (l.post ++ tail))) 13).orElse
          (fun _ => strchr (threadIdKey ++ (l.tid ++ (l.post ++ tail))) 10) with
      | none => simp
      | some r =>
        obtain ⟨f2, hf2⟩ : ∃ f2, f = f2 + 1 := ⟨f - 1, by simp at hfuel; omega⟩
        subst hf2
        have hnone : strchr ((threadIdKey ++ (l.tid ++ (l.post ++ tail))).drop r) 35 = none :=
          strchr_none_of_not_mem 35 _ (fun hm => hseg (List.mem_of_mem_drop hm))
        simp only []
        rw [qemudDetectVcpuLoop]
        simp [hnone]
    | cons l2 ls2 =>
      obtain ⟨hl, hsp, h13, h10, hhead, hmode, hrest⟩ := hok
      obtain ⟨pr, hpr⟩ : ∃ pr, l2.pre = eol :: pr := by
        cases hp : l2.pre with
        | nil => rw [hp] at hhead; simp at hhead
        | cons c pr => rw [hp] at hhead; simp at hhead; exact ⟨pr, by rw [hhead]⟩
      have hnexteq : replyText (l2 :: ls2) tail
          = eol :: (pr ++ 35 :: (l2.num ++ 58 :: l2.mid)
              ++ (threadIdKey ++ (l2.tid ++ (l2.post ++ replyText ls2 tail)))) := by
        simp [replyText, VcpuLine.text, VcpuLine.front, hpr]
      have hsp2 : startsWithSpace (l.post ++ replyText (l2 :: ls2) tail) := by
        have := startsWithSpace_append (l.post ++ l2.pre)
          (35 :: (l2.num ++ 58 :: l2.mid)
              ++ (threadIdKey ++ (l2.tid ++ (l2.post ++ replyText ls2 tail)))) hsp
        simpa [replyText, VcpuLine.text, VcpuLine.front] using this
      have hsegfree : ∀ ch, ch = 13 ∨ ch = 10 → ch ∉ threadIdKey ++ (l.tid ++ l.post) := by
        intro ch hch hm
        have hch3 : ch = 13 ∨ ch = 10 ∨ ch = 35 := by omega
        rcases List.mem_append.mp hm with hm | hm
        · exact threadIdKey_free ch hch3 hm
        · rcases List.mem_append.mp hm with hm | hm
          · exact digits_free ch hch3 l.tid hl.2.2.2.2.2.2.1 hm
          · rcases hch with hch | hch
            · subst hch; exact h13 hm
            · subst hch; exact h10 hm
      have hassoc : threadIdKey ++ (l.tid ++ (l.post ++ replyText (l2 :: ls2) tail))
          = (threadIdKey ++ (l.tid ++ l.post)) ++ replyText (l2 :: ls2) tail := by simp
      have hnext : (strchr (threadIdKey ++ (l.tid ++ (l.post ++ replyText (l2 :: ls2) tail))) 13).orElse
          (fun _ => strchr (threadIdKey ++ (l.tid ++ (l.post ++ replyText (l2 :: ls2) tail))) 10)
          = some (threadIdKey ++ (l.tid ++ l.post)).length := by
        rw [hassoc]
        rcases hmode with hm | ⟨hm, hcr⟩
        · subst hm
          rw [hnexteq, strchr_append_of_not_mem 13 _ _ (hsegfree 13 (by simp))]
          rfl
        · subst hm
          have hno : strchr ((threadIdKey ++ (l.tid ++ l.post)) ++ replyText (l2 :: ls2) tail) 13
              = none := by
            apply strchr_none_of_not_mem
            intro hmem
            rcases List.mem_append.mp hmem with hmem | hmem
            · exact hsegfree 13 (by simp) hmem
            · exact hcr hmem
          rw [hno]
          rw [hnexteq, strchr_append_of_not_mem 10 _ _ (hsegfree 10 (by simp))]
          rfl
      have hstep := qemudDetectVcpuLoop_line n hn f l (replyText (l2 :: ls2) tail) i
        (done ++ (List.replicate (l :: l2 :: ls2).length 0 ++ extra)) hl hsp2 hin hlen
      rw [hnext] at hstep
      simp only [] at hstep
      rw [hassoc, List.drop_left] at hstep
      have hrw : replyText (l :: l2 :: ls2) tail = l.text (replyText (l2 :: ls2) tail) := rfl
      rw [hrw, hstep, hset]
      have hih := ih (i + 1) (done ++ [(digitsValue l.tid : Int)]) f (by simp)
        (by simp [hdone]) hrest (by simp at hle ⊢; omega) (by simp at hfuel ⊢; omega)
      have hcast : ((i + 1 : Nat) : Int) - 1 = (i : Int) := by omega
      rw [hcast] at hih
      rw [hih]
      simp
      omega

set_option maxRecDepth 8000 in
theorem s3_vcpupids :
    (qemudDetectVcpuPIDs (kvmDomain 1 77) true
        (qemudMonitorCommand (bytes "info cpus") true true
          [MonRead.data s3Raw, MonRead.eagain true])).final.map
        (fun v => (v.nvcpupids, v.vcpupids)) = some (1, some [42]) := by
  decide

/-- C5 (as amended): for a KVM domain with `n >= 1` vCPUs (`n` an `int`) and a reply made of
`n` data lines `pre # i : mid thread_id= Ti post` for `i = 0, ..., n-1`, where `pre` has
no `#`, the `thread_id=` of the line is the first one after the end of the previous line,
`Ti` is a decimal number that fits in `int` and is followed by white space, no `#` follows
the last thread id, and the line ends are uniform (every data line but the last ended by
CR, or every one ended by LF in a text that has no CR after it), `qemudDetectVcpuPIDs`
returns 0 with `nvcpupids = n` and `vcpupids = [T0, ..., T(n-1)]`. For a domain that is not
KVM it returns 0 with `nvcpupids = 1` and `vcpupids = [pid]` whatever the monitor would
answer. For the reply of scenario S3 and one vCPU, `vcpupids = [42]`. -/
theorem detect_vcpu_pids_parse (vm : DomainObj) (lines : List VcpuLine) (tail buf : List Nat)
    (eol : Nat) (hkvm : vm.def_.virtType = VirtType.kvm) (hn : vm.def_.vcpus = lines.length)
    (hpos : lines ≠ []) (hint : vm.def_.vcpus ≤ 2147483647)
    (hok : vcpuLinesOk eol 0 lines tail) (hbuf : cstr buf = replyText lines tail) :
    qemudDetectVcpuPIDs vm true (MonitorResult.reply buf)
      = Outcome.returns 0
          { vm with nvcpupids := (lines.length : Int),
                    vcpupids := some (lines.map (fun l => (digitsValue l.tid : Int))) } ∧
    (∀ (vm2 : DomainObj) (r : MonitorResult), vm2.def_.virtType ≠ VirtType.kvm →
      qemudDetectVcpuPIDs vm2 true r
        = Outcome.returns 0 { vm2 with nvcpupids := 1, vcpupids := some [vm2.pid] }) ∧
    (qemudDetectVcpuPIDs (kvmDomain 1 77) true
        (qemudMonitorCommand (bytes "info cpus") true true
          [MonRead.data s3Raw, MonRead.eagain true])).final.map
        (fun v => (v.nvcpupids, v.vcpupids)) = some (1, some [42]) := by
  refine ⟨?_, ?_, s3_vcpupids⟩
  · have hloop := qemudDetectVcpuLoop_lines (lines.length : Int) (by omega) eol tail [] lines 0 []
      ((replyText lines tail).length + 1) hpos rfl hok (by simp)
      (by have := replyText_length lines tail; omega)
    simp only [Nat.cast_zero, Int.zero_sub, List.nil_append, Nat.zero_add,
      List.append_nil] at hloop
    unfold qemudDetectVcpuPIDs allocVcpupids
    simp only [hkvm, ne_eq, not_true_eq_false, if_false, if_true, hbuf, hn, hloop]
  · intro vm2 r h
    unfold qemudDetectVcpuPIDs allocVcpupids
    simp [h]

theorem detect_vcpu_pids_parse_witness :
    qemudDetectVcpuPIDs (kvmDomain 2 77) true
        (MonitorResult.reply (bytes "* CPU #0: pc=0x0 thread_id=41\r\n  CPU #1: pc=0x0 thread_id=42\r\n"))
      = Outcome.returns 0 { kvmDomain 2 77 with nvcpupids := 2, vcpupids := some [41, 42] } :=
  (detect_vcpu_pids_parse (kvmDomain 2 77)
    [mixedLine0, { mixedLine1 with pre := bytes "\r\n  CPU " }] (bytes "\r\n")
    (bytes "* CPU #0: pc=0x0 thread_id=41\r\n  CPU #1: pc=0x0 thread_id=42\r\n") 13
    (by decide) (by decide) (by decide) (by decide)
    (by simp only [vcpuLinesOk, VcpuLine.ok, startsWithSpace]; decide) (by decide)).1

/-- C5 (counterexample): the two data lines of `mixedReply` have the expected form
(vCPU numbers 0 and 1, decimal thread ids 41 and 42 followed by white space, no other `#`),
yet for a KVM domain with two vCPUs the call leaves `nvcpupids = 0` and no `vcpupids`:
the search for the end of the first line stops at the CR that ends the second. -/
theorem detect_vcpu_pids_mixed_line_ends :
    mixedReply = replyText [mixedLine0, mixedLine1] (bytes "\r\n") ∧
    mixedLine0.ok 0 ∧ mixedLine1.ok 1 ∧
    (qemudDetectVcpuPIDs (kvmDomain 2 77) true (MonitorResult.reply mixedReply)).final.map
        (fun v => (v.nvcpupids, v.vcpupids)) = some (0, none) := by
  refine ⟨by decide, ?_, ?_, by decide⟩
  · unfold VcpuLine.ok; decide
  · unfold VcpuLine.ok; decide

/-! ## `qemudDetectVcpuPIDs`: every reply -/

theorem qemudDetectVcpuPIDs_reply (vm : DomainObj) (buf : List Nat)
    (hkvm : vm.def_.virtType = VirtType.kvm) :
    qemudDetectVcpuPIDs vm true (MonitorResult.reply buf)
      = match qemudDetectVcpuLoop vm.def_.vcpus ((cstr buf).length + 1) (cstr buf) (-1)
            (List.replicate vm.def_.vcpus 0) with
        | VcpuParse.done lastVcpu pids2 =>
          if lastVcpu ≠ (vm.def_.vcpus : Int) - 1 then
            Outcome.returns 0 { vm with nvcpupids := 0, vcpupids := none }
          else Outcome.returns 0 { vm with nvcpupids := vm.def_.vcpus, vcpupids := some pids2 }
        | VcpuParse.error => Outcome.returns 0 { vm with nvcpupids := 0, vcpupids := none }
        | VcpuParse.invalidStore _ => Outcome.undefinedBehaviour
        | VcpuParse.outOfFuel => Outcome.noReturn := by
  unfold qemudDetectVcpuPIDs allocVcpupids
  simp only [hkvm, ne_eq, not_true_eq_false, if_false, if_true]

theorem charDeviceNeedle_eq : charDeviceNeedle
    = 99 :: [104, 97, 114, 32, 100, 101, 118, 105, 99, 101, 32, 114, 101, 100, 105, 114, 101,
        99, 116, 101, 100, 32, 116, 111] := by
  decide

theorem strstr_needle_after_spaces (pfx x : List Nat) (h : ∀ c ∈ pfx, c_isspace c = true) :
    strstr (pfx ++ (charDeviceNeedle ++ x)) charDeviceNeedle = some pfx.length := by
  induction pfx with
  | nil =>
    have hp : charDeviceNeedle.isPrefixOf (charDeviceNeedle ++ x) = true :=
      List.isPrefixOf_iff_prefix.mpr (List.prefix_append _ _)
    cases hx : charDeviceNeedle ++ x with
    | nil => rw [charDeviceNeedle_eq] at hx; simp at hx
    | cons c t =>
      rw [hx] at hp
      simp [strstr, hp]
  | cons w pfx ih =>
    have hw : c_isspace w = true := h w (by simp)
    have hne : w ≠ 99 := by
      intro e; rw [e] at hw; revert hw; decide
    have hp : charDeviceNeedle.isPrefixOf (w :: (pfx ++ (charDeviceNeedle ++ x))) = false := by
      rw [charDeviceNeedle_eq]
      simp [List.isPrefixOf, Ne.symm hne]
    have := ih (fun c hc => h c (by simp [hc]))
    simp [strstr, hp, this]

theorem findSpace_append (p : List Nat) (w : Nat) (rest : List Nat)
    (hp : ∀ c ∈ p, c_isspace c = false) (hw : c_isspace w = true) :
    findSpace (p ++ w :: rest) = some p.length := by
  induction p with
  | nil => simp [findSpace, hw]
  | cons c p ih =>
    have hc : c_isspace c = false := hp c (by simp)
    have := ih (fun d hd => hp d (by simp [hd]))
    simp [findSpace, hc, this]

/-- One extraction on a record that follows white space. -/
theorem qemudExtractMonitorPath_record (output : List Nat) (offset : Nat) (pfx : List Nat)
    (r : List Nat × Nat) (rest : List Nat)
    (hdrop : output.drop offset = pfx ++ (charDeviceNeedle ++ 32 :: (r.1 ++ r.2 :: rest)))
    (hpfx : ∀ c ∈ pfx, c_isspace c = true) (hr : recordOk r) :
    qemudExtractMonitorPath (fun _ => true) output offset
        = Outcome.returns 0
            (offset + pfx.length + (charDeviceNeedle.length + 1) + r.1.length, some r.1) ∧
    output.drop (offset + pfx.length + (charDeviceNeedle.length + 1) + r.1.length)
        = r.2 :: rest := by
  obtain ⟨_, hp, hw⟩ := hr
  have hlen : offset + pfx.length + (charDeviceNeedle.length + 1) + r.1.length + 1
      ≤ output.length := by
    have := congrArg List.length hdrop
    simp only [List.length_drop, List.length_append, List.length_cons] at this
    omega
  have hdev : output.drop (offset + pfx.length + (charDeviceNeedle.length + 1))
      = r.1 ++ r.2 :: rest := by
    have e : offset + pfx.length + (charDeviceNeedle.length + 1)
        = offset + (pfx ++ (charDeviceNeedle ++ [32])).length := by
      simp; omega
    rw [e, ← List.drop_drop, hdrop]
    have e2 : pfx ++ (charDeviceNeedle ++ 32 :: (r.1 ++ r.2 :: rest))
        = (pfx ++ (charDeviceNeedle ++ [32])) ++ (r.1 ++ r.2 :: rest) := by simp
    rw [e2, List.drop_left]
  constructor
  · unfold qemudExtractMonitorPath
    rw [hdrop, strstr_needle_after_spaces pfx _ hpfx]
    have hnot : ¬ output.length < offset + pfx.length + (charDeviceNeedle.length + 1) := by
      omega
    simp only [hnot, if_false, hdev, findSpace_append r.1 r.2 rest hp hw, if_true]
    simp
  · have e : offset + pfx.length + (charDeviceNeedle.length + 1) + r.1.length
        = (offset + pfx.length + (charDeviceNeedle.length + 1)) + r.1.length := rfl
    rw [e, ← List.drop_drop, hdev, List.drop_left]

/-- One `for` loop of `qemudFindCharDevicePTYs` on a text whose next records are `rs`. -/
theorem qemudExtractDevicePTYs_records (output tail : List Nat) :
    ∀ (devs : List DomainChrDef) (rs : List (List Nat × Nat)) (offset w0 : Nat),
      c_isspace w0 = true → output.drop offset = w0 :: recordsText rs tail →
      (∀ r ∈ rs, recordOk r) → countPty devs ≤ rs.length →
      ∃ offset2 w2, qemudExtractDevicePTYs (fun _ => true) output offset devs
          = Outcome.returns 0 (offset2, assignPtyPaths devs (rs.map Prod.fst)) ∧
        c_isspace w2 = true ∧
        output.drop offset2 = w2 :: recordsText (rs.drop (countPty devs)) tail := by
  intro devs
  induction devs with
  | nil =>
    intro rs offset w0 hw hdrop _ _
    exact ⟨offset, w0, by simp [qemudExtractDevicePTYs, assignPtyPaths], hw,
      by simpa [countPty] using hdrop⟩
  | cons chr rest ih =>
    intro rs offset w0 hw hdrop hrs hcount
    by_cases hpty : chr.type = ChrType.pty
    · have hc : countPty (chr :: rest) = countPty rest + 1 := by
        simp [countPty, List.countP_cons, hpty]
      cases rs with
      | nil => rw [hc] at hcount; simp at hcount
      | cons r rs2 =>
        have hd : output.drop offset
            = [w0] ++ (charDeviceNeedle ++ 32 :: (r.1 ++ r.2 :: recordsText rs2 tail)) := by
          rw [hdrop]; rfl
        obtain ⟨hex, hnext⟩ := qemudExtractMonitorPath_record output offset [w0] r
          (recordsText rs2 tail) hd (by simpa using hw) (hrs r (by simp))
        obtain ⟨offset2, w2, hloop, hw2, hdrop2⟩ := ih rs2 _ r.2 (hrs r (by simp)).2.2 hnext
          (fun x hx => hrs x (by simp [hx])) (by rw [hc] at hcount; simpa using hcount)
        refine ⟨offset2, w2, ?_, hw2, ?_⟩
        · rw [qemudExtractDevicePTYs]
          simp only [hpty, if_true, hex, Outcome.bind, ne_eq, not_true_eq_false, if_false,
            hloop]
          simp [assignPtyPaths, hpty]
        · rw [hdrop2, hc]; rfl
    · have hc : countPty (chr :: rest) = countPty rest := by
        simp [countPty, List.countP_cons, hpty]
      obtain ⟨offset2, w2, hloop, hw2, hdrop2⟩ := ih rs offset w0 hw hdrop hrs
        (by rw [hc] at hcount; exact hcount)
      refine ⟨offset2, w2, ?_, hw2, ?_⟩
      · rw [qemudExtractDevicePTYs]
        simp only [hpty, if_false, hloop, Outcome.bind]
        simp [assignPtyPaths, hpty]
      · rw [hdrop2, hc]

theorem assignPtyPaths_other (devs : List DomainChrDef) : ∀ (paths : List (List Nat)),
    (assignPtyPaths devs paths).filter (fun chr => chr.type ≠ ChrType.pty)
      = devs.filter (fun chr => chr.type ≠ ChrType.pty) := by
  induction devs with
  | nil => intro paths; simp [assignPtyPaths]
  | cons chr rest ih =>
    intro paths
    by_cases hpty : chr.type = ChrType.pty
    · have h := ih paths.tail
      simp only [ne_eq, decide_not] at h
      simp [assignPtyPaths, hpty, h]
    · have h := ih paths
      simp only [ne_eq, decide_not] at h
      simp [assignPtyPaths, hpty, h]

theorem assignPtyPaths_pty (devs : List DomainChrDef) : ∀ (paths : List (List Nat)),
    countPty devs ≤ paths.length →
    ((assignPtyPaths devs paths).filter (fun chr => chr.type = ChrType.pty)).map
        (fun chr => chr.path)
      = (paths.take (countPty devs)).map some := by
  induction devs with
  | nil => intro paths _; simp [assignPtyPaths, countPty]
  | cons chr rest ih =>
    intro paths h
    by_cases hpty : chr.type = ChrType.pty
    · have hc : countPty (chr :: rest) = countPty rest + 1 := by
        simp [countPty, List.countP_cons, hpty]
      cases paths with
      | nil => rw [hc] at h; simp at h
      | cons q qs =>
        rw [hc] at h ⊢
        have := ih qs (by simpa using h)
        simp [assignPtyPaths, hpty, this]
    · have hc : countPty (chr :: rest) = countPty rest := by
        simp [countPty, List.countP_cons, hpty]
      rw [hc] at h ⊢
      simp [assignPtyPaths, hpty, ih paths h]

theorem qemudOpenMonitor_def (env : OpenMonitorEnv) (vm : DomainObj) (monitor : List Nat) :
    (qemudOpenMonitor env vm monitor).2.def_ = vm.def_ := by
  unfold qemudOpenMonitor
  split_ifs <;> rfl

theorem qemudOpenMonitor_path (env : OpenMonitorEnv) (vm : DomainObj) (monitor : List Nat)
    (h1 : 0 ≤ env.monfd) (h2 : env.cloexecOk = true) (h3 : env.nonblockOk = true)
    (h4 : env.strdupOk = true) :
    (qemudOpenMonitor env vm monitor).2.monitorpath = some monitor := by
  unfold qemudOpenMonitor
  have : ¬ env.monfd < 0 := by omega
  simp [this, h2, h3, h4]

theorem s2_boot_paths :
    (qemudFindCharDevicePTYs openMonitorOk (fun _ => true)
        (inactiveDomain (alphaDef VirtType.kvm)) s2Output).final.map
        (fun v => (v.monitorpath, v.def_.serials.map (fun c => c.path)))
      = some (some (bytes "/dev/pts/7"), [some (bytes "/dev/pts/9")]) := by
  decide

/-- C7: when the boot output is made of `k + 1` records `char device redirected to <p_j>`,
each path free of white space and followed by a white-space character, `k` being the number
of PTY serial devices plus the number of PTY parallel devices, `qemudFindCharDevicePTYs`
hands `p_0` to `qemudOpenMonitor` (which stores it as the monitor path when its system calls
succeed), gives `p_1, ...` in order to the PTY serial devices and the remaining paths in
order to the PTY parallel devices, and leaves the devices of another type as they are. For
the output of scenario S2 and one PTY serial device the monitor path is `/dev/pts/7` and
the path of the serial device is `/dev/pts/9`. -/
theorem boot_parser_order (env : OpenMonitorEnv) (vm : DomainObj) (buf : List Nat)
    (r0 : List Nat × Nat) (rs : List (List Nat × Nat)) (tail : List Nat)
    (hbuf : cstr buf = recordsText (r0 :: rs) tail) (hr0 : recordOk r0)
    (hrs : ∀ r ∈ rs, recordOk r)
    (hk : rs.length = countPty vm.def_.serials + countPty vm.def_.parallels) :
    qemudFindCharDevicePTYs env (fun _ => true) vm buf
      = Outcome.returns
          (qemudOpenMonitor env
            (withCharDevices vm (assignPtyPaths vm.def_.serials (rs.map Prod.fst))
              (assignPtyPaths vm.def_.parallels
                ((rs.drop (countPty vm.def_.serials)).map Prod.fst))) r0.1).1
          (qemudOpenMonitor env
            (withCharDevices vm (assignPtyPaths vm.def_.serials (rs.map Prod.fst))
              (assignPtyPaths vm.def_.parallels
                ((rs.drop (countPty vm.def_.serials)).map Prod.fst))) r0.1).2 ∧
    (∀ v, (qemudFindCharDevicePTYs env (fun _ => true) vm buf).final = some v →
      v.def_.serials = assignPtyPaths vm.def_.serials (rs.map Prod.fst) ∧
      v.def_.parallels = assignPtyPaths vm.def_.parallels
        ((rs.drop (countPty vm.def_.serials)).map Prod.fst) ∧
      (0 ≤ env.monfd → env.cloexecOk = true → env.nonblockOk = true → env.strdupOk = true →
        v.monitorpath = some r0.1)) ∧
    ((assignPtyPaths vm.def_.serials (rs.map Prod.fst)).filter
        (fun chr => chr.type = ChrType.pty)).map (fun chr => chr.path)
      = ((rs.map Prod.fst).take (countPty vm.def_.serials)).map some ∧
    ((assignPtyPaths vm.def_.parallels
        ((rs.drop (countPty vm.def_.serials)).map Prod.fst)).filter
        (fun chr => chr.type = ChrType.pty)).map (fun chr => chr.path)
      = ((rs.map Prod.fst).drop (countPty vm.def_.serials)).map some ∧
    (assignPtyPaths vm.def_.serials (rs.map Prod.fst)).filter
        (fun chr => chr.type ≠ ChrType.pty)
      = vm.def_.serials.filter (fun chr => chr.type ≠ ChrType.pty) ∧
    (assignPtyPaths vm.def_.parallels
        ((rs.drop (countPty vm.def_.serials)).map Prod.fst)).filter
        (fun chr => chr.type ≠ ChrType.pty)
      = vm.def_.parallels.filter (fun chr => chr.type ≠ ChrType.pty) ∧
    (qemudFindCharDevicePTYs openMonitorOk (fun _ => true)
        (inactiveDomain (alphaDef VirtType.kvm)) s2Output).final.map
        (fun v => (v.monitorpath, v.def_.serials.map (fun c => c.path)))
      = some (some (bytes "/dev/pts/7"), [some (bytes "/dev/pts/9")]) := by
  have hd0 : (cstr buf).drop 0
      = [] ++ (charDeviceNeedle ++ 32 :: (r0.1 ++ r0.2 :: recordsText rs tail)) := by
    rw [hbuf]; rfl
  obtain ⟨hex, hnext⟩ := qemudExtractMonitorPath_record (cstr buf) 0 [] r0
    (recordsText rs tail) hd0 (by simp) hr0
  obtain ⟨off1, w1, hser, hw1, hdrop1⟩ := qemudExtractDevicePTYs_records (cstr buf) tail
    vm.def_.serials rs _ r0.2 hr0.2.2 hnext hrs (by omega)
  obtain ⟨off2, w2, hpar, _, _⟩ := qemudExtractDevicePTYs_records (cstr buf) tail
    vm.def_.parallels (rs.drop (countPty vm.def_.serials)) off1 w1 hw1 hdrop1
    (fun r hr => hrs r (List.mem_of_mem_drop hr)) (by simp; omega)
  have hrun : qemudFindCharDevicePTYs env (fun _ => true) vm buf
      = Outcome.returns
          (qemudOpenMonitor env
            (withCharDevices vm (assignPtyPaths vm.def_.serials (rs.map Prod.fst))
              (assignPtyPaths vm.def_.parallels
                ((rs.drop (countPty vm.def_.serials)).map Prod.fst))) r0.1).1
          (qemudOpenMonitor env
            (withCharDevices vm (assignPtyPaths vm.def_.serials (rs.map Prod.fst))
              (assignPtyPaths vm.def_.parallels
                ((rs.drop (countPty vm.def_.serials)).map Prod.fst))) r0.1).2 := by
    unfold qemudFindCharDevicePTYs
    simp only [hex, Outcome.bind, ne_eq, not_true_eq_false, if_false, hser, hpar,
      List.map_drop, withCharDevices]
  refine ⟨hrun, ?_, ?_, ?_, assignPtyPaths_other _ _, assignPtyPaths_other _ _, s2_boot_paths⟩
  · intro v hv
    rw [hrun] at hv
    simp only [Outcome.final, Option.some.injEq] at hv
    subst hv
    refine ⟨?_, ?_, ?_⟩
    · rw [qemudOpenMonitor_def]; rfl
    · rw [qemudOpenMonitor_def]; rfl
    · intro h1 h2 h3 h4
      exact qemudOpenMonitor_path env _ _ h1 h2 h3 h4
  · exact assignPtyPaths_pty _ _ (by simp; omega)
  · rw [assignPtyPaths_pty _ _ (by simp; omega)]
    congr 1
    rw [List.map_drop]
    apply List.take_of_length_le
    simp
    omega

theorem boot_parser_order_witness :
    (qemudFindCharDevicePTYs openMonitorOk (fun _ => true)
        (inactiveDomain (alphaDef VirtType.kvm)) s2Output).final.map
        (fun v => (v.monitorpath, v.def_.serials))
      = some (some (bytes "/dev/pts/7"),
          assignPtyPaths (inactiveDomain (alphaDef VirtType.kvm)).def_.serials
            [bytes "/dev/pts/9"]) := by
  have h := (boot_parser_order openMonitorOk (inactiveDomain (alphaDef VirtType.kvm)) s2Output
    (bytes "/dev/pts/7", 10) [(bytes "/dev/pts/9", 10)] (bytes "(qemu) ")
    (by decide) (by unfold recordOk; decide)
    (by intro r hr; simp at hr; subst hr; unfold recordOk; decide) (by decide)).1
  rw [h]
  decide

/-! ## Lifecycle -/

theorem qemudShutdownVMDaemon_active (vm : DomainObj) (h : virDomainIsActive vm = true) :
    (qemudShutdownVMDaemon vm).state = DomainState.shutoff ∧
    (qemudShutdownVMDaemon vm).def_.id = -1 := by
  unfold qemudShutdownVMDaemon
  rw [h]
  cases vm.newDef <;> simp

theorem qemudShutdownVMDaemon_inactive (vm : DomainObj) (h : virDomainIsActive vm = false) :
    qemudShutdownVMDaemon vm = vm := by
  unfold qemudShutdownVMDaemon
  rw [h]
  rfl

theorem qemudShutdownVMDaemon_idem (vm : DomainObj) :
    qemudShutdownVMDaemon (qemudShutdownVMDaemon vm) = qemudShutdownVMDaemon vm := by
  cases h : virDomainIsActive vm with
  | false => rw [qemudShutdownVMDaemon_inactive vm h, qemudShutdownVMDaemon_inactive vm h]
  | true =>
    apply qemudShutdownVMDaemon_inactive
    have := (qemudShutdownVMDaemon_active vm h).2
    simp [virDomainIsActive, this]

/-- C10: after `qemudShutdownVMDaemon` on an active domain the state is SHUTOFF, the id, the
pid, the log file, the two pipes and the monitor are -1, `nvcpupids` is 0 and `vcpupids` is
NULL; a pending `newDef` becomes the definition, with id -1, and is cleared, otherwise the
definition is kept (with id -1); the other fields are kept. On a domain that is not active
the call changes nothing, and shutting down twice is shutting down once. -/
theorem shutdown_postcondition (vm : DomainObj) (hact : virDomainIsActive vm = true) :
    (qemudShutdownVMDaemon vm).state = DomainState.shutoff ∧
    (qemudShutdownVMDaemon vm).def_.id = -1 ∧
    (qemudShutdownVMDaemon vm).pid = -1 ∧
    (qemudShutdownVMDaemon vm).logfile = -1 ∧
    (qemudShutdownVMDaemon vm).stdout_fd = -1 ∧
    (qemudShutdownVMDaemon vm).stderr_fd = -1 ∧
    (qemudShutdownVMDaemon vm).monitor = -1 ∧
    (qemudShutdownVMDaemon vm).nvcpupids = 0 ∧
    (qemudShutdownVMDaemon vm).vcpupids = none ∧
    (qemudShutdownVMDaemon vm).newDef = none ∧
    (∀ d, vm.newDef = some d → (qemudShutdownVMDaemon vm).def_ = { d with id := -1 }) ∧
    (vm.newDef = none → (qemudShutdownVMDaemon vm).def_ = { vm.def_ with id := -1 }) ∧
    ((qemudShutdownVMDaemon vm).persistent = vm.persistent ∧
      (qemudShutdownVMDaemon vm).autostart = vm.autostart ∧
      (qemudShutdownVMDaemon vm).monitorpath = vm.monitorpath ∧
      (qemudShutdownVMDaemon vm).stdin_fd = vm.stdin_fd ∧
      (qemudShutdownVMDaemon vm).stdout_watch = vm.stdout_watch ∧
      (qemudShutdownVMDaemon vm).stderr_watch = vm.stderr_watch) ∧
    (∀ vm2, virDomainIsActive vm2 = false → qemudShutdownVMDaemon vm2 = vm2) ∧
    (∀ vm2, qemudShutdownVMDaemon (qemudShutdownVMDaemon vm2) = qemudShutdownVMDaemon vm2) := by
  refine ⟨?_, ?_, ?_, ?_, ?_, ?_, ?_, ?_, ?_, ?_, ?_, ?_, ?_, qemudShutdownVMDaemon_inactive,
    qemudShutdownVMDaemon_idem⟩
  all_goals unfold qemudShutdownVMDaemon
  all_goals rw [hact]
  all_goals cases hnd : vm.newDef
  all_goals simp

theorem shutdown_postcondition_witness :
    (qemudShutdownVMDaemon
        { kvmDomain 2 77 with newDef := some (alphaDef VirtType.qemu), monitor := 13 }).state
      = DomainState.shutoff ∧
    (qemudShutdownVMDaemon
        { kvmDomain 2 77 with newDef := some (alphaDef VirtType.qemu), monitor := 13 }).def_
      = { alphaDef VirtType.qemu with id := -1 } :=
  ⟨(shutdown_postcondition
      { kvmDomain 2 77 with newDef := some (alphaDef VirtType.qemu), monitor := 13 }
      (by decide)).1,
   (shutdown_postcondition
      { kvmDomain 2 77 with newDef := some (alphaDef VirtType.qemu), monitor := 13 }
      (by decide)).2.2.2.2.2.2.2.2.2.2.1 (alphaDef VirtType.qemu) rfl⟩

theorem qemudDetectVcpuPIDs_frame (vm : DomainObj) (allocOk : Bool) (r : MonitorResult)
    (c : Int) (vm2 : DomainObj) (h : qemudDetectVcpuPIDs vm allocOk r = Outcome.returns c vm2) :
    vm2.def_ = vm.def_ ∧ vm2.state = vm.state := by
  cases allocOk with
  | false =>
    simp only [qemudDetectVcpuPIDs, allocVcpupids, Bool.false_eq_true, if_false,
      Outcome.returns.injEq] at h
    obtain ⟨_, h2⟩ := h
    subst h2
    exact ⟨rfl, rfl⟩
  | true =>
    by_cases hk : vm.def_.virtType = VirtType.kvm
    · cases r with
      | reply buf =>
        rw [qemudDetectVcpuPIDs_reply vm buf hk] at h
        cases hl : qemudDetectVcpuLoop vm.def_.vcpus ((cstr buf).length + 1) (cstr buf) (-1)
            (List.replicate vm.def_.vcpus 0) with
        | done lv p =>
          rw [hl] at h
          simp only at h
          split at h
          all_goals
            simp only [Outcome.returns.injEq] at h
            obtain ⟨_, h2⟩ := h
            subst h2
            exact ⟨rfl, rfl⟩
        | error =>
          rw [hl] at h
          simp only [Outcome.returns.injEq] at h
          obtain ⟨_, h2⟩ := h
          subst h2
          exact ⟨rfl, rfl⟩
        | invalidStore v => rw [hl] at h; simp at h
        | outOfFuel => rw [hl] at h; simp at h
      | failed =>
        simp only [qemudDetectVcpuPIDs, allocVcpupids, hk, ne_eq, not_true_eq_false, if_false,
          if_true, Outcome.returns.injEq] at h
        obtain ⟨_, h2⟩ := h
        subst h2
        exact ⟨rfl, rfl⟩
      | waiting => simp [qemudDetectVcpuPIDs, allocVcpupids, hk] at h
      | invalidAccess => simp [qemudDetectVcpuPIDs, allocVcpupids, hk] at h
    · simp only [qemudDetectVcpuPIDs, allocVcpupids, hk, ne_eq, not_false_eq_true, if_true,
        Outcome.returns.injEq] at h
      obtain ⟨_, h2⟩ := h
      subst h2
      exact ⟨rfl, rfl⟩

theorem qemudInitCpus_frame (env : StartEnv) (vm : DomainObj) (mig : Option (List Nat))
    (c : Int) (vm2 : DomainObj) (h : qemudInitCpus env vm mig = Outcome.returns c vm2) :
    vm2 = vm := by
  unfold qemudInitCpus at h
  repeat' split at h
  all_goals first
    | (simp only [Outcome.returns.injEq] at h; exact h.2.symm)
    | exact absurd h (by simp)

theorem qemudStartVMDaemonBoot_spec (env : StartEnv) (vm : DomainObj) (mig : Option (List Nat))
    (c : Int) (vm2 : DomainObj) (hact : virDomainIsActive vm = true)
    (h : qemudStartVMDaemonBoot env vm mig = Outcome.returns c vm2) :
    (c = 0 ∧ vm2.def_.id = vm.def_.id ∧ vm2.state = vm.state) ∨
    (c = -1 ∧ vm2.state = DomainState.shutoff ∧ vm2.def_.id = -1) := by
  unfold qemudStartVMDaemonBoot at h
  split at h
  · simp only [Outcome.returns.injEq] at h
    obtain ⟨hc, hv⟩ := h
    subst hv
    exact Or.inr ⟨hc.symm, qemudShutdownVMDaemon_active _ hact⟩
  · split at h
    · simp only [Outcome.returns.injEq] at h
      obtain ⟨hc, hv⟩ := h
      subst hv
      exact Or.inr ⟨hc.symm, qemudShutdownVMDaemon_active _ hact⟩
    · split at h
      · simp only [Outcome.returns.injEq] at h
        obtain ⟨hc, hv⟩ := h
        subst hv
        exact Or.inr ⟨hc.symm, qemudShutdownVMDaemon_active _
          (by simpa [virDomainIsActive] using hact)⟩
      · cases hd : qemudDetectVcpuPIDs
            { vm with stdout_watch := env.stdoutWatch, stderr_watch := env.stderrWatch,
                      monitor := env.waitForMonitor.monitor,
                      monitorpath := env.waitForMonitor.monitorpath,
                      def_ := { vm.def_ with serials := env.waitForMonitor.serials,
                                             parallels := env.waitForMonitor.parallels } }
            env.allocOk env.infoCpus with
        | undefinedBehaviour => rw [hd] at h; simp [Outcome.bind] at h
        | noReturn => rw [hd] at h; simp [Outcome.bind] at h
        | returns r1 vm1 =>
          rw [hd] at h
          obtain ⟨hdef, hstate⟩ := qemudDetectVcpuPIDs_frame _ _ _ _ _ hd
          have hact1 : virDomainIsActive vm1 = true := by
            simpa [virDomainIsActive, hdef] using hact
          simp only [Outcome.bind] at h
          split at h
          · simp only [Outcome.returns.injEq] at h
            obtain ⟨hc, hv⟩ := h
            subst hv
            exact Or.inr ⟨hc.symm, qemudShutdownVMDaemon_active _ hact1⟩
          · cases hi : qemudInitCpus env vm1 mig with
            | undefinedBehaviour => rw [hi] at h; simp at h
            | noReturn => rw [hi] at h; simp at h
            | returns r2 vm3 =>
              rw [hi] at h
              have hv3 := qemudInitCpus_frame _ _ _ _ _ hi
              subst hv3
              simp only at h
              split at h
              · simp only [Outcome.returns.injEq] at h
                obtain ⟨hc, hv⟩ := h
                subst hv
                exact Or.inr ⟨hc.symm, qemudShutdownVMDaemon_active _ hact1⟩
              · simp only [Outcome.returns.injEq] at h
                obtain ⟨hc, hv⟩ := h
                subst hv
                refine Or.inl ⟨hc.symm, ?_, ?_⟩
                · rw [hdef]
                · rw [hstate]

theorem withAutoport_frame (env : StartEnv) (vm : DomainObj) :
    (withAutoport env vm).state = vm.state ∧ (withAutoport env vm).def_.id = vm.def_.id := by
  unfold withAutoport
  split <;> simp [withVncPort]

theorem execStarted_spec (env : StartEnv) (n : Int) (vm : DomainObj) (mig : Option (List Nat)) :
    (execStarted env n vm mig).def_.id = n ∧
    (execStarted env n vm mig).state ≠ DomainState.shutoff := by
  constructor
  · rfl
  · show (if mig.isSome then DomainState.paused else DomainState.running) ≠ DomainState.shutoff
    cases mig <;> simp

theorem toInt32_of_range (v : Int) (h1 : -2147483648 ≤ v) (h2 : v < 2147483648) :
    toInt32 v = v := by
  unfold toInt32
  split <;> omega

theorem qemudStartVMDaemon_spec (env : StartEnv) (n : Int) (vm : DomainObj)
    (mig : Option (List Nat)) (c n2 : Int) (vm2 : DomainObj)
    (hvm : vm.state ≠ DomainState.shutoff → virDomainIsActive vm = true) (hn : 1 ≤ n)
    (h : qemudStartVMDaemon env n vm mig = Outcome.returns c (n2, vm2)) :
    (c = 0 ∧ n2 = toInt32 (n + 1) ∧ vm2.def_.id = n ∧ vm2.state ≠ DomainState.shutoff) ∨
    (c ≠ 0 ∧ (n2 = n ∨ n2 = toInt32 (n + 1)) ∧
      (vm2.state ≠ DomainState.shutoff →
        vm2.def_.id = vm.def_.id ∧ vm2.state = vm.state ∧ n2 = n)) := by
  obtain ⟨hst, hid⟩ := withAutoport_frame env vm
  unfold qemudStartVMDaemon at h
  by_cases hact : virDomainIsActive vm = true
  · rw [if_pos hact] at h
    cases h
    exact Or.inr ⟨by omega, Or.inl rfl, fun _ => ⟨rfl, rfl, rfl⟩⟩
  rw [if_neg hact] at h
  have hoff : vm.state = DomainState.shutoff := by
    by_contra hne
    exact hact (hvm hne)
  by_cases h1 : (wantsVncAutoport vm && decide (env.vncPort < 0)) = true
  · rw [if_pos h1] at h
    cases h
    exact Or.inr ⟨by omega, Or.inl rfl, fun _ => ⟨rfl, rfl, rfl⟩⟩
  rw [if_neg h1] at h
  by_cases h2 : (!env.makePathOk) = true
  · rw [if_pos h2] at h
    cases h
    exact Or.inr ⟨by omega, Or.inl rfl, fun hne => absurd (hst.trans hoff) hne⟩
  rw [if_neg h2] at h
  by_cases h3 : env.logfd < 0
  · rw [if_pos h3] at h
    cases h
    exact Or.inr ⟨by omega, Or.inl rfl, fun hne => absurd (hst.trans hoff) hne⟩
  rw [if_neg h3] at h
  by_cases h4 : (!env.emulatorFound) = true
  · rw [if_pos h4] at h
    cases h
    exact Or.inr ⟨by omega, Or.inl rfl, fun hne => absurd (hst.trans hoff) hne⟩
  rw [if_neg h4] at h
  by_cases h5 : (!env.statOk) = true
  · rw [if_pos h5] at h
    cases h
    exact Or.inr ⟨by omega, Or.inl rfl, fun hne => absurd (hst.trans hoff) hne⟩
  rw [if_neg h5] at h
  by_cases h6 : (!env.versionOk) = true
  · rw [if_pos h6] at h
    cases h
    exact Or.inr ⟨by omega, Or.inl rfl, fun hne => absurd (hst.trans hoff) hne⟩
  rw [if_neg h6] at h
  by_cases h7 : (!env.buildCommandLineOk) = true
  · rw [if_pos h7] at h
    cases h
    exact Or.inr ⟨by omega, Or.inr rfl, fun hne => absurd (hst.trans hoff) hne⟩
  rw [if_neg h7] at h
  by_cases h8 : env.execRet ≠ 0
  · rw [if_pos h8] at h
    cases h
    exact Or.inr ⟨h8, Or.inr rfl, fun hne => absurd (hst.trans hoff) hne⟩
  rw [if_neg h8] at h
  obtain ⟨hsid, hsst⟩ := execStarted_spec env n vm mig
  have hactive : virDomainIsActive (execStarted env n vm mig) = true := by
    simp only [virDomainIsActive, hsid, bne_iff_ne, ne_eq]
    omega
  cases hb : qemudStartVMDaemonBoot env (execStarted env n vm mig) mig with
  | undefinedBehaviour => rw [hb] at h; simp [Outcome.bind] at h
  | noReturn => rw [hb] at h; simp [Outcome.bind] at h
  | returns r v =>
    rw [hb] at h
    simp only [Outcome.bind] at h
    cases h
    rcases qemudStartVMDaemonBoot_spec _ _ _ _ _ hactive hb with
      ⟨h0, hid2, hst2⟩ | ⟨hm1, hst2, _⟩
    · exact Or.inl ⟨h0, rfl, hid2.trans hsid, by rw [hst2]; exact hsst⟩
    · exact Or.inr ⟨by omega, Or.inr rfl, fun hne => absurd hst2 hne⟩

theorem get?_set_same (l : List DomainObj) (i : Nat) (x y : DomainObj)
    (h : (l.set i x).get? i = some y) : y = x := by
  simp [List.getElem?_set] at h
  exact h.2.symm

theorem get?_set_other (l : List DomainObj) (i j : Nat) (x : DomainObj) (h : i ≠ j) :
    (l.set i x).get? j = l.get? j := by
  simp [List.getElem?_set, h]

/-- Replacing a domain by one that is SHUTOFF, or that keeps the id and was not SHUTOFF,
keeps the invariant, also when the counter grows. -/
theorem DriverInv_replace_keep (d : Driver) (i : Nat) (vm vm2 : DomainObj) (n2 : Int)
    (hinv : DriverInv d) (hget : d.domains.get? i = some vm) (hn2 : d.nextvmid ≤ n2)
    (hkeep : vm2.state ≠ DomainState.shutoff →
      vm2.def_.id = vm.def_.id ∧ vm.state ≠ DomainState.shutoff) :
    DriverInv { d with nextvmid := n2, domains := d.domains.set i vm2 } := by
  obtain ⟨h1, h2, h3⟩ := hinv
  refine ⟨by simp only; omega, ?_, ?_⟩
  · intro k vk hk hne
    simp only at hk ⊢
    by_cases hik : i = k
    · subst hik
      have := get?_set_same _ _ _ _ hk
      subst this
      obtain ⟨hid, hst⟩ := hkeep hne
      have := h2 i vm hget hst
      rw [hid]; omega
    · rw [get?_set_other _ _ _ _ hik] at hk
      have := h2 k vk hk hne
      omega
  · intro k l vk vl hkl hk hl hnk hnl
    simp only at hk hl
    by_cases hik : i = k
    · subst hik
      have := get?_set_same _ _ _ _ hk
      subst this
      rw [get?_set_other _ _ _ _ hkl] at hl
      obtain ⟨hid, hst⟩ := hkeep hnk
      rw [hid]
      exact h3 i l vm vl hkl hget hl hst hnl
    · rw [get?_set_other _ _ _ _ hik] at hk
      by_cases hil : i = l
      · subst hil
        have := get?_set_same _ _ _ _ hl
        subst this
        obtain ⟨hid, hst⟩ := hkeep hnl
        rw [hid]
        exact h3 k i vk vm hkl hk hget hnk hst
      · rw [get?_set_other _ _ _ _ hil] at hl
        exact h3 k l vk vl hkl hk hl hnk hnl

/-- Replacing a domain by one that holds the value of the counter as its id, the counter
being incremented, keeps the invariant. -/
theorem DriverInv_replace_fresh (d : Driver) (i : Nat) (vm2 : DomainObj)
    (hinv : DriverInv d) (hid : vm2.def_.id = d.nextvmid) :
    DriverInv { d with nextvmid := d.nextvmid + 1, domains := d.domains.set i vm2 } := by
  obtain ⟨h1, h2, h3⟩ := hinv
  refine ⟨by simp only; omega, ?_, ?_⟩
  · intro k vk hk hne
    simp only at hk ⊢
    by_cases hik : i = k
    · subst hik
      have := get?_set_same _ _ _ _ hk
      subst this
      omega
    · rw [get?_set_other _ _ _ _ hik] at hk
      have := h2 k vk hk hne
      omega
  · intro k l vk vl hkl hk hl hnk hnl
    simp only at hk hl
    by_cases hik : i = k
    · subst hik
      have := get?_set_same _ _ _ _ hk
      subst this
      rw [get?_set_other _ _ _ _ hkl] at hl
      have := h2 l vl hl hnl
      omega
    · rw [get?_set_other _ _ _ _ hik] at hk
      by_cases hil : i = l
      · subst hil
        have := get?_set_same _ _ _ _ hl
        subst this
        have := h2 k vk hk hnk
        omega
      · rw [get?_set_other _ _ _ _ hil] at hl
        exact h3 k l vk vl hkl hk hl hnk hnl

theorem applyOp_inv (d : Driver) (op : LifecycleOp) (r : Int) (d2 : Driver) (log : List Int)
    (hinv : DriverInv d) (hlog : LogInv d log)
    (hroom : d.nextvmid + (startCount [op] : Nat) ≤ 2147483647)
    (h : applyOp d op = Outcome.returns r d2) :
    DriverInv d2 ∧
    LogInv d2 (match assignedId op r d2 with
      | some id => id :: log
      | none => log) ∧
    d2.nextvmid ≤ d.nextvmid + (startCount [op] : Nat) := by
  cases op with
  | shutdown i =>
    simp only [applyOp] at h
    cases hget : d.domains.get? i with
    | none =>
      rw [hget] at h
      cases h
      exact ⟨hinv, by simpa [assignedId] using hlog, by simp [startCount]⟩
    | some vm =>
      rw [hget] at h
      cases h
      refine ⟨?_, ?_, by simp [startCount]⟩
      · apply DriverInv_replace_keep d i vm _ d.nextvmid hinv hget (le_refl _)
        intro hne
        cases hact : virDomainIsActive vm with
        | true => exact absurd (qemudShutdownVMDaemon_active vm hact).1 hne
        | false =>
          rw [qemudShutdownVMDaemon_inactive vm hact] at hne ⊢
          exact ⟨rfl, hne⟩
      · simpa [assignedId, LogInv] using hlog
  | start i env mig =>
    have hone : ((startCount [LifecycleOp.start i env mig] : Nat) : Int) = 1 := by
      simp [startCount]
    rw [hone] at hroom ⊢
    have hwrap : toInt32 (d.nextvmid + 1) = d.nextvmid + 1 :=
      toInt32_of_range _ (by have := hinv.1; omega) (by omega)
    simp only [applyOp] at h
    cases hget : d.domains.get? i with
    | none =>
      rw [hget] at h
      cases h
      exact ⟨hinv, by simpa [assignedId] using hlog, by omega⟩
    | some vm =>
      rw [hget] at h
      simp only at h
      cases hs : qemudStartVMDaemon env d.nextvmid vm mig with
      | undefinedBehaviour => rw [hs] at h; simp [Outcome.bind] at h
      | noReturn => rw [hs] at h; simp [Outcome.bind] at h
      | returns c res =>
        obtain ⟨n2, vm2⟩ := res
        rw [hs] at h
        simp only [Outcome.bind] at h
        cases h
        have hvm : vm.state ≠ DomainState.shutoff → virDomainIsActive vm = true := by
          intro hne
          have := hinv.2.1 i vm hget hne
          simp only [virDomainIsActive, bne_iff_ne, ne_eq]
          omega
        have hin : i < d.domains.length := by
          have := hget
          simp only [List.get?_eq_getElem?] at this
          exact (List.getElem?_eq_some_iff.mp this).1
        have hget2 : (d.domains.set i vm2).get? i = some vm2 := by
          simp [List.getElem?_set, hin]
        have hspec := qemudStartVMDaemon_spec env d.nextvmid vm mig r n2 vm2 hvm hinv.1 hs
        rw [hwrap] at hspec
        rcases hspec with ⟨h0, hn2, hid, _⟩ | ⟨hne0, hn2, hkeep⟩
        · subst hn2
          have hpos := hinv.1
          refine ⟨DriverInv_replace_fresh d i vm2 hinv hid, ?_, le_refl _⟩
          simp only [assignedId, h0, if_true, hget2, Option.map_some']
          refine ⟨?_, ?_⟩
          · apply List.Pairwise.cons
            · intro x hx
              have := hlog.2 x hx
              omega
            · exact hlog.1
          · intro x hx
            simp only
            rcases List.mem_cons.mp hx with hx | hx
            · omega
            · have := hlog.2 x hx
              omega
        · refine ⟨?_, ?_, by simp only; omega⟩
          · apply DriverInv_replace_keep d i vm vm2 n2 hinv hget (by omega)
            intro hne
            obtain ⟨a, b, _⟩ := hkeep hne
            exact ⟨a, by rw [← b]; exact hne⟩
          · simp only [assignedId, hne0, if_false]
            refine ⟨hlog.1, ?_⟩
            intro x hx
            have := hlog.2 x hx
            simp only
            omega

theorem startCount_cons (op : LifecycleOp) (ops : List LifecycleOp) :
    startCount (op :: ops) = startCount [op] + startCount ops := by
  cases op <;> simp [startCount, Nat.add_comm]

theorem runOps_inv : ∀ (ops : List LifecycleOp) (d : Driver) (log : List Int) (d2 : Driver)
    (log2 : List Int), DriverInv d → LogInv d log →
    d.nextvmid + (startCount ops : Nat) ≤ 2147483647 →
    runOps d log ops = some (d2, log2) →
    DriverInv d2 ∧ LogInv d2 log2 := by
  intro ops
  induction ops with
  | nil =>
    intro d log d2 log2 hinv hlog _ h
    simp only [runOps, Option.some.injEq, Prod.mk.injEq] at h
    obtain ⟨h1, h2⟩ := h
    subst h1; subst h2
    exact ⟨hinv, hlog⟩
  | cons op ops ih =>
    intro d log d2 log2 hinv hlog hroom h
    rw [startCount_cons, Nat.cast_add] at hroom
    rw [runOps] at h
    cases ha : applyOp d op with
    | undefinedBehaviour => rw [ha] at h; simp at h
    | noReturn => rw [ha] at h; simp at h
    | returns r after =>
      rw [ha] at h
      obtain ⟨hi2, hl2, hn2⟩ := applyOp_inv d op r after log hinv hlog (by omega) ha
      simp only at h
      cases hid : assignedId op r after with
      | none =>
        rw [hid] at h hl2
        exact ih after log d2 log2 hi2 hl2 (by omega) h
      | some id =>
        rw [hid] at h hl2
        exact ih after (id :: log) d2 log2 hi2 hl2 (by omega) h

theorem initialDriver_inv (defs : List DomainDef) :
    DriverInv (initialDriver defs) ∧ LogInv (initialDriver defs) [] := by
  have hoff : ∀ i vi, (initialDriver defs).domains.get? i = some vi →
      vi.state = DomainState.shutoff := by
    intro i vi h
    simp only [initialDriver, List.get?_eq_getElem?, List.getElem?_map,
      Option.map_eq_some'] at h
    obtain ⟨_, _, hv⟩ := h
    rw [← hv]
    rfl
  refine ⟨⟨by simp [initialDriver], ?_, ?_⟩, ?_⟩
  · intro i vi h hne
    exact absurd (hoff i vi h) hne
  · intro i j vi vj _ hi _ hne
    exact absurd (hoff i vi hi) hne
  · exact ⟨List.Pairwise.nil, by intro x hx; simp at hx⟩

/-- C8 (amended): from the driver as `qemudStartup` leaves it (counter 1, inactive
domains), after any sequence of starts, successful or not, and shutdowns that has fewer
than `2^31 - 1` starts, so that the counter of type `int` stays at most `INT_MAX`, the ids
given by the successful starts are strictly increasing in the order of the starts (hence
none is given twice), each lies between 1 and the counter, and two domains of the registry
that are not SHUTOFF never have the same id. -/
theorem vm_ids_unique_monotonic (defs : List DomainDef) (ops : List LifecycleOp) (d : Driver)
    (log : List Int) (hstarts : startCount ops < 2147483647)
    (h : runOps (initialDriver defs) [] ops = some (d, log)) :
    log.Pairwise (fun later earlier => earlier < later) ∧ log.Nodup ∧
    (∀ x ∈ log, 1 ≤ x ∧ x < d.nextvmid) ∧
    (∀ i j vi vj, i ≠ j → d.domains.get? i = some vi → d.domains.get? j = some vj →
      vi.state ≠ DomainState.shutoff → vj.state ≠ DomainState.shutoff →
      vi.def_.id ≠ vj.def_.id) ∧
    (∀ i vi, d.domains.get? i = some vi → vi.state ≠ DomainState.shutoff →
      1 ≤ vi.def_.id ∧ vi.def_.id < d.nextvmid) := by
  obtain ⟨hinv0, hlog0⟩ := initialDriver_inv defs
  have hroom : (initialDriver defs).nextvmid + (startCount ops : Nat) ≤ 2147483647 := by
    simp only [initialDriver]
    omega
  obtain ⟨⟨_, h2, h3⟩, hl1, hl2⟩ := runOps_inv ops _ _ _ _ hinv0 hlog0 hroom h
  refine ⟨hl1, ?_, hl2, h3, h2⟩
  exact hl1.imp (fun hlt => by omega)

theorem vm_ids_unique_monotonic_witness :
    startCount
        [LifecycleOp.start 0 startOk none,
         LifecycleOp.start 1 { startOk with buildCommandLineOk := false } none,
         LifecycleOp.shutdown 0,
         LifecycleOp.start 1 startOk none,
         LifecycleOp.start 0 startOk none] < 2147483647 ∧
    [4, 3, 1].Pairwise (fun (later earlier : Int) => earlier < later) ∧
    runOps (initialDriver [alphaDef VirtType.qemu, alphaDef VirtType.qemu]) []
      [LifecycleOp.start 0 startOk none,
       LifecycleOp.start 1 { startOk with buildCommandLineOk := false } none,
       LifecycleOp.shutdown 0,
       LifecycleOp.start 1 startOk none,
       LifecycleOp.start 0 startOk none]
      = some
          ({ nextvmid := 5,
             domains :=
               [(qemudStartVMDaemonBoot startOk
                  (execStarted startOk 4 (inactiveDomain (alphaDef VirtType.qemu)) none)
                  none).final.getD (inactiveDomain (alphaDef VirtType.qemu)),
                (qemudStartVMDaemonBoot startOk
                  (execStarted startOk 3 (inactiveDomain (alphaDef VirtType.qemu)) none)
                  none).final.getD (inactiveDomain (alphaDef VirtType.qemu))],
             events := [] }, [4, 3, 1]) := by
  have hrun : runOps (initialDriver [alphaDef VirtType.qemu, alphaDef VirtType.qemu]) []
      [LifecycleOp.start 0 startOk none,
       LifecycleOp.start 1 { startOk with buildCommandLineOk := false } none,
       LifecycleOp.shutdown 0,
       LifecycleOp.start 1 startOk none,
       LifecycleOp.start 0 startOk none]
      = some
          ({ nextvmid := 5,
             domains :=
               [(qemudStartVMDaemonBoot startOk
                  (execStarted startOk 4 (inactiveDomain (alphaDef VirtType.qemu)) none)
                  none).final.getD (inactiveDomain (alphaDef VirtType.qemu)),
                (qemudStartVMDaemonBoot startOk
                  (execStarted startOk 3 (inactiveDomain (alphaDef VirtType.qemu)) none)
                  none).final.getD (inactiveDomain (alphaDef VirtType.qemu))],
             events := [] }, [4, 3, 1]) := by
    decide
  exact ⟨by decide, (vm_ids_unique_monotonic _ _ _ _ (by decide) hrun).1, hrun⟩

theorem qemudStartVMDaemon_failedBuild (k : Int) :
    qemudStartVMDaemon failedBuild k (inactiveDomain (alphaDef VirtType.qemu)) none =
      Outcome.returns (-1) (toInt32 (k + 1), inactiveDomain (alphaDef VirtType.qemu)) := by
  unfold qemudStartVMDaemon
  rw [if_neg (by decide), if_neg (by decide), if_neg (by decide), if_neg (by decide),
    if_neg (by decide), if_neg (by decide), if_neg (by decide), if_pos (by decide)]
  have hvm : ({ withAutoport failedBuild (inactiveDomain (alphaDef VirtType.qemu)) with
      logfile := -1,
      def_ := { (withAutoport failedBuild (inactiveDomain (alphaDef VirtType.qemu))).def_ with
        id := -1 } } : DomainObj) = inactiveDomain (alphaDef VirtType.qemu) := by
    decide
  rw [hvm]

theorem runOps_failedBuild : ∀ (n : Nat) (k : Int) (log : List Int) (rest : List LifecycleOp),
    -2147483648 ≤ k → k + (n : Int) ≤ 2147483647 →
    runOps { nextvmid := k, domains := [inactiveDomain (alphaDef VirtType.qemu)], events := [] }
        log (List.replicate n (LifecycleOp.start 0 failedBuild none) ++ rest) =
      runOps
        { nextvmid := k + (n : Int), domains := [inactiveDomain (alphaDef VirtType.qemu)],
          events := [] } log rest := by
  intro n
  induction n with
  | zero =>
    intro k log rest _ _
    simp
  | succ m ih =>
    intro k log rest hk hroom
    have hwrap : toInt32 (k + 1) = k + 1 :=
      toInt32_of_range _ (by omega) (by push_cast at hroom; omega)
    rw [List.replicate_succ, List.cons_append, runOps]
    have happ : applyOp
        { nextvmid := k, domains := [inactiveDomain (alphaDef VirtType.qemu)], events := [] }
        (LifecycleOp.start 0 failedBuild none) =
        Outcome.returns (-1)
          { nextvmid := k + 1, domains := [inactiveDomain (alphaDef VirtType.qemu)],
            events := [] } := by
      simp only [applyOp, List.get?_cons_zero, qemudStartVMDaemon_failedBuild, Outcome.bind,
        hwrap, List.set_cons_zero]
    rw [happ]
    simp only [assignedId]
    rw [if_neg (by decide)]
    simp only
    rw [ih (k + 1) log rest (by omega) (by push_cast at hroom ⊢; omega)]
    congr 2
    push_cast
    omega

/-- C8 (fails as stated): from the counter 1, after 2147483646 starts that fail in
`qemudBuildCommandLine`, each of which takes an id, a start gives the id `INT_MAX` and the
counter wraps round; after a shutdown the next start gives the id `INT_MIN`, which is below
the id given before it. -/
theorem vm_ids_wrap_around :
    (runOps (initialDriver [alphaDef VirtType.qemu]) []
        (List.replicate 2147483646 (LifecycleOp.start 0 failedBuild none) ++
          [LifecycleOp.start 0 startOk none, LifecycleOp.shutdown 0,
            LifecycleOp.start 0 startOk none])).map
        (fun r => (r.2, r.1.nextvmid, r.1.domains.map (fun vm => vm.def_.id))) =
      some ([-2147483648, 2147483647], -2147483647, [-2147483648]) := by
  have hinit : initialDriver [alphaDef VirtType.qemu] =
      { nextvmid := 1, domains := [inactiveDomain (alphaDef VirtType.qemu)], events := [] } :=
    rfl
  rw [hinit, runOps_failedBuild 2147483646 1 [] _ (by decide) (by decide)]
  decide

/-- C9 (failing input): on a registry that holds one inactive domain `alpha`,
`qemudDomainMigrateFinish2` called with that name and `retcode = 0` leaves the domain in
state RUNNING with id -1, and queues the event resumed/migrated with id -1. -/
theorem migrate_finish_inactive_domain :
    (qemudDomainMigrateFinish2 (initialDriver [alphaDef VirtType.kvm]) (bytes "alpha") 0).domains.map
        (fun vm => (vm.state, vm.def_.id, virDomainIsActive vm))
      = [(DomainState.running, -1, false)] ∧
    (qemudDomainMigrateFinish2 (initialDriver [alphaDef VirtType.kvm]) (bytes "alpha") 0).events.map
        (fun e => (e.id, e.type, e.detail))
      = [(-1, EventType.resumed, EventDetail.migrated)] := by
  decide

/-! ## Suspend and resume -/

theorem domainAt_found (doms : List DomainObj) (found : Option Nat) (i : Nat) (vm : DomainObj)
    (hfind : found = some i) (hget : doms.get? i = some vm) :
    domainAt doms found = some (i, vm) := by
  subst hfind
  simp only [domainAt, hget]

theorem domainAt_sound (doms : List DomainObj) (found : Option Nat) (i : Nat) (vm : DomainObj)
    (h : domainAt doms found = some (i, vm)) : found = some i ∧ doms.get? i = some vm := by
  unfold domainAt at h
  cases found with
  | none => simp at h
  | some k =>
    simp only at h
    cases hk : doms.get? k with
    | none => rw [hk] at h; simp at h
    | some v =>
      rw [hk] at h
      simp only [Option.some.injEq, Prod.mk.injEq] at h
      obtain ⟨h1, h2⟩ := h
      subst h1; subst h2
      exact ⟨rfl, hk⟩

theorem findIdx?_set_same (p : DomainObj → Bool) :
    ∀ (doms : List DomainObj) (i s : Nat) (vm vm2 : DomainObj),
      doms.get? i = some vm → p vm2 = p vm →
      (doms.set i vm2).findIdx? p s = doms.findIdx? p s := by
  intro doms
  induction doms with
  | nil => intro i s vm vm2 h _; simp at h
  | cons x xs ih =>
    intro i s vm vm2 h hp
    cases i with
    | zero =>
      simp only [List.get?_cons_zero, Option.some.injEq] at h
      subst h
      simp only [List.set_cons_zero, List.findIdx?_cons, hp]
    | succ k =>
      simp only [List.get?_cons_succ] at h
      simp only [List.set_cons_succ, List.findIdx?_cons, ih k (s + 1) vm vm2 h hp]

theorem virDomainFindByID_set (doms : List DomainObj) (i : Nat) (vm vm2 : DomainObj) (id : Int)
    (hget : doms.get? i = some vm) (hid : vm2.def_.id = vm.def_.id) :
    virDomainFindByID (doms.set i vm2) id = virDomainFindByID doms id := by
  unfold virDomainFindByID
  apply findIdx?_set_same _ doms i 0 vm vm2 hget
  simp only [hid]

theorem get?_set_self (doms : List DomainObj) (i : Nat) (vm vm2 : DomainObj)
    (hget : doms.get? i = some vm) : (doms.set i vm2).get? i = some vm2 := by
  have hin : i < doms.length := by
    simp only [List.get?_eq_getElem?] at hget
    exact (List.getElem?_eq_some_iff.mp hget).1
  simp [List.getElem?_set, hin]

theorem qemudDomainSuspend_inactive (driver : Driver) (dom : VirDomain) (i : Nat)
    (vm : DomainObj) (r : MonitorResult)
    (hfind : virDomainFindByID driver.domains dom.id = some i)
    (hget : driver.domains.get? i = some vm) (hact : virDomainIsActive vm = false) :
    qemudDomainSuspend driver dom r = Outcome.returns (-1)
      { driver := driver, errors := [operationFailed "domain is not running"], sent := [] } := by
  simp only [qemudDomainSuspend, domainAt_found _ _ _ _ hfind hget, hact, Bool.not_false,
    if_true]

theorem qemudDomainSuspend_paused (driver : Driver) (dom : VirDomain) (i : Nat)
    (vm : DomainObj) (r : MonitorResult)
    (hfind : virDomainFindByID driver.domains dom.id = some i)
    (hget : driver.domains.get? i = some vm) (hact : virDomainIsActive vm = true)
    (hst : vm.state = DomainState.paused) :
    qemudDomainSuspend driver dom r = Outcome.returns 0
      { driver := driver, errors := [], sent := [] } := by
  simp [qemudDomainSuspend, domainAt_found _ _ _ _ hfind hget, hact, hst]

theorem qemudDomainSuspend_reply (driver : Driver) (dom : VirDomain) (i : Nat)
    (vm : DomainObj) (buf : List Nat)
    (hfind : virDomainFindByID driver.domains dom.id = some i)
    (hget : driver.domains.get? i = some vm) (hact : virDomainIsActive vm = true)
    (hst : vm.state ≠ DomainState.paused) :
    qemudDomainSuspend driver dom (MonitorResult.reply buf) = Outcome.returns 0
      { driver :=
          { driver with
              domains := driver.domains.set i { vm with state := DomainState.paused },
              events := driver.events ++
                [virDomainEventNewFromObj { vm with state := DomainState.paused }
                  EventType.suspended EventDetail.paused] },
        errors := [], sent := [bytes "stop"] } := by
  simp [qemudDomainSuspend, domainAt_found _ _ _ _ hfind hget, hact, hst, onMonitor]

theorem qemudDomainSuspend_failed (driver : Driver) (dom : VirDomain) (i : Nat)
    (vm : DomainObj)
    (hfind : virDomainFindByID driver.domains dom.id = some i)
    (hget : driver.domains.get? i = some vm) (hact : virDomainIsActive vm = true)
    (hst : vm.state ≠ DomainState.paused) :
    qemudDomainSuspend driver dom MonitorResult.failed = Outcome.returns (-1)
      { driver := driver, errors := [operationFailed "suspend operation failed"],
        sent := [bytes "stop"] } := by
  simp [qemudDomainSuspend, domainAt_found _ _ _ _ hfind hget, hact, hst, onMonitor]

theorem qemudDomainResume_inactive (driver : Driver) (dom : VirDomain) (i : Nat)
    (vm : DomainObj) (r : MonitorResult)
    (hfind : virDomainFindByID driver.domains dom.id = some i)
    (hget : driver.domains.get? i = some vm) (hact : virDomainIsActive vm = false) :
    qemudDomainResume driver dom r = Outcome.returns (-1)
      { driver := driver, errors := [operationFailed "domain is not running"], sent := [] } := by
  simp only [qemudDomainResume, domainAt_found _ _ _ _ hfind hget, hact, Bool.not_false,
    if_true]

theorem qemudDomainResume_not_paused (driver : Driver) (dom : VirDomain) (i : Nat)
    (vm : DomainObj) (r : MonitorResult)
    (hfind : virDomainFindByID driver.domains dom.id = some i)
    (hget : driver.domains.get? i = some vm) (hact : virDomainIsActive vm = true)
    (hst : vm.state ≠ DomainState.paused) :
    qemudDomainResume driver dom r = Outcome.returns 0
      { driver := driver, errors := [], sent := [] } := by
  simp [qemudDomainResume, domainAt_found _ _ _ _ hfind hget, hact, hst]

theorem qemudDomainResume_reply (driver : Driver) (dom : VirDomain) (i : Nat)
    (vm : DomainObj) (buf : List Nat)
    (hfind : virDomainFindByID driver.domains dom.id = some i)
    (hget : driver.domains.get? i = some vm) (hact : virDomainIsActive vm = true)
    (hst : vm.state = DomainState.paused) :
    qemudDomainResume driver dom (MonitorResult.reply buf) = Outcome.returns 0
      { driver :=
          { driver with
              domains := driver.domains.set i { vm with state := DomainState.running },
              events := driver.events ++
                [virDomainEventNewFromObj { vm with state := DomainState.running }
                  EventType.resumed EventDetail.unpaused] },
        errors := [], sent := [bytes "cont"] } := by
  simp [qemudDomainResume, domainAt_found _ _ _ _ hfind hget, hact, hst, onMonitor]

theorem qemudDomainResume_failed (driver : Driver) (dom : VirDomain) (i : Nat)
    (vm : DomainObj)
    (hfind : virDomainFindByID driver.domains dom.id = some i)
    (hget : driver.domains.get? i = some vm) (hact : virDomainIsActive vm = true)
    (hst : vm.state = DomainState.paused) :
    qemudDomainResume driver dom MonitorResult.failed = Outcome.returns (-1)
      { driver := driver, errors := [operationFailed "resume operation failed"],
        sent := [bytes "cont"] } := by
  simp [qemudDomainResume, domainAt_found _ _ _ _ hfind hget, hact, hst, onMonitor]

theorem get?_set_not_shutoff (doms : List DomainObj) (i k : Nat) (vm2 vk : DomainObj)
    (h : (doms.set i vm2).get? k = some vk) (hoff : vk.state = DomainState.shutoff)
    (hne : vm2.state ≠ DomainState.shutoff) : doms.get? k = some vk := by
  by_cases hik : i = k
  · subst hik
    have := get?_set_same _ _ _ _ h
    subst this
    exact absurd hoff hne
  · rwa [get?_set_other _ _ _ _ hik] at h

theorem qemudDomainSuspend_no_shutoff (driver : Driver) (dom : VirDomain) (r : MonitorResult)
    (c : Int) (api : Api) (h : qemudDomainSuspend driver dom r = Outcome.returns c api)
    (k : Nat) (vk : DomainObj) (hk : api.driver.domains.get? k = some vk)
    (hoff : vk.state = DomainState.shutoff) : driver.domains.get? k = some vk := by
  unfold qemudDomainSuspend at h
  cases hd : domainAt driver.domains (virDomainFindByID driver.domains dom.id) with
  | none =>
    rw [hd] at h
    cases h
    exact hk
  | some p =>
    obtain ⟨i, vm⟩ := p
    rw [hd] at h
    simp only at h
    split at h
    · cases h; exact hk
    · split at h
      · cases r with
        | reply buf =>
          simp only [onMonitor] at h
          cases h
          exact get?_set_not_shutoff _ _ _ _ _ hk hoff (by simp)
        | failed => simp only [onMonitor] at h; cases h; exact hk
        | waiting => simp [onMonitor] at h
        | invalidAccess => simp [onMonitor] at h
      · cases h; exact hk

theorem qemudDomainResume_no_shutoff (driver : Driver) (dom : VirDomain) (r : MonitorResult)
    (c : Int) (api : Api) (h : qemudDomainResume driver dom r = Outcome.returns c api)
    (k : Nat) (vk : DomainObj) (hk : api.driver.domains.get? k = some vk)
    (hoff : vk.state = DomainState.shutoff) : driver.domains.get? k = some vk := by
  unfold qemudDomainResume at h
  cases hd : domainAt driver.domains (virDomainFindByID driver.domains dom.id) with
  | none =>
    rw [hd] at h
    cases h
    exact hk
  | some p =>
    obtain ⟨i, vm⟩ := p
    rw [hd] at h
    simp only at h
    split at h
    · cases h; exact hk
    · split at h
      · cases r with
        | reply buf =>
          simp only [onMonitor] at h
          cases h
          exact get?_set_not_shutoff _ _ _ _ _ hk hoff (by simp)
        | failed => simp only [onMonitor] at h; cases h; exact hk
        | waiting => simp [onMonitor] at h
        | invalidAccess => simp [onMonitor] at h
      · cases h; exact hk

theorem qemudDomainResume_after_suspend (driver : Driver) (dom : VirDomain) (i : Nat)
    (vm : DomainObj) (b1 b2 : List Nat)
    (hfind : virDomainFindByID driver.domains dom.id = some i)
    (hget : driver.domains.get? i = some vm) (hact : virDomainIsActive vm = true)
    (hst : vm.state = DomainState.running) :
    (qemudDomainSuspend driver dom (MonitorResult.reply b1)).bind
        (fun _ api => qemudDomainResume api.driver dom (MonitorResult.reply b2))
      = Outcome.returns 0
          { driver :=
              { driver with
                  domains := driver.domains.set i vm,
                  events := driver.events ++
                    [virDomainEventNewFromObj { vm with state := DomainState.paused }
                       EventType.suspended EventDetail.paused,
                     virDomainEventNewFromObj vm EventType.resumed EventDetail.unpaused] },
            errors := [], sent := [bytes "cont"] } := by
  rw [qemudDomainSuspend_reply driver dom i vm b1 hfind hget hact (by rw [hst]; decide)]
  simp only [Outcome.bind]
  rw [qemudDomainResume_reply _ dom i { vm with state := DomainState.paused } b2
    ((virDomainFindByID_set driver.domains i vm { vm with state := DomainState.paused } dom.id
      hget rfl).trans hfind)
    (get?_set_self _ _ _ _ hget) hact rfl]
  have hvm : { vm with state := DomainState.running } = vm := by
    cases vm
    simp only at hst
    subst hst
    rfl
  simp only [List.set_set, List.append_assoc, List.singleton_append, hvm]

/-- C14: for the domain `vm` that `virDomainFindByID` returns for the handle, when it is
active: `qemudDomainSuspend` on RUNNING with an answering monitor sends `stop`, stores
PAUSED and queues the one event suspended/paused; on PAUSED it returns 0 with nothing sent,
queued or changed; `qemudDomainResume` on PAUSED sends `cont`, stores RUNNING and queues the
one event resumed/unpaused; on RUNNING it returns 0 with nothing sent, queued or changed;
when the monitor command fails both return -1 with operation-failed and the driver as it
was. On any domain that is not active both return -1 with operation-failed (`domain is not
running`) and the driver as it was. Resume after suspend gives back RUNNING (the registry
is as before, two events later). Neither operation leaves a domain SHUTOFF that was not
SHUTOFF before. -/
theorem suspend_resume_state_machine (driver : Driver) (dom : VirDomain) (i : Nat)
    (vm : DomainObj) (hfind : virDomainFindByID driver.domains dom.id = some i)
    (hget : driver.domains.get? i = some vm) (hact : virDomainIsActive vm = true) :
    (vm.state = DomainState.running → ∀ buf,
      qemudDomainSuspend driver dom (MonitorResult.reply buf) = Outcome.returns 0
        { driver :=
            { driver with
                domains := driver.domains.set i { vm with state := DomainState.paused },
                events := driver.events ++
                  [virDomainEventNewFromObj { vm with state := DomainState.paused }
                    EventType.suspended EventDetail.paused] },
          errors := [], sent := [bytes "stop"] }) ∧
    (vm.state = DomainState.paused → ∀ r,
      qemudDomainSuspend driver dom r = Outcome.returns 0
        { driver := driver, errors := [], sent := [] }) ∧
    (vm.state = DomainState.paused → ∀ buf,
      qemudDomainResume driver dom (MonitorResult.reply buf) = Outcome.returns 0
        { driver :=
            { driver with
                domains := driver.domains.set i { vm with state := DomainState.running },
                events := driver.events ++
                  [virDomainEventNewFromObj { vm with state := DomainState.running }
                    EventType.resumed EventDetail.unpaused] },
          errors := [], sent := [bytes "cont"] }) ∧
    (vm.state = DomainState.running → ∀ r,
      qemudDomainResume driver dom r = Outcome.returns 0
        { driver := driver, errors := [], sent := [] }) ∧
    (vm.state = DomainState.running →
      qemudDomainSuspend driver dom MonitorResult.failed = Outcome.returns (-1)
        { driver := driver, errors := [operationFailed "suspend operation failed"],
          sent := [bytes "stop"] }) ∧
    (vm.state = DomainState.paused →
      qemudDomainResume driver dom MonitorResult.failed = Outcome.returns (-1)
        { driver := driver, errors := [operationFailed "resume operation failed"],
          sent := [bytes "cont"] }) ∧
    (∀ (dom0 : VirDomain) (j : Nat) (vm0 : DomainObj) (r : MonitorResult),
      virDomainFindByID driver.domains dom0.id = some j → driver.domains.get? j = some vm0 →
      virDomainIsActive vm0 = false →
      qemudDomainSuspend driver dom0 r = Outcome.returns (-1)
        { driver := driver, errors := [operationFailed "domain is not running"], sent := [] } ∧
      qemudDomainResume driver dom0 r = Outcome.returns (-1)
        { driver := driver, errors := [operationFailed "domain is not running"], sent := [] }) ∧
    (vm.state = DomainState.running → ∀ b1 b2,
      (qemudDomainSuspend driver dom (MonitorResult.reply b1)).bind
          (fun _ api => qemudDomainResume api.driver dom (MonitorResult.reply b2))
        = Outcome.returns 0
            { driver :=
                { driver with
                    domains := driver.domains.set i vm,
                    events := driver.events ++
                      [virDomainEventNewFromObj { vm with state := DomainState.paused }
                         EventType.suspended EventDetail.paused,
                       virDomainEventNewFromObj vm EventType.resumed EventDetail.unpaused] },
              errors := [], sent := [bytes "cont"] }) ∧
    (∀ (dom0 : VirDomain) (r : MonitorResult) (c : Int) (api : Api) (k : Nat) (vk : DomainObj),
      (qemudDomainSuspend driver dom0 r = Outcome.returns c api ∨
        qemudDomainResume driver dom0 r = Outcome.returns c api) →
      api.driver.domains.get? k = some vk → vk.state = DomainState.shutoff →
      driver.domains.get? k = some vk) := by
  refine ⟨?_, ?_, ?_, ?_, ?_, ?_, ?_, ?_, ?_⟩
  · intro hst buf
    exact qemudDomainSuspend_reply driver dom i vm buf hfind hget hact (by rw [hst]; decide)
  · intro hst r
    exact qemudDomainSuspend_paused driver dom i vm r hfind hget hact hst
  · intro hst buf
    exact qemudDomainResume_reply driver dom i vm buf hfind hget hact hst
  · intro hst r
    exact qemudDomainResume_not_paused driver dom i vm r hfind hget hact (by rw [hst]; decide)
  · intro hst
    exact qemudDomainSuspend_failed driver dom i vm hfind hget hact (by rw [hst]; decide)
  · intro hst
    exact qemudDomainResume_failed driver dom i vm hfind hget hact hst
  · intro dom0 j vm0 r hf hg ha
    exact ⟨qemudDomainSuspend_inactive driver dom0 j vm0 r hf hg ha,
      qemudDomainResume_inactive driver dom0 j vm0 r hf hg ha⟩
  · intro hst b1 b2
    exact qemudDomainResume_after_suspend driver dom i vm b1 b2 hfind hget hact hst
  · intro dom0 r c api k vk h hk hoff
    rcases h with h | h
    · exact qemudDomainSuspend_no_shutoff driver dom0 r c api h k vk hk hoff
    · exact qemudDomainResume_no_shutoff driver dom0 r c api h k vk hk hoff

theorem suspend_resume_state_machine_witness :
    (qemudDomainSuspend runningDriver (alphaHandle 1) (MonitorResult.reply [0])).final.map
        (fun api => (api.driver.domains.map (fun vm => vm.state),
          api.driver.events.map (fun e => (e.type, e.detail)), api.sent))
      = some ([DomainState.paused], [(EventType.suspended, EventDetail.paused)],
          [bytes "stop"]) ∧
    ((qemudDomainSuspend runningDriver (alphaHandle 1) (MonitorResult.reply [0])).bind
        (fun _ api => qemudDomainResume api.driver (alphaHandle 1)
          (MonitorResult.reply [0]))).final.map
        (fun api => api.driver.domains)
      = some runningDriver.domains := by
  have h := suspend_resume_state_machine runningDriver (alphaHandle 1) 0 (kvmDomain 1 77)
    (by decide) (by decide) (by decide)
  refine ⟨?_, ?_⟩
  · rw [h.1 (by decide) [0]]
    decide
  · rw [h.2.2.2.2.2.2.2.1 (by decide) [0] [0]]
    decide

/-! ## Transient domains leave the registry -/

theorem SameIdentity.refl (vm : DomainObj) (h : vm.newDef = none) : SameIdentity vm vm :=
  ⟨rfl, rfl, rfl, h, h⟩

theorem SameIdentity.trans {a b c : DomainObj} (h1 : SameIdentity a b) (h2 : SameIdentity b c) :
    SameIdentity a c :=
  ⟨h2.1.trans h1.1, h2.2.1.trans h1.2.1, h2.2.2.1.trans h1.2.2.1, h1.2.2.2.1, h2.2.2.2.2⟩

theorem qemudShutdownVMDaemon_identity (vm : DomainObj) (h : vm.newDef = none) :
    SameIdentity vm (qemudShutdownVMDaemon vm) := by
  unfold qemudShutdownVMDaemon
  split
  · exact SameIdentity.refl vm h
  · split
    · rename_i nd heq
      rw [h] at heq
      cases heq
    · exact ⟨rfl, rfl, rfl, h, h⟩

theorem qemudDetectVcpuPIDs_writes (vm : DomainObj) (allocOk : Bool) (r : MonitorResult)
    (c : Int) (vm2 : DomainObj) (h : qemudDetectVcpuPIDs vm allocOk r = Outcome.returns c vm2) :
    ∃ n p, vm2 = { vm with nvcpupids := n, vcpupids := p } := by
  cases allocOk with
  | false =>
    simp only [qemudDetectVcpuPIDs, allocVcpupids, Bool.false_eq_true, if_false,
      Outcome.returns.injEq] at h
    exact ⟨_, _, h.2.symm⟩
  | true =>
    by_cases hk : vm.def_.virtType = VirtType.kvm
    · cases r with
      | reply buf =>
        rw [qemudDetectVcpuPIDs_reply vm buf hk] at h
        cases hl : qemudDetectVcpuLoop vm.def_.vcpus ((cstr buf).length + 1) (cstr buf) (-1)
            (List.replicate vm.def_.vcpus 0) with
        | done lv p =>
          rw [hl] at h
          simp only at h
          split at h
          all_goals
            simp only [Outcome.returns.injEq] at h
            exact ⟨_, _, h.2.symm⟩
        | error =>
          rw [hl] at h
          simp only [Outcome.returns.injEq] at h
          exact ⟨_, _, h.2.symm⟩
        | invalidStore v => rw [hl] at h; simp at h
        | outOfFuel => rw [hl] at h; simp at h
      | failed =>
        simp only [qemudDetectVcpuPIDs, allocVcpupids, hk, ne_eq, not_true_eq_false, if_false,
          if_true, Outcome.returns.injEq] at h
        exact ⟨_, _, h.2.symm⟩
      | waiting => simp [qemudDetectVcpuPIDs, allocVcpupids, hk] at h
      | invalidAccess => simp [qemudDetectVcpuPIDs, allocVcpupids, hk] at h
    · simp only [qemudDetectVcpuPIDs, allocVcpupids, hk, ne_eq, not_false_eq_true, if_true,
        Outcome.returns.injEq] at h
      exact ⟨_, _, h.2.symm⟩

theorem qemudStartVMDaemonBoot_identity (env : StartEnv) (vm : DomainObj)
    (mig : Option (List Nat)) (c : Int) (vm2 : DomainObj) (hn : vm.newDef = none)
    (h : qemudStartVMDaemonBoot env vm mig = Outcome.returns c vm2) : SameIdentity vm vm2 := by
  unfold qemudStartVMDaemonBoot at h
  split at h
  · cases h
    exact SameIdentity.trans (show SameIdentity vm
            { vm with stdout_watch := env.stdoutWatch }
          from ⟨rfl, rfl, rfl, hn, hn⟩) (qemudShutdownVMDaemon_identity _ hn)
  · split at h
    · cases h
      exact SameIdentity.trans (show SameIdentity vm
            { vm with stdout_watch := env.stdoutWatch, stderr_watch := env.stderrWatch }
          from ⟨rfl, rfl, rfl, hn, hn⟩) (qemudShutdownVMDaemon_identity _ hn)
    · split at h
      · cases h
        exact SameIdentity.trans (show SameIdentity vm
            { vm with stdout_watch := env.stdoutWatch, stderr_watch := env.stderrWatch,
                      monitor := env.waitForMonitor.monitor,
                      monitorpath := env.waitForMonitor.monitorpath,
                      def_ := { vm.def_ with serials := env.waitForMonitor.serials,
                                             parallels := env.waitForMonitor.parallels } }
          from ⟨rfl, rfl, rfl, hn, hn⟩) (qemudShutdownVMDaemon_identity _ hn)
      · cases hd : qemudDetectVcpuPIDs
            { vm with stdout_watch := env.stdoutWatch, stderr_watch := env.stderrWatch,
                      monitor := env.waitForMonitor.monitor,
                      monitorpath := env.waitForMonitor.monitorpath,
                      def_ := { vm.def_ with serials := env.waitForMonitor.serials,
                                             parallels := env.waitForMonitor.parallels } }
            env.allocOk env.infoCpus with
        | undefinedBehaviour => rw [hd] at h; simp [Outcome.bind] at h
        | noReturn => rw [hd] at h; simp [Outcome.bind] at h
        | returns r1 vm1 =>
          rw [hd] at h
          obtain ⟨n, p, hvm1⟩ := qemudDetectVcpuPIDs_writes _ _ _ _ _ hd
          have hid1 : SameIdentity vm vm1 := by
            rw [hvm1]
            exact ⟨rfl, rfl, rfl, hn, hn⟩
          simp only [Outcome.bind] at h
          split at h
          · cases h
            exact hid1.trans (qemudShutdownVMDaemon_identity _ hid1.2.2.2.2)
          · cases hi : qemudInitCpus env vm1 mig with
            | undefinedBehaviour => rw [hi] at h; simp at h
            | noReturn => rw [hi] at h; simp at h
            | returns r2 vm3 =>
              rw [hi] at h
              have hv3 := qemudInitCpus_frame _ _ _ _ _ hi
              subst hv3
              simp only at h
              split at h
              · cases h
                exact hid1.trans (qemudShutdownVMDaemon_identity _ hid1.2.2.2.2)
              · cases h
                exact hid1

theorem withAutoport_identity (env : StartEnv) (vm : DomainObj) (hn : vm.newDef = none) :
    SameIdentity vm (withAutoport env vm) := by
  unfold withAutoport
  split
  · exact ⟨rfl, rfl, rfl, hn, hn⟩
  · exact SameIdentity.refl vm hn

theorem qemudStartVMDaemon_identity (env : StartEnv) (n : Int) (vm : DomainObj)
    (mig : Option (List Nat)) (c n2 : Int) (vm2 : DomainObj) (hn : vm.newDef = none)
    (h : qemudStartVMDaemon env n vm mig = Outcome.returns c (n2, vm2)) :
    SameIdentity vm vm2 := by
  have ha := withAutoport_identity env vm hn
  unfold qemudStartVMDaemon at h
  by_cases hact : virDomainIsActive vm = true
  · rw [if_pos hact] at h
    cases h
    exact SameIdentity.refl vm hn
  rw [if_neg hact] at h
  by_cases h1 : (wantsVncAutoport vm && decide (env.vncPort < 0)) = true
  · rw [if_pos h1] at h
    cases h
    exact SameIdentity.refl vm hn
  rw [if_neg h1] at h
  by_cases h2 : (!env.makePathOk) = true
  · rw [if_pos h2] at h
    cases h
    exact ha
  rw [if_neg h2] at h
  by_cases h3 : env.logfd < 0
  · rw [if_pos h3] at h
    cases h
    exact ⟨ha.1, ha.2.1, ha.2.2.1, hn, ha.2.2.2.2⟩
  rw [if_neg h3] at h
  by_cases h4 : (!env.emulatorFound) = true
  · rw [if_pos h4] at h
    cases h
    exact ⟨ha.1, ha.2.1, ha.2.2.1, hn, ha.2.2.2.2⟩
  rw [if_neg h4] at h
  by_cases h5 : (!env.statOk) = true
  · rw [if_pos h5] at h
    cases h
    exact ⟨ha.1, ha.2.1, ha.2.2.1, hn, ha.2.2.2.2⟩
  rw [if_neg h5] at h
  by_cases h6 : (!env.versionOk) = true
  · rw [if_pos h6] at h
    cases h
    exact ⟨ha.1, ha.2.1, ha.2.2.1, hn, ha.2.2.2.2⟩
  rw [if_neg h6] at h
  by_cases h7 : (!env.buildCommandLineOk) = true
  · rw [if_pos h7] at h
    cases h
    exact ⟨ha.1, ha.2.1, ha.2.2.1, hn, ha.2.2.2.2⟩
  rw [if_neg h7] at h
  by_cases h8 : env.execRet ≠ 0
  · rw [if_pos h8] at h
    cases h
    exact ⟨ha.1, ha.2.1, ha.2.2.1, hn, ha.2.2.2.2⟩
  rw [if_neg h8] at h
  have hs : SameIdentity vm (execStarted env n vm mig) :=
    ⟨ha.1, ha.2.1, ha.2.2.1, hn, ha.2.2.2.2⟩
  cases hb : qemudStartVMDaemonBoot env (execStarted env n vm mig) mig with
  | undefinedBehaviour => rw [hb] at h; simp [Outcome.bind] at h
  | noReturn => rw [hb] at h; simp [Outcome.bind] at h
  | returns r v =>
    rw [hb] at h
    simp only [Outcome.bind] at h
    cases h
    exact hs.trans (qemudStartVMDaemonBoot_identity _ _ _ _ _ hs.2.2.2.2 hb)

/-! ## `qemudDomainCreate` -/

theorem virDomainAssignDef_fresh (ok : Bool) (doms : List DomainObj) (d : DomainDef)
    (h : virDomainFindByName doms d.name = none) :
    virDomainAssignDef ok doms d =
      if ok then some (doms ++ [inactiveDomain d], doms.length) else none := by
  simp only [virDomainAssignDef, h, domainAt]

theorem get?_append_length (doms : List DomainObj) (vm : DomainObj) :
    (doms ++ [vm]).get? doms.length = some vm := by
  simp [List.getElem?_append_right]

theorem set_append_length (doms : List DomainObj) (vm vm2 : DomainObj) :
    (doms ++ [vm]).set doms.length vm2 = doms ++ [vm2] := by
  induction doms with
  | nil => rfl
  | cons a t ih => simp only [List.cons_append, List.length_cons, List.set_cons_succ, ih]

theorem eraseIdx_append_length (doms : List DomainObj) (vm : DomainObj) :
    (doms ++ [vm]).eraseIdx doms.length = doms := by
  induction doms with
  | nil => rfl
  | cons a t ih => simp only [List.cons_append, List.length_cons, List.eraseIdx_cons_succ, ih]

/-- The two ways `qemudDomainCreate` returns: with nothing started, the registry and the
queue being as before; or with the new domain started and appended to the registry. -/
theorem qemudDomainCreate_cases (driver : Driver) (env : CreateEnv) (c : Int)
    (od : Option VirDomain) (api : Api)
    (h : qemudDomainCreate driver env = Outcome.returns c (od, api)) :
    (od = none ∧ api.driver.domains = driver.domains ∧ api.driver.events = driver.events) ∨
    (∃ d r n2 vm2, env.parsed = some d ∧ virDomainFindByName driver.domains d.name = none ∧
      virDomainFindByUUID driver.domains d.uuid = none ∧
      qemudStartVMDaemon env.start driver.nextvmid (inactiveDomain d) none
        = Outcome.returns r (n2, vm2) ∧ ¬ r < 0 ∧
      api.driver =
        { nextvmid := n2, domains := driver.domains ++ [vm2],
          events := driver.events ++
            [virDomainEventNewFromObj vm2 EventType.started EventDetail.booted] } ∧
      od = virGetDomain env.getDomainOk vm2) := by
  unfold qemudDomainCreate at h
  cases hp : env.parsed with
  | none => rw [hp] at h; cases h; exact Or.inl ⟨rfl, rfl, rfl⟩
  | some d =>
    rw [hp] at h
    simp only at h
    cases hname : virDomainFindByName driver.domains d.name with
    | some k => rw [hname] at h; cases h; exact Or.inl ⟨rfl, rfl, rfl⟩
    | none =>
      rw [hname] at h
      simp only [Option.isSome_none, Bool.false_eq_true, if_false] at h
      cases huuid : virDomainFindByUUID driver.domains d.uuid with
      | some k => rw [huuid] at h; cases h; exact Or.inl ⟨rfl, rfl, rfl⟩
      | none =>
        rw [huuid, virDomainAssignDef_fresh _ _ _ hname] at h
        simp only [Option.isSome_none, Bool.false_eq_true, if_false] at h
        cases hok : env.assignAllocOk with
        | false => rw [hok] at h; cases h; exact Or.inl ⟨rfl, rfl, rfl⟩
        | true =>
          rw [hok] at h
          simp only [if_true, get?_append_length] at h
          cases hs : qemudStartVMDaemon env.start driver.nextvmid (inactiveDomain d) none with
          | undefinedBehaviour => rw [hs] at h; simp [Outcome.bind] at h
          | noReturn => rw [hs] at h; simp [Outcome.bind] at h
          | returns r res =>
            obtain ⟨n2, vm2⟩ := res
            rw [hs] at h
            simp only [Outcome.bind] at h
            split at h
            · cases h
              exact Or.inl ⟨rfl, by simp only [virDomainRemoveInactive, eraseIdx_append_length],
                rfl⟩
            · rename_i hr
              cases h
              exact Or.inr ⟨d, r, n2, vm2, rfl, hname, huuid, hs, hr,
                by simp only [set_append_length], rfl⟩

theorem qemudDomainCreate_name_defined (driver : Driver) (env : CreateEnv) (d : DomainDef)
    (hp : env.parsed = some d) (k : Nat)
    (h : virDomainFindByName driver.domains d.name = some k) :
    qemudDomainCreate driver env = Outcome.returns (-1)
      (none,
        { driver := driver,
          errors := [{ code := VirErr.operationFailed,
                       message := bytes "domain '" ++ d.name ++ bytes "' is already defined" }],
          sent := [] }) := by
  simp only [qemudDomainCreate, hp, h, Option.isSome_some, if_true]

theorem qemudDomainCreate_uuid_defined (driver : Driver) (env : CreateEnv) (d : DomainDef)
    (hp : env.parsed = some d) (k : Nat)
    (hname : virDomainFindByName driver.domains d.name = none)
    (h : virDomainFindByUUID driver.domains d.uuid = some k) :
    qemudDomainCreate driver env = Outcome.returns (-1)
      (none,
        { driver := driver,
          errors := [{ code := VirErr.operationFailed,
                       message := bytes "domain with uuid '" ++ virUUIDFormat d.uuid ++
                         bytes "' is already defined" }],
          sent := [] }) := by
  simp only [qemudDomainCreate, hp, h, hname, Option.isSome_some, Option.isSome_none, if_true,
    Bool.false_eq_true, if_false]

theorem findIdx?_some_of_mem (p : DomainObj → Bool) (doms : List DomainObj) (vm : DomainObj)
    (hmem : vm ∈ doms) (hp : p vm = true) : ∃ k, doms.findIdx? p = some k := by
  cases h : doms.findIdx? p with
  | some k => exact ⟨k, rfl⟩
  | none =>
    rw [List.findIdx?_eq_none_iff] at h
    rw [h vm hmem] at hp
    exact absurd hp (by decide)

/-- C13: `qemudDomainCreate` keeps the registry free of duplicates: when no two domains share
a name or a UUID before the call, none do when it returns. When the parsed definition has
the name or the UUID of a domain of the registry, the call returns NULL with one report,
operation-failed, whose text ends in `' is already defined`; the driver (registry, counter
of ids, queue of events) is as before and nothing is sent. -/
theorem create_keeps_registry_unique (driver : Driver) (env : CreateEnv)
    (huniq : RegistryUnique driver.domains) :
    (∀ c od api, qemudDomainCreate driver env = Outcome.returns c (od, api) →
      RegistryUnique api.driver.domains) ∧
    (∀ d vm, env.parsed = some d → vm ∈ driver.domains →
      (vm.def_.name = d.name ∨ vm.def_.uuid = d.uuid) →
      ∃ report, qemudDomainCreate driver env = Outcome.returns (-1)
          (none, { driver := driver, errors := [report], sent := [] }) ∧
        report.code = VirErr.operationFailed ∧
        bytes "' is already defined" <:+ report.message) := by
  refine ⟨?_, ?_⟩
  · intro c od api h
    rcases qemudDomainCreate_cases driver env c od api h with
      ⟨_, hd, _⟩ | ⟨d, r, n2, vm2, _, hname, huuid, hs, _, hdrv, _⟩
    · rw [hd]; exact huniq
    · have hid := qemudStartVMDaemon_identity _ _ _ _ _ _ _ rfl hs
      rw [hdrv]
      simp only [RegistryUnique]
      rw [List.pairwise_append]
      refine ⟨huniq, List.pairwise_singleton _ _, ?_⟩
      intro a ha b hb
      rw [List.mem_singleton] at hb
      subst hb
      simp only [virDomainFindByName, virDomainFindByUUID, List.findIdx?_eq_none_iff,
        decide_eq_false_iff_not] at hname huuid
      refine ⟨?_, ?_⟩
      · rw [hid.1]; exact hname a ha
      · rw [hid.2.1]; exact huuid a ha
  · intro d vm hp hmem hdup
    cases hname : virDomainFindByName driver.domains d.name with
    | some k =>
      exact ⟨_, qemudDomainCreate_name_defined driver env d hp k hname, rfl,
        ⟨bytes "domain '" ++ d.name, by simp only [List.append_assoc]⟩⟩
    | none =>
      have hu : ∃ k, virDomainFindByUUID driver.domains d.uuid = some k := by
        apply findIdx?_some_of_mem _ _ vm hmem
        rcases hdup with hn | hu
        · simp only [virDomainFindByName, List.findIdx?_eq_none_iff,
            decide_eq_false_iff_not] at hname
          exact absurd hn (hname vm hmem)
        · simp only [hu, decide_True]
      obtain ⟨k, hk⟩ := hu
      exact ⟨_, qemudDomainCreate_uuid_defined driver env d hp k hname hk, rfl,
        ⟨bytes "domain with uuid '" ++ virUUIDFormat d.uuid, by simp only [List.append_assoc]⟩⟩

theorem create_keeps_registry_unique_witness :
    RegistryUnique runningDriver.domains ∧
    (∀ c od api, qemudDomainCreate runningDriver (createOk betaDef) = Outcome.returns c (od, api) →
      RegistryUnique api.driver.domains) ∧
    (qemudDomainCreate runningDriver (createOk betaDef)).final.map
        (fun r => (r.1.map (fun dom => dom.id), r.2.driver.nextvmid,
          r.2.driver.domains.map (fun vm => (vm.def_.name, vm.def_.id))))
      = some (some 2, 3, [(bytes "alpha", 1), (bytes "beta", 2)]) ∧
    (∃ report, qemudDomainCreate runningDriver (createOk (alphaDef VirtType.qemu))
        = Outcome.returns (-1)
            (none, { driver := runningDriver, errors := [report], sent := [] }) ∧
      report.code = VirErr.operationFailed ∧
      bytes "' is already defined" <:+ report.message) :=
  ⟨List.pairwise_singleton _ _,
   (create_keeps_registry_unique runningDriver (createOk betaDef)
      (List.pairwise_singleton _ _)).1,
   by decide,
   (create_keeps_registry_unique runningDriver (createOk (alphaDef VirtType.qemu))
      (List.pairwise_singleton _ _)).2 (alphaDef VirtType.qemu) (kvmDomain 1 77) rfl
      (List.mem_singleton.mpr rfl) (Or.inl rfl)⟩

/-! ## Create, then destroy -/

theorem getD_take (l : List Nat) (k n d : Nat) (h : k < n) : (l.take n).getD k d = l.getD k d := by
  simp only [List.getD_eq_getElem?_getD, List.getElem?_take, h, if_true]

theorem intOfObject_take (be : Bool) (l : List Nat) (n : Nat) (h : 4 ≤ n) :
    intOfObject be (l.take n) = intOfObject be l := by
  unfold intOfObject
  simp only [getD_take l 0 n 0 (by omega), getD_take l 1 n 0 (by omega),
    getD_take l 2 n 0 (by omega), getD_take l 3 n 0 (by omega)]

theorem headerOfObject_magic (be : Bool) (file : List Nat) :
    (headerOfObject be (file.take 92)).magic = file.take 16 := by
  simp only [headerOfObject, List.take_take]
  rfl

theorem headerOfObject_version (be : Bool) (file : List Nat) :
    (headerOfObject be (file.take 92)).version = intOfObject be (file.drop 16) := by
  simp only [headerOfObject, List.drop_take]
  exact intOfObject_take be _ _ (by decide)

theorem imageVersionReport_message (v : Int) :
    imageVersionReport v =
      { code := VirErr.operationFailed,
        message := bytes "image version is not supported (" ++ fmtInt v ++ bytes " > 1)" } := by
  have h : bytes " > " ++ fmtInt QEMUD_SAVE_VERSION ++ bytes ")" = bytes " > 1)" := by decide
  simp only [imageVersionReport, List.append_assoc, ErrorReport.mk.injEq, true_and]
  rw [← h]
  simp only [List.append_assoc]

/-- C16 (as amended): for every save file of at least 92 bytes (a whole header), when its
first 16 bytes are not `LibvirtQemudSave`, `qemudDomainRestore` returns -1 with the report
operation-failed `image magic is incorrect`; when they are and the version `v` read from
the next four bytes is greater than 1, it returns -1 with the report operation-failed
`image version is not supported (v > 1)`, which for `v = 2` reads
`image version is not supported (2 > 1)`. A file of fewer than 92 bytes gets the report
operation-failed `failed to read qemu header`. In all these cases the driver (registry,
counter of ids, queue of events) is as before and nothing is sent to a monitor. -/
theorem restore_refuses_incompatible (driver : Driver) (env : RestoreEnv) (file : List Nat)
    (hfile : env.file = some file) :
    (92 ≤ file.length → file.take 16 ≠ bytes "LibvirtQemudSave" →
      qemudDomainRestore driver env = Outcome.returns (-1)
        { driver := driver, errors := [operationFailed "image magic is incorrect"],
          sent := [] }) ∧
    (92 ≤ file.length → file.take 16 = bytes "LibvirtQemudSave" →
      1 < intOfObject env.bigEndian (file.drop 16) →
      qemudDomainRestore driver env = Outcome.returns (-1)
        { driver := driver,
          errors := [{ code := VirErr.operationFailed,
                       message := bytes "image version is not supported (" ++
                         fmtInt (intOfObject env.bigEndian (file.drop 16)) ++ bytes " > 1)" }],
          sent := [] }) ∧
    bytes "image version is not supported (" ++ fmtInt 2 ++ bytes " > 1)"
      = bytes "image version is not supported (2 > 1)" ∧
    (file.length < 92 →
      qemudDomainRestore driver env = Outcome.returns (-1)
        { driver := driver, errors := [operationFailed "failed to read qemu header"],
          sent := [] }) := by
  refine ⟨?_, ?_, by decide, ?_⟩
  · intro hlen hmagic
    have h1 : ¬ file.length < 92 := by omega
    simp only [qemudDomainRestore, hfile, h1, if_false, headerOfObject_magic, QEMUD_SAVE_MAGIC,
      ne_eq, hmagic, not_false_eq_true, if_true, apiFailure]
  · intro hlen hmagic hv
    have h1 : ¬ file.length < 92 := by omega
    simp only [qemudDomainRestore, hfile, h1, if_false, headerOfObject_magic, QEMUD_SAVE_MAGIC,
      ne_eq, hmagic, not_true_eq_false, headerOfObject_version, QEMUD_SAVE_VERSION, gt_iff_lt,
      hv, if_true, apiFailure, imageVersionReport_message]
  · intro hlen
    simp only [qemudDomainRestore, hfile, hlen, if_true, apiFailure]

theorem restore_refuses_incompatible_witness :
    qemudDomainRestore runningDriver (restoreOk (saveFile 2 1)) = Outcome.returns (-1)
      { driver := runningDriver,
        errors := [{ code := VirErr.operationFailed,
                     message := bytes "image version is not supported (2 > 1)" }],
        sent := [] } := by
  have h := (restore_refuses_incompatible runningDriver (restoreOk (saveFile 2 1))
    (saveFile 2 1) rfl).2.1 (by decide) (by decide) (by decide)
  rw [h]
  decide

/-- C16 (counterexample): a save file made of the 16 bytes `XXXXXXXXXXXXXXXX`
does not start with `LibvirtQemudSave`, and `qemudDomainRestore` reports
`failed to read qemu header` for it, not `image magic is incorrect`. -/
theorem restore_short_file_report :
    (List.replicate 16 88).take 16 ≠ bytes "LibvirtQemudSave" ∧
    (qemudDomainRestore runningDriver (restoreOk (List.replicate 16 88))).final.map
        (fun api => api.errors.map (fun report => report.message))
      = some [bytes "failed to read qemu header"] ∧
    bytes "failed to read qemu header" ≠ bytes "image magic is incorrect" := by
  decide

/-- C17 (failing input): a save file with a good header and `was_running = 1`, restored on
an empty registry; the domain starts, and the monitor command `cont` fails. Then
`qemudDomainRestore` reports `failed to resume domain` and returns 0, the domain being
left PAUSED. For comparison, when `cont` is answered the state is RUNNING, and with
`was_running = 0` it is PAUSED. -/
theorem restore_cont_failure_returns_success :
    (qemudDomainRestore (initialDriver [])
        { restoreOk (saveFile 1 1) with cont := MonitorResult.failed }).code = some 0 ∧
    (qemudDomainRestore (initialDriver [])
        { restoreOk (saveFile 1 1) with cont := MonitorResult.failed }).final.map
        (fun api => (api.driver.domains.map (fun vm => (vm.state, vm.def_.id)),
          api.errors.map (fun report => report.message)))
      = some ([(DomainState.paused, 1)], [bytes "failed to resume domain"]) ∧
    (qemudDomainRestore (initialDriver []) (restoreOk (saveFile 1 1))).final.map
        (fun api => api.driver.domains.map (fun vm => vm.state))
      = some [DomainState.running] ∧
    (qemudDomainRestore (initialDriver []) (restoreOk (saveFile 1 0))).final.map
        (fun api => api.driver.domains.map (fun vm => vm.state))
      = some [DomainState.paused] := by
  decide

/-! ## Failing inputs -/

/-- C12 (failing inputs): `qemudStartVMDaemon` on the inactive domain `alpha`, the log file
being opened on descriptor 10. When `stat` of the emulator fails, and when `virExec` fails,
the call returns -1 and `vm->logfile` is still 10 (the descriptor stays open; id -1, state
SHUTOFF). For comparison, when `qemudBuildCommandLine` fails the log file is closed and
`vm->logfile` is -1, and when `qemudWaitForMonitor` fails `qemudShutdownVMDaemon` leaves
-1 in the log file, the pipes and the monitor. -/
theorem start_failure_keeps_logfile :
    ((qemudStartVMDaemon { startOk with statOk := false } 1
        (inactiveDomain (alphaDef VirtType.qemu)) none).code = some (-1) ∧
      (qemudStartVMDaemon { startOk with statOk := false } 1
        (inactiveDomain (alphaDef VirtType.qemu)) none).final.map
          (fun r => (r.2.logfile, r.2.def_.id, r.2.state))
        = some (10, -1, DomainState.shutoff)) ∧
    ((qemudStartVMDaemon { startOk with execRet := -1 } 1
        (inactiveDomain (alphaDef VirtType.qemu)) none).code = some (-1) ∧
      (qemudStartVMDaemon { startOk with execRet := -1 } 1
        (inactiveDomain (alphaDef VirtType.qemu)) none).final.map
          (fun r => (r.2.logfile, r.2.def_.id, r.2.state))
        = some (10, -1, DomainState.shutoff)) ∧
    (qemudStartVMDaemon { startOk with buildCommandLineOk := false } 1
        (inactiveDomain (alphaDef VirtType.qemu)) none).final.map
          (fun r => (r.2.logfile, r.2.def_.id, r.2.state))
      = some (-1, -1, DomainState.shutoff) ∧
    (qemudStartVMDaemon
        { startOk with
            waitForMonitor := { ret := -1, monitor := -1, monitorpath := none, serials := [],
                                parallels := [] } } 1
        (inactiveDomain (alphaDef VirtType.qemu)) none).final.map
          (fun r => ((r.2.logfile, r.2.stdout_fd, r.2.stderr_fd, r.2.monitor),
            (r.2.vcpupids, r.2.def_.id, r.2.state)))
      = some ((-1, -1, -1, -1), (none, -1, DomainState.shutoff)) := by
  refine ⟨⟨by decide, by decide⟩, ⟨by decide, by decide⟩, by decide, by decide⟩

theorem take_eq_of_length (l m : List Nat) (n : Nat) (h : l.take n = m) (hm : m.length < n) :
    l = m := by
  have hl : (l.take n).length = m.length := by rw [h]
  rw [List.length_take] at hl
  have : l.length ≤ n := by omega
  rw [List.take_of_length_le this] at h
  exact h

/-- C18 (failing input, and every other): whatever the text `uri_in` is,
`qemudDomainMigratePrepare2` called with it returns -1 with a report invalid-arg and leaves
the driver, the static counter and `*uri_out` (NULL) alone: `STREQLEN (uri_in, "tcp:", 6)`
holds only when `uri_in` is `tcp:` itself, which has no port. For `tcp:host:49152` the
report is `only tcp URIs are supported for KVM migrations`; without a URI the same call
starts the listening domain. -/
theorem prepare_rejects_every_uri (driver : Driver) (env : PrepareEnv) (port : Int)
    (uri : List Nat) (dname : Option (List Nat)) :
    (∃ report, qemudDomainMigratePrepare2 driver env port (some uri) dname true
        = Outcome.returns (-1)
            { api := { driver := driver, errors := [report], sent := [] }, uri_out := none,
              port := port } ∧
      report.code = VirErr.invalidArg) ∧
    qemudDomainMigratePrepare2 (initialDriver []) prepareOk 0 (some (bytes "tcp:host:49152"))
        none true
      = Outcome.returns (-1)
          { api := { driver := initialDriver [],
                     errors := [{ code := VirErr.invalidArg,
                                  message :=
                                    bytes "only tcp URIs are supported for KVM migrations" }],
                     sent := [] },
            uri_out := none, port := 0 } ∧
    (qemudDomainMigratePrepare2 (initialDriver []) prepareOk 0 none none true).final.map
        (fun r => (r.uri_out, r.port, r.api.driver.domains.map (fun vm => (vm.state, vm.def_.id))))
      = some (some (bytes "tcp:dest:49152"), 1, [(DomainState.paused, 1)]) := by
  refine ⟨?_, by decide, by decide⟩
  unfold qemudDomainMigratePrepare2
  simp only [Bool.not_true, Bool.false_eq_true, if_false]
  cases hs : STREQLEN uri (bytes "tcp:") 6 with
  | false =>
    simp only [Bool.not_false, if_true, prepareFailure]
    exact ⟨_, rfl, rfl⟩
  | true =>
    simp only [Bool.not_true, Bool.false_eq_true, if_false]
    have h1 : (cstr (bytes "tcp:")).take 6 = bytes "tcp:" := by decide
    have hc : cstr uri = bytes "tcp:" := by
      simp only [STREQLEN, decide_eq_true_eq, h1] at hs
      exact take_eq_of_length _ _ 6 hs (by decide)
    rw [hc]
    have h2 : strrchr (bytes "tcp:") 58 = some 3 := by decide
    have h3 : virParseNumber ((bytes "tcp:").drop (3 + 1)) = (-1, 0) := by decide
    simp only [h2, h3, true_or, if_true, prepareFailure]
    exact ⟨_, rfl, rfl⟩

/-- C19 (failing inputs), on the driver with the one running domain `alpha`:
`qemudDomainMigratePerform` whose `migrate` is answered `unknown command: 'migrate'`
returns 0, shuts the domain down, takes it out of the registry and queues
stopped/migrated; `qemudDomainSave` whose `migrate` is answered `migration failed` returns
0, shuts the domain down, takes it out of the registry and queues stopped/saved. For
comparison, `qemudDomainMigratePerform` on a reply holding `fail` returns -1 with
operation-failed and `qemudDomainSave` on a reply holding `unknown command:` returns -1
with no-support, the domain staying in the registry with its id. -/
theorem migrate_reply_checks :
    ((qemudDomainMigratePerform runningDriver (alphaHandle 1) (bytes "tcp:host:49152") true 0
        { performOk with
            migrate := MonitorResult.reply (bytes "unknown command: 'migrate'\n" ++ [0]) }).code
        = some 0 ∧
      (qemudDomainMigratePerform runningDriver (alphaHandle 1) (bytes "tcp:host:49152") true 0
        { performOk with
            migrate := MonitorResult.reply (bytes "unknown command: 'migrate'\n" ++ [0])
        }).final.map
          (fun api => (api.driver.domains.map (fun vm => vm.def_.id),
            api.errors.map (fun report => report.code),
            api.driver.events.map (fun e => (e.type, e.detail))))
        = some ([], [], [(EventType.stopped, EventDetail.migrated)])) ∧
    ((qemudDomainSave runningDriver (alphaHandle 1) (bytes "/tmp/alpha.save")
        { saveOk with migrate := MonitorResult.reply (bytes "migration failed\n" ++ [0]) }).code
        = some 0 ∧
      (qemudDomainSave runningDriver (alphaHandle 1) (bytes "/tmp/alpha.save")
        { saveOk with migrate := MonitorResult.reply (bytes "migration failed\n" ++ [0])
        }).final.map
          (fun r => (r.api.driver.domains.map (fun vm => vm.def_.id),
            r.api.errors.map (fun report => report.code),
            r.api.driver.events.map (fun e => (e.type, e.detail))))
        = some ([], [], [(EventType.suspended, EventDetail.paused),
            (EventType.stopped, EventDetail.saved)])) ∧
    (qemudDomainMigratePerform runningDriver (alphaHandle 1) (bytes "tcp:host:49152") true 0
        { performOk with
            migrate := MonitorResult.reply (bytes "migration failed\n" ++ [0]) }).final.map
          (fun api => (api.driver.domains.map (fun vm => vm.def_.id),
            api.errors.map (fun report => report.code),
            api.driver.events.map (fun e => (e.type, e.detail))))
      = some ([1], [VirErr.operationFailed], []) ∧
    (qemudDomainSave runningDriver (alphaHandle 1) (bytes "/tmp/alpha.save")
        { saveOk with
            migrate := MonitorResult.reply (bytes "unknown command: 'migrate'\n" ++ [0])
        }).final.map
          (fun r => (r.api.driver.domains.map (fun vm => vm.def_.id),
            r.api.errors.map (fun report => report.code),
            r.api.driver.events.map (fun e => (e.type, e.detail))))
      = some ([1], [VirErr.noSupport], [(EventType.suspended, EventDetail.paused)]) := by
  refine ⟨⟨by decide, by decide⟩, ⟨by decide, by decide⟩, by decide, by decide⟩

/-- C20 (failing input), on the driver with the one running domain `alpha`:
`qemudDomainMigratePerform` without the flag live sends `stop` and then `migrate`, which
fails. The call returns -1, with the domain in the registry and active, and with the
recorded state RUNNING, not PAUSED. A `qemudDomainResume` that follows finds the state
RUNNING and sends nothing. -/
theorem perform_leaves_state_running :
    (qemudDomainMigratePerform runningDriver (alphaHandle 1) (bytes "tcp:host:49152") false 0
        { performOk with migrate := MonitorResult.failed }).code = some (-1) ∧
    (qemudDomainMigratePerform runningDriver (alphaHandle 1) (bytes "tcp:host:49152") false 0
        { performOk with migrate := MonitorResult.failed }).final.map
        (fun api => api.driver.domains.map
            (fun vm => (vm.state, vm.def_.id, virDomainIsActive vm)))
      = some [(DomainState.running, 1, true)] ∧
    (qemudDomainMigratePerform runningDriver (alphaHandle 1) (bytes "tcp:host:49152") false 0
        { performOk with migrate := MonitorResult.failed }).final.map
        (fun api => (api.sent, api.driver.events.map (fun e => (e.type, e.detail))))
      = some ([bytes "stop", bytes "migrate \"tcp:host:49152\""],
          [(EventType.suspended, EventDetail.migrated)]) ∧
    (qemudDomainMigratePerform runningDriver (alphaHandle 1) (bytes "tcp:host:49152") false 0
        { performOk with
            migrate := MonitorResult.reply (bytes "migration failed\n" ++ [0]) }).final.map
        (fun api => api.driver.domains.map (fun vm => vm.state))
      = some [DomainState.running] ∧
    ((qemudDomainMigratePerform runningDriver (alphaHandle 1) (bytes "tcp:host:49152") false 0
        { performOk with migrate := MonitorResult.failed }).bind
        (fun _ api => qemudDomainResume api.driver (alphaHandle 1)
          (MonitorResult.reply [0]))).final.map
        (fun api => (api.sent, api.driver.domains.map (fun vm => vm.state)))
      = some ([], [DomainState.running]) := by
  refine ⟨by decide, by decide, by decide, by decide, by decide⟩

/-! ## `qemudOpen`: the URIs accepted -/

/-- C24 (fails as stated): the caller with uid 0 opens `qemu:///session`, which
`qemudOpen` accepts in its branch for root. -/
theorem open_root_session_accepted :
    (qemudOpen true true 0
      (some { scheme := some (bytes "qemu"), path := some (bytes "/session") }) true).1 =
      virDrvOpenStatus.VIR_DRV_OPEN_SUCCESS := by
  decide

/-- C24 (amended): with the driver initialised and an emulator present, `qemudOpen` accepts
a URI exactly when its scheme is `qemu` and its path is `/session` (any uid) or `/system`
with uid 0; every other URI, and every URI lacking a scheme or a path, is declined. -/
theorem open_accepted_uris (uid : Nat) (u : XmlURI) (parseOk : Bool) :
    ((qemudOpen true true uid (some u) parseOk).1 = virDrvOpenStatus.VIR_DRV_OPEN_SUCCESS ↔
      ∃ scheme path, u.scheme = some scheme ∧ u.path = some path ∧
        cstr scheme = bytes "qemu" ∧
        (cstr path = bytes "/session" ∨ (cstr path = bytes "/system" ∧ uid = 0))) ∧
    ((qemudOpen true true uid (some u) parseOk).1 = virDrvOpenStatus.VIR_DRV_OPEN_SUCCESS ∨
      (qemudOpen true true uid (some u) parseOk).1 = virDrvOpenStatus.VIR_DRV_OPEN_DECLINED) := by
  obtain ⟨scheme, path⟩ := u
  cases scheme with
  | none => simp [qemudOpen]
  | some s =>
    cases path with
    | none => simp [qemudOpen]
    | some p =>
      by_cases hs : cstr s = bytes "qemu"
      · by_cases hu : uid = 0
        · by_cases h1 : cstr p = bytes "/system"
          · simp [qemudOpen, hs, hu, h1]
          · by_cases h2 : cstr p = bytes "/session"
            · simp [qemudOpen, hs, hu, h2]
            · simp [qemudOpen, hs, hu, h1, h2]
        · by_cases h2 : cstr p = bytes "/session"
          · simp [qemudOpen, hs, hu, h2]
          · simp [qemudOpen, hs, hu, h2]
      · simp [qemudOpen, hs]

/-! ## `virDeleteElementsN`: the sum `at + remove` -/

/-- C26 (fails in the code): on an array of 4 elements of 2 bytes, `at = 2^63` and
`remove = 2^63 + 1` have a sum above the count, yet the sum of type `size_t` is 1, the check
passes, 6 bytes are moved down inside the block and the call returns 0: with `inPlace`
false the array is released and the count is 0, with `inPlace` true the count is
`2^63 + 3`. -/
theorem delete_elements_sum_wraps :
    virDeleteElementsN allocOk [1, 2, 3, 4, 5, 6, 7, 8] 2 9223372036854775808 4
        9223372036854775809 false = Outcome.returns 0 ([], 0) ∧
      virDeleteElementsN allocOk [1, 2, 3, 4, 5, 6, 7, 8] 2 9223372036854775808 4
        9223372036854775809 true =
        Outcome.returns 0 ([3, 4, 5, 6, 7, 8, 7, 8], 9223372036854775811) := by
  refine ⟨by decide, by decide⟩

/-! ## The lock hierarchy -/

theorem qemudDomainSuspendLocks_ordered (driver : Driver) (dom : VirDomain)
    (stop : MonitorResult) :
    lockOrderOk noLocks (qemudDomainSuspendLocks driver dom stop) = true := by
  unfold qemudDomainSuspendLocks
  split
  · rfl
  · rename_i i vm _
    by_cases ha : virDomainIsActive vm = true
    · by_cases hp : vm.state = DomainState.paused
      · simp [ha, hp, lookupLocks, lockOrderOk, noLocks]
      · cases stop <;> simp [ha, hp, lookupLocks, lockOrderOk, noLocks]
    · simp [ha, lookupLocks, lockOrderOk, noLocks]

theorem qemudDomainSaveLocks_running (driver : Driver) (dom : VirDomain) (path : List Nat)
    (env : SaveEnv) (i : Nat) (vm : DomainObj)
    (hfind : domainAt driver.domains (virDomainFindByID driver.domains dom.id) = some (i, vm))
    (hactive : virDomainIsActive vm = true) (hstate : vm.state = DomainState.running) :
    lockOrderOk noLocks (qemudDomainSaveLocks driver dom path env) = false := by
  unfold qemudDomainSaveLocks qemudDomainSuspendLocks
  rw [hfind]
  simp [hactive, hstate, lookupLocks, lockOrderOk, noLocks]

/-- C27 (fails in the code): `qemudDomainSave` on a running domain calls
`qemudDomainSuspend` while it holds the driver lock and the lock of the domain, and the
callee requests the driver lock: the steps of the thread break the hierarchy. -/
theorem save_requests_driver_lock_twice :
    qemudDomainSaveLocks runningDriver (alphaHandle 1) (bytes "/tmp/alpha.img") saveOk =
        [LockStep.driverLock, LockStep.vmLock 0, LockStep.driverLock, LockStep.vmLock 0,
          LockStep.driverUnlock, LockStep.vmUnlock 0, LockStep.driverLock,
          LockStep.driverUnlock, LockStep.driverUnlock] ∧
      lockOrderOk noLocks
        (qemudDomainSaveLocks runningDriver (alphaHandle 1) (bytes "/tmp/alpha.img") saveOk) =
        false := by
  refine ⟨by decide, by decide⟩

/-! ## `qemudDispatchVMEvent`: the classification of the events -/

/-- C28 (fails as stated): an error event without the readable bit, on the stdout of an
active domain, queues stopped/shutdown and not stopped/failed. -/
theorem dispatch_error_event_is_shutdown :
    (qemudDispatchVMEventBits watchedDriver 1 11 VIR_EVENT_HANDLE_ERROR false).events.map
        (fun e => (e.type, e.detail)) = [(EventType.stopped, EventDetail.shutdown)] ∧
      (qemudDispatchVMEventBits watchedDriver 1 11 VIR_EVENT_HANDLE_ERROR false).domains = [] := by
  refine ⟨by decide, by decide⟩

/-- C28 (amended): when the watch matches no active domain the driver is left as it is.
When it matches the active domain `vm`: with the fd its stdout or stderr, the readable bit
set and the draining succeeding, the driver is left as it is; with the fd its stdout or
stderr and the readable bit not set (a hang-up or an error event alike), the shutdown
sequence runs and stopped/shutdown is queued; with an fd that is neither, or with the
readable bit set and a failed read, the shutdown sequence runs and stopped/failed is
queued. -/
theorem dispatch_event_classification (driver : Driver) (watch fd : Int) (events : Nat)
    (readFails : Bool) :
    (findByWatch driver.domains watch = none →
      qemudDispatchVMEventBits driver watch fd events readFails = driver) ∧
    ∀ (i : Nat) (vm : DomainObj), findByWatch driver.domains watch = some i →
      driver.domains.get? i = some vm →
      ((vm.stdout_fd = fd ∨ vm.stderr_fd = fd) → events &&& VIR_EVENT_HANDLE_READABLE ≠ 0 →
        ¬ qemudVMData vm readFails < 0 →
        qemudDispatchVMEventBits driver watch fd events readFails = driver) ∧
      ((vm.stdout_fd = fd ∨ vm.stderr_fd = fd) → events &&& VIR_EVENT_HANDLE_READABLE = 0 →
        qemudDispatchVMEventBits driver watch fd events readFails =
          stopDomain driver i (qemudShutdownVMDaemon vm)
            (virDomainEventNewFromObj vm EventType.stopped EventDetail.shutdown)) ∧
      (((vm.stdout_fd ≠ fd ∧ vm.stderr_fd ≠ fd) ∨
          (events &&& VIR_EVENT_HANDLE_READABLE ≠ 0 ∧ qemudVMData vm readFails < 0)) →
        qemudDispatchVMEventBits driver watch fd events readFails =
          stopDomain driver i (qemudShutdownVMDaemon vm)
            (virDomainEventNewFromObj vm EventType.stopped EventDetail.failed)) := by
  refine ⟨fun hnone => ?_, fun i vm hfind hget => ?_⟩
  · simp only [qemudDispatchVMEventBits, qemudDispatchVMEvent, hnone, domainAt]
  · have hat := domainAt_found _ _ _ _ hfind hget
    refine ⟨fun hfd hr hok => ?_, fun hfd hr => ?_, fun h => ?_⟩
    · have hnfd : ¬ (vm.stdout_fd ≠ fd ∧ vm.stderr_fd ≠ fd) := by
        rintro ⟨h1, h2⟩
        rcases hfd with h | h
        · exact h1 h
        · exact h2 h
      simp only [qemudDispatchVMEventBits, qemudDispatchVMEvent, hat]
      rw [if_neg hnfd, if_pos (by simpa using hr), if_neg hok]
    · have hnfd : ¬ (vm.stdout_fd ≠ fd ∧ vm.stderr_fd ≠ fd) := by
        rintro ⟨h1, h2⟩
        rcases hfd with h | h
        · exact h1 h
        · exact h2 h
      simp only [qemudDispatchVMEventBits, qemudDispatchVMEvent, hat]
      rw [if_neg hnfd, if_neg (by simpa using hr)]
    · simp only [qemudDispatchVMEventBits, qemudDispatchVMEvent, hat]
      rcases h with h | ⟨hr, hfail⟩
      · rw [if_pos h]
      · by_cases hfd : vm.stdout_fd ≠ fd ∧ vm.stderr_fd ≠ fd
        · rw [if_pos hfd]
        · rw [if_neg hfd, if_pos (by simpa using hr), if_pos hfail]

/-- A hang-up on the stdout of `watchedDomain`, found at position 0 of the registry, is
classified as stopped/shutdown. -/
theorem dispatch_event_classification_witness :
    findByWatch watchedDriver.domains 1 = some 0 ∧
      watchedDriver.domains.get? 0 = some watchedDomain ∧
      qemudDispatchVMEventBits watchedDriver 1 11 VIR_EVENT_HANDLE_HANGUP false =
        stopDomain watchedDriver 0 (qemudShutdownVMDaemon watchedDomain)
          (virDomainEventNewFromObj watchedDomain EventType.stopped EventDetail.shutdown) :=
  ⟨by decide, by decide,
    ((dispatch_event_classification watchedDriver 1 11 VIR_EVENT_HANDLE_HANGUP false).2 0
      watchedDomain (by decide) (by decide)).2.1 (Or.inl (by decide)) (by decide)⟩

/-! ## `qemudDetectVcpuPIDs`: the index of the store -/

/-- C29 (fails in the code): for a KVM domain with one vCPU, whose vector `vcpupids` has
one element, a reply with lines for the vCPUs 0 and 1 passes the check
`vcpu > nvcpupids` on its second line, and the thread id 42 is stored at index 1, outside
the vector. -/
theorem detect_vcpu_pids_store_at_n :
    qemudDetectVcpuLoop 1 5
        (bytes "* CPU #0: pc=0x0 thread_id=41\n  CPU #1: pc=0x0 thread_id=42\n") (-1) [0] =
        VcpuParse.invalidStore 1 ∧
      qemudDetectVcpuPIDs (kvmDomain 1 77) true
        (MonitorResult.reply
          (bytes "* CPU #0: pc=0x0 thread_id=41\n  CPU #1: pc=0x0 thread_id=42\n" ++ [0])) =
        Outcome.undefinedBehaviour := by
  refine ⟨by decide, by decide⟩

/-! ## `qemudMonitorCommand`: the second move of the echo stripping -/

/-- C30 (fails in the code): for the command `info cpus` and a buffer that holds only the
prompt, the 9 bytes `\n(qemu) ` and the terminator, the command is not found, the newline is
at offset 0, and the second move stores 2 bytes from offset 9 on, past the 9 bytes
accumulated. -/
theorem monitor_echo_stripping_leaves_buffer :
    qemudMonitorPromptFound (bytes "info cpus") (bytes "\n(qemu) " ++ [0]) =
        some MonitorResult.invalidAccess ∧
      qemudMonitorCommand (bytes "info cpus") true true
        [MonRead.data (bytes "\n(qemu) "), MonRead.eagain true] =
        MonitorResult.invalidAccess := by
  refine ⟨by decide, by decide⟩

/-! ## `qemudDomainAttachPciDiskDevice`: the reply to `pci_add` -/

theorem qemudEscapeMonitorArg_some (src : List Nat) :
    ∃ safe_path, qemudEscapeMonitorArg true src = some safe_path := by
  simp [qemudEscapeMonitorArg, qemudEscape, VIR_ALLOC_N]

/-- C21 (fails as stated): the reply `OK bus 0, slot ` followed by no number is a success,
and the slot number of the disk stays as it was. -/
theorem pci_add_reply_without_number :
    (qemudDomainAttachPciDiskDevice [diskVda] diskVdb (hotplugOk "OK bus 0, slot \n")).code =
        some 0 ∧
      (qemudDomainAttachPciDiskDevice [diskVda] diskVdb
        (hotplugOk "OK bus 0, slot \n")).final.map (fun r => r.disks.map (fun d => d.slotnum)) =
        some [4, -1] := by
  refine ⟨by decide, by decide⟩

/-- C21 (amended): when the target is new and the allocations succeed,
`qemudDomainAttachPciDiskDevice` fails on a reply without `OK bus 0, slot ` and succeeds on
a reply with it; on success the slot number of the disk is the number `virStrToLong_i`
reads after the first `OK bus 0, slot `, and is left as it was when no number is read
there. -/
theorem pci_add_reply_interpretation (disks : List DomainDiskDef) (disk : DomainDiskDef)
    (env : HotplugEnv) (src reply : List Nat)
    (hdst : disks.any (fun d => decide (d.dst = disk.dst)) = false)
    (hrealloc : env.reallocOk = true) (hsrc : disk.src = some src)
    (hesc : env.escapeAllocOk = true) (hasp : env.asprintfOk = true)
    (hmon : env.monitor = MonitorResult.reply reply) :
    (strstr (cstr reply) PCI_ATTACH_OK_MSG = none →
      (qemudDomainAttachPciDiskDevice disks disk env).code = some (-1)) ∧
    ∀ s, strstr (cstr reply) PCI_ATTACH_OK_MSG = some s →
      (qemudDomainAttachPciDiskDevice disks disk env).code = some 0 ∧
      (∀ N e, virStrToLong_i ((cstr reply).drop (s + PCI_ATTACH_OK_MSG.length)) = some (N, e) →
        (qemudDomainAttachPciDiskDevice disks disk env).final.map (fun r => r.disk.slotnum) =
          some N) ∧
      (virStrToLong_i ((cstr reply).drop (s + PCI_ATTACH_OK_MSG.length)) = none →
        (qemudDomainAttachPciDiskDevice disks disk env).final.map (fun r => r.disk.slotnum) =
          some disk.slotnum) := by
  obtain ⟨safe_path, hsafe⟩ := qemudEscapeMonitorArg_some src
  have hrun : qemudDomainAttachPciDiskDevice disks disk env =
      match strstr (cstr reply) PCI_ATTACH_OK_MSG with
      | none =>
        hotplugFailure (-1) disks disk
          { code := VirErr.operationFailed,
            message := bytes "adding " ++ virDomainDiskBusTypeToString disk.bus ++
              bytes " disk failed" }
          [bytes "pci_add 0 storage file=" ++ safe_path ++ bytes ",if=" ++
            virDomainDiskBusTypeToString disk.bus]
      | some s =>
        Outcome.returns 0
          { disks := env.qsort (disks ++ [withParsedSlot disk (cstr reply) s]),
            disk := withParsedSlot disk (cstr reply) s,
            errors := [],
            sent := [bytes "pci_add 0 storage file=" ++ safe_path ++ bytes ",if=" ++
              virDomainDiskBusTypeToString disk.bus] } := by
    unfold qemudDomainAttachPciDiskDevice
    rw [hdst, hrealloc, hsrc, hesc, hasp, hmon]
    simp only [Bool.false_eq_true, if_false, Bool.not_true, hsafe, onMonitor]
  rw [hrun]
  refine ⟨fun hnone => ?_, fun s hs => ?_⟩
  · rw [hnone]
    rfl
  · rw [hs]
    refine ⟨rfl, fun N e hN => ?_, fun hnone => ?_⟩
    · simp only [Outcome.final, Option.map_some', withParsedSlot, hN]
    · simp only [Outcome.final, Option.map_some', withParsedSlot, hnone]

/-- The reply `OK bus 0, slot 5` to the attachment of `vdb`: the operation succeeds and the
disk is recorded in the slot 5. -/
theorem pci_add_reply_interpretation_witness :
    strstr (cstr (bytes "OK bus 0, slot 5\n" ++ [0])) PCI_ATTACH_OK_MSG = some 0 ∧
      virStrToLong_i ((cstr (bytes "OK bus 0, slot 5\n" ++ [0])).drop
        (0 + PCI_ATTACH_OK_MSG.length)) = some (5, 1) ∧
      (qemudDomainAttachPciDiskDevice [diskVda] diskVdb (hotplugOk "OK bus 0, slot 5\n")).code =
        some 0 ∧
      (qemudDomainAttachPciDiskDevice [diskVda] diskVdb
        (hotplugOk "OK bus 0, slot 5\n")).final.map (fun r => r.disk.slotnum) = some 5 :=
  ⟨by decide, by decide,
    ((pci_add_reply_interpretation [diskVda] diskVdb (hotplugOk "OK bus 0, slot 5\n")
      (bytes "/img/b") (bytes "OK bus 0, slot 5\n" ++ [0]) (by decide) rfl rfl rfl rfl rfl).2 0
      (by decide)).1,
    ((pci_add_reply_interpretation [diskVda] diskVdb (hotplugOk "OK bus 0, slot 5\n")
      (bytes "/img/b") (bytes "OK bus 0, slot 5\n" ++ [0]) (by decide) rfl rfl rfl rfl rfl).2 0
      (by decide)).2.1 5 1 (by decide)⟩

/-! ## Hot-plug: the definition changes after the monitor confirms -/

theorem dropDiskAt_perm (l : List DomainDiskDef) (i : Nat) (h : i < l.length) :
    (dropDiskAt l i).Perm (l.eraseIdx i) := by
  rcases List.eq_nil_or_concat l with hnil | ⟨init, last, hl⟩
  · subst hnil
    simp at h
  · rw [List.concat_eq_append] at hl
    subst hl
    have hlast : (init ++ [last]).getLast? = some last := by simp
    unfold dropDiskAt
    rw [hlast]
    simp only
    by_cases hi : i < init.length
    · rw [List.set_append_left _ _ hi, List.dropLast_concat, List.eraseIdx_append_of_lt_length hi]
      obtain ⟨p, x, q, hpq, hp⟩ : ∃ p x q, init = p ++ x :: q ∧ p.length = i :=
        ⟨init.take i, init.get ⟨i, hi⟩, init.drop (i + 1), by simp,
          by simp [Nat.le_of_lt hi]⟩
      subst hpq
      subst hp
      rw [List.set_append_right _ _ (Nat.le_refl _)]
      simp only [Nat.sub_self, List.set_cons_zero]
      rw [List.eraseIdx_append_of_length_le (Nat.le_refl _)]
      simp only [Nat.sub_self, List.eraseIdx_cons_zero, List.append_assoc]
      exact List.Perm.append_left p (by simpa using (List.perm_append_singleton last q).symm)
    · have hi2 : i = init.length := by
        simp only [List.length_append, List.length_singleton] at h
        omega
      subst hi2
      rw [List.set_append_right _ _ (Nat.le_refl _)]
      simp only [Nat.sub_self, List.set_cons_zero, List.dropLast_concat]
      rw [List.eraseIdx_append_of_length_le (Nat.le_refl _)]
      simp

theorem withParsedSlot_dst (disk : DomainDiskDef) (reply : List Nat) (s : Nat) :
    (withParsedSlot disk reply s).dst = disk.dst ∧ (withParsedSlot disk reply s).src = disk.src ∧
      (withParsedSlot disk reply s).bus = disk.bus ∧
      (withParsedSlot disk reply s).type = disk.type ∧
      (withParsedSlot disk reply s).device = disk.device := by
  unfold withParsedSlot
  split <;> simp

theorem qemudDomainAttachPciDiskDevice_cases (disks : List DomainDiskDef) (disk : DomainDiskDef)
    (env : HotplugEnv) (c : Int) (r : HotplugResult)
    (h : qemudDomainAttachPciDiskDevice disks disk env = Outcome.returns c r) :
    (c = -1 ∧ r.disks = disks) ∨
      (c = 0 ∧ disks.any (fun d => decide (d.dst = disk.dst)) = false ∧
        ∃ reply s, env.monitor = MonitorResult.reply reply ∧
          strstr (cstr reply) PCI_ATTACH_OK_MSG = some s ∧
          r.disk = withParsedSlot disk (cstr reply) s ∧
          r.disks = env.qsort (disks ++ [r.disk])) := by
  unfold qemudDomainAttachPciDiskDevice at h
  by_cases hdst : disks.any (fun d => decide (d.dst = disk.dst)) = true
  · rw [if_pos hdst] at h
    simp only [hotplugFailure, Outcome.returns.injEq] at h
    exact Or.inl ⟨h.1.symm, by rw [← h.2]⟩
  · rw [if_neg hdst] at h
    split at h
    · simp only [hotplugFailure, Outcome.returns.injEq] at h
      exact Or.inl ⟨h.1.symm, by rw [← h.2]⟩
    · split at h
      · exact absurd h (by simp)
      · split at h
        · simp only [hotplugFailure, Outcome.returns.injEq] at h
          exact Or.inl ⟨h.1.symm, by rw [← h.2]⟩
        · split at h
          · simp only [hotplugFailure, Outcome.returns.injEq] at h
            exact Or.inl ⟨h.1.symm, by rw [← h.2]⟩
          · cases hmon : env.monitor with
            | reply reply =>
              rw [hmon] at h
              simp only [onMonitor] at h
              split at h
              · simp only [hotplugFailure, Outcome.returns.injEq] at h
                exact Or.inl ⟨h.1.symm, by rw [← h.2]⟩
              · rename_i s hs
                simp only [Outcome.returns.injEq] at h
                refine Or.inr ⟨h.1.symm, by simpa using hdst, reply, s, rfl, hs, ?_, ?_⟩
                · rw [← h.2]
                · rw [← h.2]
            | failed =>
              rw [hmon] at h
              simp only [onMonitor, hotplugFailure, Outcome.returns.injEq] at h
              exact Or.inl ⟨h.1.symm, by rw [← h.2]⟩
            | waiting => rw [hmon] at h; simp [onMonitor] at h
            | invalidAccess => rw [hmon] at h; simp [onMonitor] at h

theorem qemudDomainAttachUsbMassstorageDevice_cases (disks : List DomainDiskDef)
    (disk : DomainDiskDef) (env : HotplugEnv) (c : Int) (r : HotplugResult)
    (h : qemudDomainAttachUsbMassstorageDevice disks disk env = Outcome.returns c r) :
    (c = -1 ∧ r.disks = disks) ∨
      (c = 0 ∧ disks.any (fun d => decide (d.dst = disk.dst)) = false ∧
        (∃ reply, env.monitor = MonitorResult.reply reply ∧
          strstr (cstr reply) (bytes "Could not add ") = none) ∧
        r.disk = disk ∧ r.disks = env.qsort (disks ++ [disk])) := by
  unfold qemudDomainAttachUsbMassstorageDevice at h
  by_cases hdst : disks.any (fun d => decide (d.dst = disk.dst)) = true
  · rw [if_pos hdst] at h
    simp only [hotplugFailure, Outcome.returns.injEq] at h
    exact Or.inl ⟨h.1.symm, by rw [← h.2]⟩
  · rw [if_neg hdst] at h
    split at h
    · simp only [hotplugFailure, Outcome.returns.injEq] at h
      exact Or.inl ⟨h.1.symm, by rw [← h.2]⟩
    · split at h
      · exact absurd h (by simp)
      · split at h
        · simp only [hotplugFailure, Outcome.returns.injEq] at h
          exact Or.inl ⟨h.1.symm, by rw [← h.2]⟩
        · split at h
          · simp only [hotplugFailure, Outcome.returns.injEq] at h
            exact Or.inl ⟨h.1.symm, by rw [← h.2]⟩
          · cases hmon : env.monitor with
            | reply reply =>
              rw [hmon] at h
              simp only [onMonitor] at h
              split at h
              · simp only [hotplugFailure, Outcome.returns.injEq] at h
                exact Or.inl ⟨h.1.symm, by rw [← h.2]⟩
              · rename_i hs
                simp only [Outcome.returns.injEq] at h
                refine Or.inr ⟨h.1.symm, by simpa using hdst, ⟨reply, rfl, by simpa using hs⟩,
                  ?_, ?_⟩
                · rw [← h.2]
                · rw [← h.2]
            | failed =>
              rw [hmon] at h
              simp only [onMonitor, hotplugFailure, Outcome.returns.injEq] at h
              exact Or.inl ⟨h.1.symm, by rw [← h.2]⟩
            | waiting => rw [hmon] at h; simp [onMonitor] at h
            | invalidAccess => rw [hmon] at h; simp [onMonitor] at h

theorem qemudDomainDetachPciDiskDevice_cases (disks : List DomainDiskDef) (disk : DomainDiskDef)
    (env : HotplugEnv) (shrinkOk : Bool) (c : Int) (r : HotplugResult)
    (h : qemudDomainDetachPciDiskDevice disks disk env shrinkOk = Outcome.returns c r) :
    (c = -1 ∧ r.disks = disks) ∨
      (∃ i detach reply, disks.findIdx? (fun d => decide (d.dst = disk.dst)) = some i ∧
        disks.get? i = some detach ∧ 1 ≤ detach.slotnum ∧
        env.monitor = MonitorResult.reply reply ∧
        strstr (cstr reply) (bytes "invalid slot") = none ∧
        ((c = -1 ∧ shrinkOk = false ∧ 1 < disks.length ∧ r.disks = dropDiskAt disks i) ∨
          (c = 0 ∧ 1 < disks.length ∧ r.disks = env.qsort (dropDiskAt disks i)) ∨
          (c = 0 ∧ disks.length ≤ 1 ∧ r.disks = []))) := by
  unfold qemudDomainDetachPciDiskDevice at h
  split at h
  · simp only [hotplugFailure, Outcome.returns.injEq] at h
    exact Or.inl ⟨h.1.symm, by rw [← h.2]⟩
  · rename_i i hfind
    split at h
    · exact absurd h (by simp)
    · rename_i detach hget
      split at h
      · simp only [hotplugFailure, Outcome.returns.injEq] at h
        exact Or.inl ⟨h.1.symm, by rw [← h.2]⟩
      · rename_i hslot
        split at h
        · simp only [hotplugFailure, Outcome.returns.injEq] at h
          exact Or.inl ⟨h.1.symm, by rw [← h.2]⟩
        · cases hmon : env.monitor with
          | reply reply =>
            rw [hmon] at h
            simp only [onMonitor] at h
            split at h
            · simp only [hotplugFailure, Outcome.returns.injEq] at h
              exact Or.inl ⟨h.1.symm, by rw [← h.2]⟩
            · rename_i hs
              refine Or.inr ⟨i, detach, reply, hfind, hget, by omega, rfl, by simpa using hs, ?_⟩
              split at h
              · rename_i hlen
                split at h
                · rename_i hshrink
                  simp only [Outcome.returns.injEq] at h
                  exact Or.inl ⟨h.1.symm, by simpa using hshrink, hlen, by rw [← h.2]⟩
                · simp only [Outcome.returns.injEq] at h
                  exact Or.inr (Or.inl ⟨h.1.symm, hlen, by rw [← h.2]⟩)
              · rename_i hlen
                simp only [Outcome.returns.injEq] at h
                exact Or.inr (Or.inr ⟨h.1.symm, by omega, by rw [← h.2]⟩)
          | failed =>
            rw [hmon] at h
            simp only [onMonitor, hotplugFailure, Outcome.returns.injEq] at h
            exact Or.inl ⟨h.1.symm, by rw [← h.2]⟩
          | waiting => rw [hmon] at h; simp [onMonitor] at h
          | invalidAccess => rw [hmon] at h; simp [onMonitor] at h

theorem qemudDomainChangeEjectableMedia_cases (disks : List DomainDiskDef)
    (newdisk : DomainDiskDef) (env : MediaEnv) (c : Int) (r : HotplugResult)
    (h : qemudDomainChangeEjectableMedia disks newdisk env = Outcome.returns c r) :
    (c = -1 ∧ r.disks = disks) ∨
      (c = 0 ∧ ∃ i origdisk reply,
        disks.findIdx? (fun d => decide (d.bus = newdisk.bus) && decide (d.dst = newdisk.dst)) =
          some i ∧
        disks.get? i = some origdisk ∧ env.monitor = MonitorResult.reply reply ∧
        strstr (cstr reply) (bytes "\ndevice ") = none ∧
        r.disks = disks.set i { origdisk with src := newdisk.src, type := newdisk.type }) := by
  unfold qemudDomainChangeEjectableMedia at h
  split at h
  · simp only [hotplugFailure, Outcome.returns.injEq] at h
    exact Or.inl ⟨h.1.symm, by rw [← h.2]⟩
  · rename_i i hfind
    split at h
    · exact absurd h (by simp)
    · rename_i origdisk hget
      split at h
      · simp only [hotplugFailure, Outcome.returns.injEq] at h
        exact Or.inl ⟨h.1.symm, by rw [← h.2]⟩
      · split at h
        · simp only [Outcome.returns.injEq] at h
          exact Or.inl ⟨h.1.symm, by rw [← h.2]⟩
        · split at h
          · simp only [Outcome.returns.injEq] at h
            exact Or.inl ⟨h.1.symm, by rw [← h.2]⟩
          · cases hmon : env.monitor with
            | reply reply =>
              rw [hmon] at h
              simp only [onMonitor] at h
              split at h
              · simp only [hotplugFailure, Outcome.returns.injEq] at h
                exact Or.inl ⟨h.1.symm, by rw [← h.2]⟩
              · rename_i hs
                simp only [Outcome.returns.injEq] at h
                exact Or.inr ⟨h.1.symm, i, origdisk, reply, hfind, hget, rfl, by simpa using hs,
                  by rw [← h.2]⟩
            | failed =>
              rw [hmon] at h
              simp only [onMonitor, hotplugFailure, Outcome.returns.injEq] at h
              exact Or.inl ⟨h.1.symm, by rw [← h.2]⟩
            | waiting => rw [hmon] at h; simp [onMonitor] at h
            | invalidAccess => rw [hmon] at h; simp [onMonitor] at h

theorem findIdx?_get_sound {α : Type} (p : α → Bool) (l : List α) (i : Nat) (x : α)
    (h : l.findIdx? p = some i) (hg : l.get? i = some x) : p x = true := by
  have h2 := List.findIdx?_of_eq_some h
  rw [List.get?_eq_getElem?] at hg
  rw [hg] at h2
  exact h2

theorem attached_targets_nodup (disks l : List DomainDiskDef) (disk : DomainDiskDef)
    (hperm : l.Perm (disks ++ [disk]))
    (hdst : disks.any (fun d => decide (d.dst = disk.dst)) = false)
    (hnd : (disks.map (fun d => d.dst)).Nodup) : (l.map (fun d => d.dst)).Nodup := by
  rw [(hperm.map (fun d => d.dst)).nodup_iff, List.map_append, List.map_singleton]
  refine List.Nodup.append hnd (List.nodup_singleton _) ?_
  rw [List.disjoint_singleton]
  intro hmem
  obtain ⟨d, hd, hdd⟩ := List.mem_map.mp hmem
  have hany : disks.any (fun d => decide (d.dst = disk.dst)) = true :=
    List.any_eq_true.mpr ⟨d, hd, by simpa using hdd⟩
  rw [hdst] at hany
  exact absurd hany (by decide)

/-- C22: hot-plug changes the list of disks only after the monitor confirms. For the attach
of a PCI disk, the attach of a USB disk, the detach of a PCI disk and the change of a
removable medium, a call that returns failure leaves the list of disks as it was (for the
detach, unless the monitor had confirmed and the failure is that of the `VIR_REALLOC_N`
which shrinks the array). A successful attach leaves the old disks and the new disk, with
target names pairwise distinct when they were; a successful detach leaves the old disks
without the disk of the target; a successful change of medium changes only the source and
the type of the disk of the bus and target. `qsort` permutes the array. -/
theorem hotplug_mutates_after_confirmation (disks : List DomainDiskDef) (disk : DomainDiskDef)
    (env : HotplugEnv) (menv : MediaEnv) (shrinkOk : Bool)
    (hq : ∀ l, (env.qsort l).Perm l) :
    (∀ c r, qemudDomainAttachPciDiskDevice disks disk env = Outcome.returns c r →
      (c ≠ 0 → r.disks = disks) ∧
      (c = 0 → r.disks.Perm (disks ++ [r.disk]) ∧ r.disk.dst = disk.dst ∧
        r.disk.src = disk.src ∧ r.disk.type = disk.type ∧
        ((disks.map (fun d => d.dst)).Nodup → (r.disks.map (fun d => d.dst)).Nodup))) ∧
    (∀ c r, qemudDomainAttachUsbMassstorageDevice disks disk env = Outcome.returns c r →
      (c ≠ 0 → r.disks = disks) ∧
      (c = 0 → r.disks.Perm (disks ++ [disk]) ∧
        ((disks.map (fun d => d.dst)).Nodup → (r.disks.map (fun d => d.dst)).Nodup))) ∧
    (∀ c r, qemudDomainDetachPciDiskDevice disks disk env shrinkOk = Outcome.returns c r →
      (c ≠ 0 → r.disks = disks ∨
        (shrinkOk = false ∧ ∃ reply, env.monitor = MonitorResult.reply reply ∧
          strstr (cstr reply) (bytes "invalid slot") = none)) ∧
      (c = 0 → ∃ i detach, disks.get? i = some detach ∧ detach.dst = disk.dst ∧
        1 ≤ detach.slotnum ∧ r.disks.Perm (disks.eraseIdx i))) ∧
    (∀ c r, qemudDomainChangeEjectableMedia disks disk menv = Outcome.returns c r →
      (c ≠ 0 → r.disks = disks) ∧
      (c = 0 → ∃ i origdisk, disks.get? i = some origdisk ∧ origdisk.bus = disk.bus ∧
        origdisk.dst = disk.dst ∧
        r.disks = disks.set i { origdisk with src := disk.src, type := disk.type })) := by
  refine ⟨fun c r h => ?_, fun c r h => ?_, fun c r h => ?_, fun c r h => ?_⟩
  · rcases qemudDomainAttachPciDiskDevice_cases disks disk env c r h with
      ⟨hc, hd⟩ | ⟨hc, hdst, reply, s, _, _, hdisk, hdisks⟩
    · exact ⟨fun _ => hd, fun h0 => absurd (hc.symm.trans h0) (by decide)⟩
    · have hf := withParsedSlot_dst disk (cstr reply) s
      rw [← hdisk] at hf
      have hperm : r.disks.Perm (disks ++ [r.disk]) := by
        rw [hdisks]
        exact hq _
      have hdst2 : disks.any (fun d => decide (d.dst = r.disk.dst)) = false := by
        rw [hf.1]
        exact hdst
      exact ⟨fun hne => absurd hc hne,
        fun _ => ⟨hperm, hf.1, hf.2.1, hf.2.2.2.1,
          attached_targets_nodup disks r.disks r.disk hperm hdst2⟩⟩
  · rcases qemudDomainAttachUsbMassstorageDevice_cases disks disk env c r h with
      ⟨hc, hd⟩ | ⟨hc, hdst, _, _, hdisks⟩
    · exact ⟨fun _ => hd, fun h0 => absurd (hc.symm.trans h0) (by decide)⟩
    · have hperm : r.disks.Perm (disks ++ [disk]) := by
        rw [hdisks]
        exact hq _
      exact ⟨fun hne => absurd hc hne,
        fun _ => ⟨hperm, attached_targets_nodup disks r.disks disk hperm hdst⟩⟩
  · rcases qemudDomainDetachPciDiskDevice_cases disks disk env shrinkOk c r h with
      ⟨hc, hd⟩ | ⟨i, detach, reply, hfind, hget, hslot, hmon, hs, hcases⟩
    · exact ⟨fun _ => Or.inl hd, fun h0 => absurd (hc.symm.trans h0) (by decide)⟩
    · have hp : detach.dst = disk.dst := by
        simpa using findIdx?_get_sound _ disks i detach hfind hget
      have hi : i < disks.length := by
        rw [List.get?_eq_some] at hget
        exact hget.1
      rcases hcases with ⟨hc, hshrink, _, _⟩ | ⟨hc, _, hd⟩ | ⟨hc, hlen, hd⟩
      · exact ⟨fun _ => Or.inr ⟨hshrink, reply, hmon, hs⟩,
          fun h0 => absurd (hc.symm.trans h0) (by decide)⟩
      · refine ⟨fun hne => absurd hc hne, fun _ => ⟨i, detach, hget, hp, hslot, ?_⟩⟩
        rw [hd]
        exact (hq _).trans (dropDiskAt_perm disks i hi)
      · refine ⟨fun hne => absurd hc hne, fun _ => ⟨i, detach, hget, hp, hslot, ?_⟩⟩
        rw [hd]
        have h0 : (disks.eraseIdx i).length = 0 := by
          rw [List.length_eraseIdx, if_pos hi]
          omega
        rw [List.length_eq_zero.mp h0]
  · rcases qemudDomainChangeEjectableMedia_cases disks disk menv c r h with
      ⟨hc, hd⟩ | ⟨hc, i, origdisk, reply, hfind, hget, _, _, hd⟩
    · exact ⟨fun _ => hd, fun h0 => absurd (hc.symm.trans h0) (by decide)⟩
    · have hp := findIdx?_get_sound _ disks i origdisk hfind hget
      simp only [Bool.and_eq_true, decide_eq_true_eq] at hp
      exact ⟨fun hne => absurd hc hne, fun _ => ⟨i, origdisk, hget, hp.1, hp.2, hd⟩⟩

/-- The definition that holds `vda` is left as it was when the monitor answers
`No such device` to the attachment of `vdb`, and holds `vda` and `vdb`, in the slot 5, when
the monitor answers `OK bus 0, slot 5`. -/
theorem hotplug_mutates_after_confirmation_witness :
    (∀ l, ((hotplugOk "No such device\n").qsort l).Perm l) ∧
      qemudDomainAttachPciDiskDevice [diskVda] diskVdb (hotplugOk "No such device\n") =
        Outcome.returns (-1)
          { disks := [diskVda], disk := diskVdb,
            errors := [{ code := VirErr.operationFailed,
                         message := bytes "adding virtio disk failed" }],
            sent := [bytes "pci_add 0 storage file=/img/b,if=virtio"] } ∧
      ({ disks := [diskVda], disk := diskVdb,
         errors := [{ code := VirErr.operationFailed,
                      message := bytes "adding virtio disk failed" }],
         sent := [bytes "pci_add 0 storage file=/img/b,if=virtio"] } : HotplugResult).disks =
        [diskVda] ∧
      qemudDomainAttachPciDiskDevice [diskVda] diskVdb (hotplugOk "OK bus 0, slot 5\n") =
        Outcome.returns 0
          { disks := [diskVda, { diskVdb with slotnum := 5 }],
            disk := { diskVdb with slotnum := 5 }, errors := [],
            sent := [bytes "pci_add 0 storage file=/img/b,if=virtio"] } ∧
      [diskVda, { diskVdb with slotnum := 5 }].Perm
        ([diskVda] ++ [{ diskVdb with slotnum := 5 }]) :=
  ⟨fun l => List.Perm.refl l, by decide,
    ((hotplug_mutates_after_confirmation [diskVda] diskVdb (hotplugOk "No such device\n")
      (mediaOk "") true (fun l => List.Perm.refl l)).1 (-1) _ (by decide)).1 (by decide),
    by decide,
    (((hotplug_mutates_after_confirmation [diskVda] diskVdb (hotplugOk "OK bus 0, slot 5\n")
      (mediaOk "") true (fun l => List.Perm.refl l)).1 0
      { disks := [diskVda, { diskVdb with slotnum := 5 }],
        disk := { diskVdb with slotnum := 5 }, errors := [],
        sent := [bytes "pci_add 0 storage file=/img/b,if=virtio"] } (by decide)).2 rfl).1⟩

/-! ## `qemudDiskDeviceName`: the names -/

theorem digitChar_toNat (k : Nat) (h : k < 10) : (Nat.digitChar k).toNat = 48 + k := by
  interval_cases k <;> rfl

theorem digitsValue_concat (ds : List Nat) (x : Nat) :
    digitsValue (ds ++ [x]) = 10 * digitsValue ds + (x - 48) := by
  simp [digitsValue, List.foldl_append]

theorem toDigitsCore_digits : ∀ (fuel n : Nat) (ds : List Char), n < fuel →
    ∃ pre : List Char, Nat.toDigitsCore 10 fuel n ds = pre ++ ds ∧ pre ≠ [] ∧
      (∀ c ∈ pre.map Char.toNat, isDigit c = true) ∧ digitsValue (pre.map Char.toNat) = n := by
  intro fuel
  induction fuel with
  | zero => intro n ds h; omega
  | succ f ih =>
    intro n ds h
    have hmod : n % 10 < 10 := Nat.mod_lt _ (by decide)
    have hd : (Nat.digitChar (n % 10)).toNat = 48 + n % 10 := digitChar_toNat _ hmod
    by_cases h0 : n / 10 = 0
    · refine ⟨[Nat.digitChar (n % 10)], ?_, by simp, ?_, ?_⟩
      · simp [Nat.toDigitsCore, h0]
      · intro c hc
        simp only [List.map_cons, List.map_nil, List.mem_singleton] at hc
        rw [hc, hd]
        simp only [isDigit, Bool.and_eq_true, decide_eq_true_eq]
        omega
      · simp only [List.map_cons, List.map_nil, digitsValue, List.foldl_cons, List.foldl_nil, hd]
        omega
    · have hlt : n / 10 < f := by omega
      obtain ⟨pre, hpre, _, hdig, hval⟩ := ih (n / 10) (Nat.digitChar (n % 10) :: ds) hlt
      refine ⟨pre ++ [Nat.digitChar (n % 10)], ?_, by simp, ?_, ?_⟩
      · simp [Nat.toDigitsCore, h0, hpre]
      · intro c hc
        simp only [List.map_append, List.map_cons, List.map_nil, List.mem_append,
          List.mem_singleton] at hc
        rcases hc with hc | hc
        · exact hdig c hc
        · rw [hc, hd]
          simp only [isDigit, Bool.and_eq_true, decide_eq_true_eq]
          omega
      · rw [List.map_append, List.map_cons, List.map_nil, digitsValue_concat, hval, hd]
        omega

theorem fmtNat_digits (n : Nat) :
    fmtNat n ≠ [] ∧ (∀ c ∈ fmtNat n, isDigit c = true) ∧ digitsValue (fmtNat n) = n := by
  obtain ⟨pre, hpre, hne, hdig, hval⟩ := toDigitsCore_digits (n + 1) n [] (Nat.lt_succ_self n)
  have h : fmtNat n = pre.map Char.toNat := by
    simp [fmtNat, Nat.toDigits, hpre]
  rw [h]
  exact ⟨by simpa using hne, hdig, hval⟩

theorem fmtNat_append_inj (a b : Nat) (t u : List Nat)
    (ht : ∀ c r, t = c :: r → isDigit c = false) (hu : ∀ c r, u = c :: r → isDigit c = false)
    (h : fmtNat a ++ t = fmtNat b ++ u) : a = b ∧ t = u := by
  have h1 := takeWhile_append_stop isDigit (fmtNat a) t (fmtNat_digits a).2.1 ht
  have h2 := takeWhile_append_stop isDigit (fmtNat b) u (fmtNat_digits b).2.1 hu
  rw [h, h2] at h1
  have hab : a = b := by
    rw [← (fmtNat_digits a).2.2, ← (fmtNat_digits b).2.2, h1]
  subst hab
  exact ⟨rfl, List.append_cancel_left h⟩

theorem fmtInt_append_inj (x y : Int) (t u : List Nat)
    (ht : ∀ c r, t = c :: r → isDigit c = false) (hu : ∀ c r, u = c :: r → isDigit c = false)
    (h : fmtInt x ++ t = fmtInt y ++ u) : x = y ∧ t = u := by
  have hhead : ∀ n : Nat, ∀ v : List Nat, ∀ w : List Nat, 45 :: w = fmtNat n ++ v → False := by
    intro n v w hw
    obtain ⟨hne, hdig, _⟩ := fmtNat_digits n
    cases hf : fmtNat n with
    | nil => exact hne hf
    | cons c r =>
      rw [hf] at hw hdig
      simp only [List.cons_append, List.cons.injEq] at hw
      have := hdig c (by simp)
      rw [← hw.1] at this
      exact absurd this (by decide)
  unfold fmtInt at h
  by_cases hx : x < 0
  · by_cases hy : y < 0
    · rw [if_pos hx, if_pos hy] at h
      simp only [List.cons_append, List.cons.injEq, true_and] at h
      obtain ⟨hab, htu⟩ := fmtNat_append_inj _ _ t u ht hu h
      exact ⟨by omega, htu⟩
    · rw [if_pos hx, if_neg hy] at h
      exact absurd (hhead _ _ _ h) id
  · by_cases hy : y < 0
    · rw [if_neg hx, if_pos hy] at h
      exact absurd (hhead _ _ _ h.symm) id
    · rw [if_neg hx, if_neg hy] at h
      obtain ⟨hab, htu⟩ := fmtNat_append_inj _ _ t u ht hu h
      exact ⟨by omega, htu⟩

theorem device_name_inj (p k k2 : List Nat) (b d b2 d2 : Int)
    (hk : k = bytes "-hd" ∨ k = bytes "-cd") (hk2 : k2 = bytes "-hd" ∨ k2 = bytes "-cd")
    (h : p ++ fmtInt b ++ k ++ fmtInt d = p ++ fmtInt b2 ++ k2 ++ fmtInt d2) :
    b = b2 ∧ k = k2 ∧ d = d2 := by
  have hnd : ∀ (k : List Nat) (t : List Nat), k = bytes "-hd" ∨ k = bytes "-cd" →
      ∀ c r, k ++ t = c :: r → isDigit c = false := by
    intro k t hk c r hc
    have h45 : c = 45 := by
      rcases hk with hk | hk <;> subst hk <;>
        · have : bytes "-hd" = [45, 104, 100] ∧ bytes "-cd" = [45, 99, 100] := by decide
          simp only [this.1, this.2, List.cons_append, List.cons.injEq] at hc
          exact hc.1.symm
    subst h45
    decide
  simp only [List.append_assoc] at h
  have h1 := List.append_cancel_left h
  obtain ⟨hb, htail⟩ := fmtInt_append_inj b b2 (k ++ fmtInt d) (k2 ++ fmtInt d2)
    (hnd k _ hk) (hnd k2 _ hk2) h1
  have hkk : k = k2 ∧ fmtInt d = fmtInt d2 := by
    have hlen : k.length = k2.length := by
      rcases hk with hk | hk <;> rcases hk2 with hk2 | hk2 <;> subst hk <;> subst hk2 <;> decide
    exact List.append_inj htail hlen
  have hd := fmtInt_append_inj d d2 [] [] (by intro c r hc; cases hc) (by intro c r hc; cases hc)
    (by simpa using hkk.2)
  exact ⟨hb, hkk.1, hd.1⟩

theorem device_name_inj_one (p : List Nat) (d d2 : Int)
    (h : p ++ fmtInt d = p ++ fmtInt d2) : d = d2 :=
  (fmtInt_append_inj d d2 [] [] (by intro c r hc; cases hc) (by intro c r hc; cases hc)
    (by simpa using List.append_cancel_left h)).1

/-- The name of a disk on the bus `ide` or `scsi`, whose name starts with `p`. -/
theorem device_name_kind (p : List Nat) (disk : DomainDiskDef) (b d : Int) :
    (if disk.device = DiskDevice.disk then
        ((some (p ++ fmtInt b ++ bytes "-hd" ++ fmtInt d), []) : Option (List Nat) × List ErrorReport)
      else (some (p ++ fmtInt b ++ bytes "-cd" ++ fmtInt d), [])) =
      (some (p ++ fmtInt b ++
        (if disk.device = DiskDevice.disk then bytes "-hd" else bytes "-cd") ++ fmtInt d), []) := by
  split <;> rfl

/-- C23 (fails as stated): on the bus `virtio` a disk and a CD-ROM with the same indexes
have the same name, `virtio1`, so the name does not determine the kind. -/
theorem virtio_name_without_kind :
    diskVdb.device = DiskDevice.disk ∧
      (qemudDiskDeviceName diskVdb (some (0, 1)) true).1 = some (bytes "virtio1") ∧
      (qemudDiskDeviceName { diskVdb with device := DiskDevice.cdrom } (some (0, 1)) true).1 =
        some (bytes "virtio1") := by
  refine ⟨by decide, by decide, by decide⟩

/-- C23 (amended): for a disk whose target converts to the bus index `b` and the device
index `d`, `qemudDiskDeviceName` returns `ide<b>-hd<d>` for ide and disk, `ide<b>-cd<d>` for
ide and cdrom, `scsi<b>-hd<d>` for scsi and disk, `scsi<b>-cd<d>` for scsi and cdrom,
`floppy<d>` for fdc and `virtio<d>` for virtio, the numbers being in decimal, and no name
with a report for any other bus. Within one bus the name determines `d`; within ide and
within scsi it also determines `b` and whether the device is a disk. -/
theorem disk_device_name_format (disk : DomainDiskDef) (b d : Int) :
    (disk.bus = DiskBus.ide → disk.device = DiskDevice.disk →
      qemudDiskDeviceName disk (some (b, d)) true =
        (some (bytes "ide" ++ fmtInt b ++ bytes "-hd" ++ fmtInt d), [])) ∧
    (disk.bus = DiskBus.ide → disk.device = DiskDevice.cdrom →
      qemudDiskDeviceName disk (some (b, d)) true =
        (some (bytes "ide" ++ fmtInt b ++ bytes "-cd" ++ fmtInt d), [])) ∧
    (disk.bus = DiskBus.scsi → disk.device = DiskDevice.disk →
      qemudDiskDeviceName disk (some (b, d)) true =
        (some (bytes "scsi" ++ fmtInt b ++ bytes "-hd" ++ fmtInt d), [])) ∧
    (disk.bus = DiskBus.scsi → disk.device = DiskDevice.cdrom →
      qemudDiskDeviceName disk (some (b, d)) true =
        (some (bytes "scsi" ++ fmtInt b ++ bytes "-cd" ++ fmtInt d), [])) ∧
    (disk.bus = DiskBus.fdc →
      qemudDiskDeviceName disk (some (b, d)) true = (some (bytes "floppy" ++ fmtInt d), [])) ∧
    (disk.bus = DiskBus.virtio →
      qemudDiskDeviceName disk (some (b, d)) true = (some (bytes "virtio" ++ fmtInt d), [])) ∧
    (disk.bus = DiskBus.xen ∨ disk.bus = DiskBus.usb →
      qemudDiskDeviceName disk (some (b, d)) true =
        (none, [{ code := VirErr.noSupport,
                  message := bytes "Unsupported disk name mapping for bus '" ++
                    virDomainDiskBusTypeToString disk.bus ++ bytes "'" }])) ∧
    ∀ (disk2 : DomainDiskDef) (b2 d2 : Int), disk2.bus = disk.bus →
      (qemudDiskDeviceName disk (some (b, d)) true).1 ≠ none →
      (qemudDiskDeviceName disk (some (b, d)) true).1 =
        (qemudDiskDeviceName disk2 (some (b2, d2)) true).1 →
      d = d2 ∧
        (disk.bus = DiskBus.ide ∨ disk.bus = DiskBus.scsi →
          b = b2 ∧ (disk.device = DiskDevice.disk ↔ disk2.device = DiskDevice.disk)) := by
  have hkind : ∀ dk : DomainDiskDef,
      (if dk.device = DiskDevice.disk then bytes "-hd" else bytes "-cd") = bytes "-hd" ∨
      (if dk.device = DiskDevice.disk then bytes "-hd" else bytes "-cd") = bytes "-cd" := by
    intro dk
    split
    · exact Or.inl rfl
    · exact Or.inr rfl
  have hkeq : ∀ dk dk2 : DomainDiskDef,
      (if dk.device = DiskDevice.disk then bytes "-hd" else bytes "-cd") =
        (if dk2.device = DiskDevice.disk then bytes "-hd" else bytes "-cd") →
      (dk.device = DiskDevice.disk ↔ dk2.device = DiskDevice.disk) := by
    intro dk dk2 h
    by_cases h1 : dk.device = DiskDevice.disk <;> by_cases h2 : dk2.device = DiskDevice.disk
    · exact ⟨fun _ => h2, fun _ => h1⟩
    · rw [if_pos h1, if_neg h2] at h
      exact absurd h (by decide)
    · rw [if_neg h1, if_pos h2] at h
      exact absurd h (by decide)
    · exact ⟨fun h => absurd h h1, fun h => absurd h h2⟩
  refine ⟨fun hb hd => ?_, fun hb hd => ?_, fun hb hd => ?_, fun hb hd => ?_, fun hb => ?_,
    fun hb => ?_, fun hb => ?_, fun disk2 b2 d2 hbus hne heq => ?_⟩
  · simp [qemudDiskDeviceName, hb, hd]
  · simp [qemudDiskDeviceName, hb, hd]
  · simp [qemudDiskDeviceName, hb, hd]
  · simp [qemudDiskDeviceName, hb, hd]
  · simp [qemudDiskDeviceName, hb]
  · simp [qemudDiskDeviceName, hb]
  · rcases hb with hb | hb <;> simp [qemudDiskDeviceName, hb]
  · cases hb : disk.bus with
    | ide =>
      rw [hb] at hbus
      simp only [qemudDiskDeviceName, hb, hbus, Bool.not_true, Bool.false_eq_true, if_false,
        device_name_kind, Option.some.injEq] at heq
      obtain ⟨h1, h2, h3⟩ := device_name_inj _ _ _ b d b2 d2 (hkind disk) (hkind disk2) heq
      exact ⟨h3, fun _ => ⟨h1, hkeq disk disk2 h2⟩⟩
    | scsi =>
      rw [hb] at hbus
      simp only [qemudDiskDeviceName, hb, hbus, Bool.not_true, Bool.false_eq_true, if_false,
        device_name_kind, Option.some.injEq] at heq
      obtain ⟨h1, h2, h3⟩ := device_name_inj _ _ _ b d b2 d2 (hkind disk) (hkind disk2) heq
      exact ⟨h3, fun _ => ⟨h1, hkeq disk disk2 h2⟩⟩
    | fdc =>
      rw [hb] at hbus
      simp only [qemudDiskDeviceName, hb, hbus, Bool.not_true, Bool.false_eq_true, if_false,
        Option.some.injEq] at heq
      exact ⟨device_name_inj_one _ d d2 heq, fun h => by rcases h with h | h <;> cases h⟩
    | virtio =>
      rw [hb] at hbus
      simp only [qemudDiskDeviceName, hb, hbus, Bool.not_true, Bool.false_eq_true, if_false,
        Option.some.injEq] at heq
      exact ⟨device_name_inj_one _ d d2 heq, fun h => by rcases h with h | h <;> cases h⟩
    | xen => exact absurd (by simp [qemudDiskDeviceName, hb]) hne
    | usb => exact absurd (by simp [qemudDiskDeviceName, hb]) hne

/-- The CD-ROM `hdc`, of the bus index 1 and the device index 0, has the name
`ide1-cd0`. -/
theorem disk_device_name_format_witness :
    cdromHdc.bus = DiskBus.ide ∧ cdromHdc.device = DiskDevice.cdrom ∧
      qemudDiskDeviceName cdromHdc (some (1, 0)) true = (some (bytes "ide1-cd0"), []) :=
  ⟨rfl, rfl, ((disk_device_name_format cdromHdc 1 0).2.1 rfl rfl).trans (by decide)⟩

/-! ## `virInsertElementsN` -/

theorem toSize_of_lt (n : Nat) (h : n < 18446744073709551616) : toSize n = n :=
  Nat.mod_eq_of_lt h

theorem subSize_of_le (a b : Nat) (hb : b ≤ a) (ha : a < 18446744073709551616) :
    subSize a b = a - b := by
  unfold subSize
  have h : a + 18446744073709551616 - b = (a - b) + 18446744073709551616 := by omega
  rw [h, Nat.add_mod_right]
  exact Nat.mod_eq_of_lt (by omega)

theorem virReallocN_grow (env : AllocEnv) (block : List Nat) (size count : Nat)
    (hsize : 0 < size) (hfit : size * count ≤ env.oversizedLimit)
    (hlimit : env.oversizedLimit < 18446744073709551616) (hrealloc : env.reallocOk = true)
    (hlen : block.length ≤ size * count) :
    virReallocN env block size count =
      (0, block ++ (List.range (size * count - block.length)).map env.junk) := by
  have hdiv : ¬ env.oversizedLimit / size < count := by
    rw [Nat.not_lt, Nat.le_div_iff_mul_le hsize, Nat.mul_comm]
    exact hfit
  unfold virReallocN
  rw [if_neg hdiv, if_neg (by simp [hrealloc]), toSize_of_lt _ (by omega),
    List.take_of_length_le hlen]

theorem memset_tail (block tail : List Nat) (n : Nat) (h : tail.length = n) :
    memset (block ++ tail) block.length 0 n = some (block ++ List.replicate n 0) := by
  unfold memset
  rw [if_pos (by simp [h])]
  simp [h, List.take_append_of_le_length, List.drop_eq_nil_of_le]

theorem virExpandN_grow (env : AllocEnv) (block : List Nat) (size count add : Nat)
    (hsize : 0 < size) (hblock : block.length = size * count)
    (hfit : size * (count + add) ≤ env.oversizedLimit)
    (hlimit : env.oversizedLimit < 18446744073709551616) (hrealloc : env.reallocOk = true) :
    virExpandN env block size count add =
      some (0, block ++ List.replicate (size * add) 0, count + add) := by
  have hca : count + add ≤ size * (count + add) := Nat.le_mul_of_pos_left _ hsize
  have hmul : size * (count + add) = size * count + size * add := Nat.mul_add _ _ _
  have hre := virReallocN_grow env block size (count + add) hsize hfit hlimit hrealloc
    (by rw [hblock, hmul]; omega)
  unfold virExpandN
  rw [toSize_of_lt (count + add) (by omega), if_neg (by omega), hre]
  simp only [if_true]
  rw [toSize_of_lt (size * count) (by omega), toSize_of_lt (size * add) (by omega), ← hblock,
    memset_tail _ _ _ (by simp [hblock, hmul])]

theorem memmove_up (block zs : List Nat) (A D : Nat) (hA : A ≤ block.length)
    (hzs : zs.length = D) :
    ∃ moved, memmove (block ++ zs) (A + D) A (block.length - A) = some moved ∧
      moved.length = block.length + D ∧ moved.take A = block.take A ∧
      moved.drop (A + D) = block.drop A := by
  have hlen : (block ++ zs).length = block.length + D := by simp [hzs]
  have htake : ((block ++ zs).take (A + D)).length = A + D := by
    rw [List.length_take, hlen]
    omega
  have hmid : ((block ++ zs).drop A).take (block.length - A) = block.drop A := by
    rw [List.drop_append_of_le_length hA]
    exact List.take_left' (by simp)
  have hend : (block ++ zs).drop (A + D + (block.length - A)) = [] :=
    List.drop_eq_nil_of_le (by rw [hlen]; omega)
  refine ⟨(block ++ zs).take (A + D) ++ block.drop A, ?_, ?_, ?_, ?_⟩
  · unfold memmove
    rw [if_pos (by rw [hlen]; omega), hmid, hend, List.append_nil]
  · rw [List.length_append, htake, List.length_drop]
    omega
  · rw [List.take_append_of_le_length (by omega), List.take_take, Nat.min_eq_left (by omega),
      List.take_append_of_le_length hA]
  · exact List.drop_left' htake

theorem virInsertElementsMove_spec (block : List Nat) (size at_ count add : Nat)
    (newelems : Option (List Nat)) (clearOriginal : Bool)
    (hblock : block.length = size * count) (hat : at_ ≤ count)
    (hfit : size * (count + add) < 18446744073709551616) (hsize : 0 < size)
    (hnew : ∀ elems, newelems = some elems → elems.length = size * add) :
    virInsertElementsMove (block ++ List.replicate (size * add) 0) size at_ (count + add) add
        newelems clearOriginal false =
      Outcome.returns 0
        { block := block.take (size * at_) ++
            (match newelems with
             | some elems => elems
             | none => List.replicate (size * add) 0) ++ block.drop (size * at_),
          count := count + add,
          newelems :=
            match newelems with
            | some elems => some (if clearOriginal then List.replicate (size * add) 0 else elems)
            | none => none } := by
  have hca : count + add ≤ size * (count + add) := Nat.le_mul_of_pos_left _ hsize
  have hmul : size * (count + add) = size * count + size * add := Nat.mul_add _ _ _
  have hmul2 : size * (at_ + add) = size * at_ + size * add := Nat.mul_add _ _ _
  have hAC : size * at_ ≤ size * count := Nat.mul_le_mul_left _ hat
  have hsub : size * (count - at_) = size * count - size * at_ := Nat.mul_sub _ _ _
  have hs1 : subSize (count + add) add = count := by
    rw [subSize_of_le _ _ (by omega) (by omega)]
    omega
  have hs2 : subSize count at_ = count - at_ := subSize_of_le _ _ hat (by omega)
  have hA : size * at_ ≤ block.length := by rw [hblock]; exact hAC
  obtain ⟨moved, hmoved, hmlen, hmtake, hmdrop⟩ :=
    memmove_up block (List.replicate (size * add) 0) (size * at_) (size * add) hA (by simp)
  -- the block after the move of the elements from `at_` on
  have hmove : ∃ m, (if at_ < subSize (count + add) add then
        memmove (block ++ List.replicate (size * add) 0) (toSize (size * toSize (at_ + add)))
          (toSize (size * at_)) (toSize (size * subSize (subSize (count + add) add) at_))
       else some (block ++ List.replicate (size * add) 0)) = some m ∧
      m.length = block.length + size * add ∧ m.take (size * at_) = block.take (size * at_) ∧
      m.drop (size * at_ + size * add) = block.drop (size * at_) := by
    rw [hs1, hs2, toSize_of_lt (at_ + add) (by omega), hmul2,
      toSize_of_lt (size * at_ + size * add) (by omega), toSize_of_lt (size * at_) (by omega),
      hsub, toSize_of_lt (size * count - size * at_) (by omega), ← hblock]
    by_cases hlt : at_ < count
    · rw [if_pos hlt]
      exact ⟨moved, hmoved, hmlen, hmtake, hmdrop⟩
    · rw [if_neg hlt]
      have hac : at_ = count := by omega
      have hal : size * at_ = block.length := by rw [hac, hblock]
      refine ⟨_, rfl, by simp, ?_, ?_⟩
      · rw [hal]
        simp
      · rw [hal]
        simp
  obtain ⟨m, hm, hmlen2, hmtake2, hmdrop2⟩ := hmove
  unfold virInsertElementsMove
  rw [hm]
  simp only
  rw [toSize_of_lt (size * at_) (by omega), toSize_of_lt (size * add) (by omega)]
  cases newelems with
  | some elems =>
    have hel := hnew elems rfl
    simp only
    unfold memcpy
    rw [if_pos ⟨by omega, by omega⟩]
    rw [List.take_of_length_le (Nat.le_of_eq hel), List.drop_eq_nil_of_le (Nat.le_of_eq hel),
      hmtake2, hmdrop2, List.append_nil]
    cases clearOriginal <;> rfl
  | none =>
    simp only [Bool.false_eq_true, false_or, hs1]
    by_cases hlt : at_ < count
    · rw [if_pos hlt]
      unfold memset
      rw [if_pos (by omega)]
      simp only [hmtake2, hmdrop2]
    · rw [if_neg hlt]
      have hac : at_ = count := by omega
      have hal : size * at_ = block.length := by rw [hac, hblock]
      have hmeq : m = m.take (size * at_) ++ m.drop (size * at_) := (List.take_append_drop _ _).symm
      have hd : m.drop (size * at_) = List.replicate (size * add) 0 := by
        have h1 : m = block ++ List.replicate (size * add) 0 := by
          rw [hs1, if_neg hlt] at hm
          exact (Option.some.inj hm).symm
        rw [h1, hal]
        simp
      rw [hmeq, hmtake2, hd, hal]
      simp

/-- C25 (fails as stated): with `count + add` not overflowing and `at <= count`,
`virInsertElementsN` returns -1 and leaves the array when `realloc` fails, and when the size
in bytes of the new array is above the bound of `xalloc_oversized` (8 bytes an element,
`2^61 + 1` elements). -/
theorem insert_elements_allocation_fails :
    virInsertElementsN allocFails [1, 2, 3, 4, 5, 6] 2 1 3 1 (some [9, 9]) false false =
        Outcome.returns (-1) { block := [1, 2, 3, 4, 5, 6], count := 3, newelems := some [9, 9] } ∧
      virInsertElementsN allocOk [1, 2, 3, 4, 5, 6, 7, 8] 8 0 1 2305843009213693952 none false
        false =
        Outcome.returns (-1)
          { block := [1, 2, 3, 4, 5, 6, 7, 8], count := 1, newelems := none } := by
  refine ⟨by decide, by decide⟩

/-- C25 (amended): on an array of `count` elements of `size` bytes, with `count + add` not
overflowing and `inPlace` false. For `at > count`, `virInsertElementsN` returns -1 and
leaves the array and the count. For `at <= count`, when the size in bytes of `count + add`
elements is within the bound of `xalloc_oversized` and `realloc` succeeds, it returns 0, the
count is `count + add` and the array is the old elements before `at`, the `add` new
elements (the bytes of `newelems`, or zero bytes when `newelems` is NULL) and the old
elements from `at` on, and the caller's `newelems` are zeroed when `clearOriginal` is true
and left otherwise; when the size is above the bound, or `realloc` fails, it returns -1 and
leaves the array and the count. -/
theorem insert_elements_spec (env : AllocEnv) (block : List Nat) (size at_ count add : Nat)
    (newelems : Option (List Nat)) (clearOriginal : Bool)
    (hsize : 0 < size) (hblock : block.length = size * count)
    (hlimit : env.oversizedLimit < 18446744073709551616)
    (hcount : count + add < 18446744073709551616)
    (hnew : ∀ elems, newelems = some elems → elems.length = size * add) :
    (count < at_ →
      virInsertElementsN env block size at_ count add newelems clearOriginal false =
        Outcome.returns (-1) { block := block, count := count, newelems := newelems }) ∧
    (at_ ≤ count → size * (count + add) ≤ env.oversizedLimit → env.reallocOk = true →
      virInsertElementsN env block size at_ count add newelems clearOriginal false =
        Outcome.returns 0
          { block := block.take (size * at_) ++
              (match newelems with
               | some elems => elems
               | none => List.replicate (size * add) 0) ++ block.drop (size * at_),
            count := count + add,
            newelems :=
              match newelems with
              | some elems =>
                some (if clearOriginal then List.replicate (size * add) 0 else elems)
              | none => none }) ∧
    (at_ ≤ count →
      (env.oversizedLimit < size * (count + add) ∨ (env.reallocOk = false ∧ 0 < count + add)) →
      virInsertElementsN env block size at_ count add newelems clearOriginal false =
        Outcome.returns (-1) { block := block, count := count, newelems := newelems }) := by
  refine ⟨fun hgt => ?_, fun hat hfit hrealloc => ?_, fun hat hfail => ?_⟩
  · unfold virInsertElementsN
    rw [if_pos hgt]
  · unfold virInsertElementsN
    rw [if_neg (by omega), virExpandN_grow env block size count add hsize hblock hfit hlimit
      hrealloc]
    simp only [Bool.false_eq_true, if_false]
    rw [if_neg (by decide)]
    exact virInsertElementsMove_spec block size at_ count add newelems clearOriginal hblock hat
      (by omega) hsize hnew
  · have hre : (virReallocN env block size (count + add)).1 = -1 ∧
        (virReallocN env block size (count + add)).2 = block := by
      unfold virReallocN
      by_cases hover : env.oversizedLimit < size * (count + add)
      · have hdiv : env.oversizedLimit / size < count + add := by
          rw [Nat.div_lt_iff_lt_mul hsize, Nat.mul_comm]
          exact hover
        rw [if_pos hdiv]
        exact ⟨rfl, rfl⟩
      · have hdiv : ¬ env.oversizedLimit / size < count + add := by
          rw [Nat.div_lt_iff_lt_mul hsize, Nat.mul_comm]
          exact hover
        rcases hfail with hfail | ⟨hfail, hpos⟩
        · exact absurd hfail hover
        · have hne : toSize (size * (count + add)) ≠ 0 := by
            rw [toSize_of_lt _ (by omega)]
            exact Nat.pos_iff_ne_zero.mp (Nat.mul_pos hsize hpos)
          rw [if_neg hdiv, if_pos ⟨hfail, hne⟩]
          exact ⟨rfl, rfl⟩
    unfold virInsertElementsN
    rw [if_neg (by omega)]
    simp only [Bool.false_eq_true, if_false]
    unfold virExpandN
    rw [toSize_of_lt (count + add) hcount, if_neg (by omega), hre.1]
    simp only [show ¬ ((-1 : Int) = 0) by decide, if_false]
    rw [if_pos (by decide)]

/-- One element `9 9` is inserted at index 1 of the array `1 2`, `3 4`, `5 6` of elements of
2 bytes, and the caller's copy is zeroed. -/
theorem insert_elements_spec_witness :
    virInsertElementsN allocOk [1, 2, 3, 4, 5, 6] 2 1 3 1 (some [9, 9]) true false =
      Outcome.returns 0
        { block := [1, 2, 9, 9, 3, 4, 5, 6], count := 4, newelems := some [0, 0] } :=
  (insert_elements_spec allocOk [1, 2, 3, 4, 5, 6] 2 1 3 1 (some [9, 9]) true (by decide)
    (by decide) (by decide) (by decide)
    (fun elems h => by cases h; rfl)).2.1 (by decide) (by decide) rfl
